import Mathlib

/-! MT4 Expander: execution contexts and MQL utility functions

A shallow embedding of parts of the MT4 Expander DLL:

* the binary layout of `EXECUTION_CONTEXT` (header/struct/xtrade/ExecutionContext.h),
* the context registry and the accessor layer of the execution contexts,
* the record accessors of src/struct/mt4/SymbolGroup.cpp, src/struct/win32/FileTime.cpp and
  src/struct/win32/TimeZoneInformation.cpp,
* the utility functions of src/mql/MQLUtils.cpp.

Machine integers are modelled by `Int` and `Nat`; a `BOOL` is an `Int` (`TRUE` = 1, `FALSE` = 0);
a pointer is its 32-bit address, a `Nat`, and `NULL` is address 0.
-/

namespace Expander

/-! ## Layout of EXECUTION_CONTEXT -/

/-- The C types that occur as member types of `EXECUTION_CONTEXT`. -/
inductive CType where
  | uint
  | int
  | BOOL
  | DWORD
  | HWND
  | datetime
  | ProgramType
  | ModuleType
  | LaunchType
  | RootFunction
  | InitializeReason
  | UninitializeReason
  | ptrTEST
  | ptrEXECUTION_CONTEXT
  | ptrChar
  | charArray (len : Nat)
  deriving DecidableEq, Repr

/-- The properties of the compilation target the layout depends on. None of them is fixed by the
sources: `MAX_PATH` comes from the Windows headers, `MAX_SYMBOL_LENGTH` from shared/defines.h, and
`scalarSize` is the size in bytes of an integer, enum, BOOL, pointer or handle. -/
structure Target where
  scalarSize : Nat
  MAX_PATH : Nat
  MAX_SYMBOL_LENGTH : Nat
  deriving DecidableEq, Repr

/-- The Win32 target the DLL is built for. -/
def win32 : Target := { scalarSize := 4, MAX_PATH := 260, MAX_SYMBOL_LENGTH := 11 }

/-- Size in bytes of a value of a member type: `sizeof(char)` is 1, so a char array of `len`
elements takes `len` bytes; every other member type is a scalar. -/
def CType.sizeof (t : Target) : CType → Nat
  | .charArray len => len
  | _ => t.scalarSize

/-- One member of a struct together with the offset and the size its declaration documents. -/
structure Member where
  name : String
  type : CType
  docOffset : Nat
  docSize : Nat
  deriving DecidableEq, Repr

/-- The members of `struct EXECUTION_CONTEXT` in declaration order, with the documented offset and
size columns. -/
def EXECUTION_CONTEXT (t : Target) : List Member :=
  [ { name := "programIndex",     type := .uint,                                docOffset := 0,   docSize := 4 },
    { name := "programType",      type := .ProgramType,                         docOffset := 4,   docSize := 4 },
    { name := "programName",      type := .charArray t.MAX_PATH,                docOffset := 8,   docSize := 260 },
    { name := "moduleType",       type := .ModuleType,                          docOffset := 268, docSize := 4 },
    { name := "moduleName",       type := .charArray t.MAX_PATH,                docOffset := 272, docSize := 260 },
    { name := "launchType",       type := .LaunchType,                          docOffset := 532, docSize := 4 },
    { name := "rootFunction",     type := .RootFunction,                        docOffset := 536, docSize := 4 },
    { name := "initCycle",        type := .BOOL,                                docOffset := 540, docSize := 4 },
    { name := "initReason",       type := .InitializeReason,                    docOffset := 544, docSize := 4 },
    { name := "uninitReason",     type := .UninitializeReason,                  docOffset := 548, docSize := 4 },
    { name := "testing",          type := .BOOL,                                docOffset := 552, docSize := 4 },
    { name := "visualMode",       type := .BOOL,                                docOffset := 556, docSize := 4 },
    { name := "optimization",     type := .BOOL,                                docOffset := 560, docSize := 4 },
    { name := "test",             type := .ptrTEST,                             docOffset := 564, docSize := 4 },
    { name := "initFlags",        type := .DWORD,                               docOffset := 568, docSize := 4 },
    { name := "deinitFlags",      type := .DWORD,                               docOffset := 572, docSize := 4 },
    { name := "logging",          type := .BOOL,                                docOffset := 576, docSize := 4 },
    { name := "customLogFile",    type := .charArray t.MAX_PATH,                docOffset := 580, docSize := 260 },
    { name := "symbol",           type := .charArray (t.MAX_SYMBOL_LENGTH + 1), docOffset := 840, docSize := 12 },
    { name := "timeframe",        type := .uint,                                docOffset := 852, docSize := 4 },
    { name := "hChart",           type := .HWND,                                docOffset := 856, docSize := 4 },
    { name := "hChartWindow",     type := .HWND,                                docOffset := 860, docSize := 4 },
    { name := "superContext",     type := .ptrEXECUTION_CONTEXT,                docOffset := 864, docSize := 4 },
    { name := "threadId",         type := .uint,                                docOffset := 868, docSize := 4 },
    { name := "ticks",            type := .uint,                                docOffset := 872, docSize := 4 },
    { name := "currentTickTime",  type := .datetime,                            docOffset := 876, docSize := 4 },
    { name := "previousTickTime", type := .datetime,                            docOffset := 880, docSize := 4 },
    { name := "mqlError",         type := .int,                                 docOffset := 884, docSize := 4 },
    { name := "dllError",         type := .int,                                 docOffset := 888, docSize := 4 },
    { name := "dllErrorMsg",      type := .ptrChar,                             docOffset := 892, docSize := 4 },
    { name := "dllWarning",       type := .int,                                 docOffset := 896, docSize := 4 },
    { name := "dllWarningMsg",    type := .ptrChar,                             docOffset := 900, docSize := 4 } ]

/-- Sum of the sizes of a run of members. -/
def sizeofMembers (t : Target) (ms : List Member) : Nat :=
  (ms.map (fun m => m.type.sizeof t)).sum

/-- Offset of member number `i` under `#pragma pack(push, 1)`: there is no padding, so a member
starts right after the members declared before it. -/
def packedOffset (t : Target) (ms : List Member) (i : Nat) : Nat :=
  sizeofMembers t (ms.take i)

/-- Size of the whole packed struct. -/
def packedSize (t : Target) (ms : List Member) : Nat :=
  sizeofMembers t ms

/-- The documented columns of member number `i` agree with the packed layout. -/
def memberConsistent (t : Target) (ms : List Member) (i : Nat) : Bool :=
  match ms[i]? with
  | some m => m.docOffset == packedOffset t ms i && m.docSize == m.type.sizeof t
  | none => true


/-! ## Execution contexts: records, chains and the registry

The header declares the record (`struct EXECUTION_CONTEXT`), the chain type
(`typedef std::vector<EXECUTION_CONTEXT*> ContextChain`) and the signatures of the getters and
setters. The bodies of the `ec_*` functions and the chain bookkeeping are not among the sources;
the definitions of this section that implement them follow the design document (sections 3, 4.1,
4.2, 4.3 and 9) and say so.
-/

/-- The members of `struct EXECUTION_CONTEXT`, in declaration order. -/
inductive Field where
  | programIndex
  | programType
  | programName
  | moduleType
  | moduleName
  | launchType
  | rootFunction
  | initCycle
  | initReason
  | uninitReason
  | testing
  | visualMode
  | optimization
  | test
  | initFlags
  | deinitFlags
  | logging
  | customLogFile
  | symbol
  | timeframe
  | hChart
  | hChartWindow
  | superContext
  | threadId
  | ticks
  | currentTickTime
  | previousTickTime
  | mqlError
  | dllError
  | dllErrorMsg
  | dllWarning
  | dllWarningMsg
  deriving DecidableEq, Repr

/-- Modelled from the spec: the identity members, which section 3 lists as set once and immutable
for the lifetime of the record: program index, program type, program name, module type, module
name and launch type. -/
def Field.isIdentity : Field → Bool
  | .programIndex => true
  | .programType => true
  | .programName => true
  | .moduleType => true
  | .moduleName => true
  | .launchType => true
  | _ => false

/-- The getters declared in ExecutionContext.h. -/
inductive Getter where
  | ec_ProgramIndex
  | ec_ProgramType
  | ec_ProgramName
  | ec_ModuleType
  | ec_ModuleName
  | ec_LaunchType
  | ec_RootFunction
  | ec_InitCycle
  | ec_InitReason
  | ec_UninitReason
  | ec_Testing
  | ec_VisualMode
  | ec_Optimization
  | ec_InitFlags
  | ec_DeinitFlags
  | ec_Logging
  | ec_CustomLogFile
  | ec_Symbol
  | ec_Timeframe
  | ec_hChart
  | ec_hChartWindow
  | ec_SuperContext
  | ec_lpSuperContext
  | ec_ThreadId
  | ec_Ticks
  | ec_CurrentTickTime
  | ec_PreviousTickTime
  | ec_MqlError
  | ec_DllError
  | ec_DllWarning
  deriving DecidableEq, Repr

/-- The member a getter reads. -/
def Getter.field : Getter → Field
  | .ec_ProgramIndex => .programIndex
  | .ec_ProgramType => .programType
  | .ec_ProgramName => .programName
  | .ec_ModuleType => .moduleType
  | .ec_ModuleName => .moduleName
  | .ec_LaunchType => .launchType
  | .ec_RootFunction => .rootFunction
  | .ec_InitCycle => .initCycle
  | .ec_InitReason => .initReason
  | .ec_UninitReason => .uninitReason
  | .ec_Testing => .testing
  | .ec_VisualMode => .visualMode
  | .ec_Optimization => .optimization
  | .ec_InitFlags => .initFlags
  | .ec_DeinitFlags => .deinitFlags
  | .ec_Logging => .logging
  | .ec_CustomLogFile => .customLogFile
  | .ec_Symbol => .symbol
  | .ec_Timeframe => .timeframe
  | .ec_hChart => .hChart
  | .ec_hChartWindow => .hChartWindow
  | .ec_SuperContext => .superContext
  | .ec_lpSuperContext => .superContext
  | .ec_ThreadId => .threadId
  | .ec_Ticks => .ticks
  | .ec_CurrentTickTime => .currentTickTime
  | .ec_PreviousTickTime => .previousTickTime
  | .ec_MqlError => .mqlError
  | .ec_DllError => .dllError
  | .ec_DllWarning => .dllWarning

/-- The setters declared in ExecutionContext.h. -/
inductive Setter where
  | ec_SetProgramIndex
  | ec_SetProgramType
  | ec_SetProgramName
  | ec_SetModuleType
  | ec_SetModuleName
  | ec_SetLaunchType
  | ec_SetRootFunction
  | ec_SetInitCycle
  | ec_SetInitReason
  | ec_SetUninitReason
  | ec_SetTesting
  | ec_SetVisualMode
  | ec_SetOptimization
  | ec_SetInitFlags
  | ec_SetDeinitFlags
  | ec_SetLogging
  | ec_SetCustomLogFile
  | ec_SetSymbol
  | ec_SetTimeframe
  | ec_SetHChart
  | ec_SetHChartWindow
  | ec_SetSuperContext
  | ec_SetThreadId
  | ec_SetTicks
  | ec_SetCurrentTickTime
  | ec_SetPreviousTickTime
  | ec_SetMqlError
  | ec_SetDllError
  | ec_SetDllWarning
  deriving DecidableEq, Repr

/-- The member a setter writes. -/
def Setter.field : Setter → Field
  | .ec_SetProgramIndex => .programIndex
  | .ec_SetProgramType => .programType
  | .ec_SetProgramName => .programName
  | .ec_SetModuleType => .moduleType
  | .ec_SetModuleName => .moduleName
  | .ec_SetLaunchType => .launchType
  | .ec_SetRootFunction => .rootFunction
  | .ec_SetInitCycle => .initCycle
  | .ec_SetInitReason => .initReason
  | .ec_SetUninitReason => .uninitReason
  | .ec_SetTesting => .testing
  | .ec_SetVisualMode => .visualMode
  | .ec_SetOptimization => .optimization
  | .ec_SetInitFlags => .initFlags
  | .ec_SetDeinitFlags => .deinitFlags
  | .ec_SetLogging => .logging
  | .ec_SetCustomLogFile => .customLogFile
  | .ec_SetSymbol => .symbol
  | .ec_SetTimeframe => .timeframe
  | .ec_SetHChart => .hChart
  | .ec_SetHChartWindow => .hChartWindow
  | .ec_SetSuperContext => .superContext
  | .ec_SetThreadId => .threadId
  | .ec_SetTicks => .ticks
  | .ec_SetCurrentTickTime => .currentTickTime
  | .ec_SetPreviousTickTime => .previousTickTime
  | .ec_SetMqlError => .mqlError
  | .ec_SetDllError => .dllError
  | .ec_SetDllWarning => .dllWarning

/-- The six setters of the identity members. -/
def identitySetters : List Setter :=
  [.ec_SetProgramIndex, .ec_SetProgramType, .ec_SetProgramName,
   .ec_SetModuleType, .ec_SetModuleName, .ec_SetLaunchType]

/-- MQL program types (`enum ProgramType` of expander.h). -/
inductive ProgramType where
  | PT_INDICATOR
  | PT_EXPERT
  | PT_SCRIPT
  deriving DecidableEq, Repr

/-- MQL module types (`enum ModuleType` of expander.h). -/
inductive ModuleType where
  | MT_INDICATOR
  | MT_EXPERT
  | MT_SCRIPT
  | MT_LIBRARY
  deriving DecidableEq, Repr

/-- MQL program launch types (`enum LaunchType` of expander.h). -/
inductive LaunchType where
  | LT_TEMPLATE
  | LT_PROGRAM
  | LT_MANUAL
  deriving DecidableEq, Repr

/-- MQL program root functions (`enum RootFunction` of expander.h). -/
inductive RootFunction where
  | RF_INIT
  | RF_START
  | RF_DEINIT
  deriving DecidableEq, Repr

/-- Modelled from the spec: the context reference handed out by the registry, which the sources
represent by a raw `EXECUTION_CONTEXT*`. Following section 9 it is a generation-checked handle:
a program index (1-based), a position of that program's chain, and the generation of the record it
was handed out for. -/
structure Handle where
  programIndex : Nat
  slot : Nat
  generation : Nat
  deriving DecidableEq, Repr

/-- Modelled from the spec: the reference an accessor receives; `none` is the null reference. -/
abbrev ContextRef := Option Handle

/-- Modelled from the spec: the values the members of a record hold. -/
inductive Value where
  | num (n : Int)
  | text (s : String)
  | programType (t : ProgramType)
  | moduleType (t : ModuleType)
  | launchType (t : LaunchType)
  | rootFunction (f : RootFunction)
  | context (ref : ContextRef)
  deriving DecidableEq, Repr

/-- Modelled from the spec: the lifecycle states of section 4.2, `Uninitialized`, `Active` and
`Invalid` (terminal). The root phase and the init-cycle marker of an active record are its
members `rootFunction` and `initCycle`. -/
inductive Lifecycle where
  | Uninitialized
  | Active
  | Invalid
  deriving DecidableEq, Repr

/-- Modelled from the spec: one execution context, the members of `struct EXECUTION_CONTEXT` that
have been set (a member that was never set is absent from `fields`) together with its lifecycle
state and the generation the registry gave it when it was created. -/
structure ContextRecord where
  generation : Nat
  state : Lifecycle
  fields : List (Field × Value)
  deriving DecidableEq, Repr

/-- All contexts of a single MQL program (`typedef std::vector<EXECUTION_CONTEXT*> ContextChain`). -/
abbrev ContextChain := List ContextRecord

/-- Modelled from the spec: the ContextRegistry of section 4.1. Entry `i` of `chains` belongs to
program index `i + 1`; `none` is an index that is free (never used, or retired).
`nextGeneration` is the generation counter of section 9: the generation the next record that is
created receives. -/
structure Registry where
  maxPrograms : Nat
  maxDepth : Nat
  nextGeneration : Nat
  chains : List (Option ContextChain)
  deriving DecidableEq, Repr

/-- Modelled from the spec: the misuse errors of the accessor layer (section 7). -/
inductive AccessError where
  | NullContext
  | StaleContext
  | ImmutableField
  deriving DecidableEq, Repr

/-- Modelled from the spec: the structural errors of the registry (section 7). -/
inductive RegistryError where
  | UnknownProgram
  | ChainFull
  | RegistryExhausted
  | AlreadyRetired
  deriving DecidableEq, Repr

/-- Modelled from the spec: the identity a host supplies to `admitProgram`. -/
structure ProgramIdentity where
  programType : ProgramType
  programName : String
  launchType : LaunchType
  deriving DecidableEq, Repr

/-- Modelled from the spec: the identity a host supplies to `attachModule`. -/
structure ModuleIdentity where
  moduleType : ModuleType
  moduleName : String
  deriving DecidableEq, Repr

/-- Modelled from the spec: the module kind of the main module of a program of the given kind
(the enumerations `ProgramType` and `ModuleType` of expander.h name them alike). -/
def ProgramType.mainModuleType : ProgramType → ModuleType
  | .PT_INDICATOR => .MT_INDICATOR
  | .PT_EXPERT => .MT_EXPERT
  | .PT_SCRIPT => .MT_SCRIPT

/-- Modelled from the spec: the current value of a member; a member that was never set reads
as 0. -/
def ContextRecord.read (rec : ContextRecord) (f : Field) : Value :=
  (rec.fields.lookup f).getD (.num 0)

/-- Modelled from the spec: whether a member has been set. -/
def ContextRecord.isSet (rec : ContextRecord) (f : Field) : Bool :=
  (rec.fields.lookup f).isSome

/-- Modelled from the spec: the record with member `f` set to `v`. -/
def ContextRecord.write (rec : ContextRecord) (f : Field) (v : Value) : ContextRecord :=
  { rec with fields := (f, v) :: rec.fields.filter (fun p => p.1 != f) }

/-- Modelled from the spec: the registry before any program was admitted, with its configured
maximum of concurrent programs and maximum chain depth. -/
def Registry.empty (maxPrograms maxDepth : Nat) : Registry :=
  { maxPrograms := maxPrograms, maxDepth := maxDepth, nextGeneration := 0, chains := [] }

/-- Modelled from the spec: `lookup(programIndex) -> ContextChain?` of section 4.1, read-only
resolution that returns nothing if the index is unknown or the program has been retired. -/
def lookup (R : Registry) (programIndex : Nat) : Option ContextChain :=
  match programIndex with
  | 0 => none
  | i + 1 =>
    match R.chains[i]? with
    | some (some chain) => some chain
    | _ => none

/-- Modelled from the spec: the record at a position of the chain of a program, if the program
has a chain and the chain has that position. -/
def Registry.slotAt (R : Registry) (programIndex slot : Nat) : Option ContextRecord :=
  match lookup R programIndex with
  | some chain => chain[slot]?
  | none => none

/-- Modelled from the spec: the record a handle names. The registry validates the generation
before granting record access (section 9): the record at the position of the handle is granted
only if it has the generation of the handle. -/
def Registry.recordAt (R : Registry) (h : Handle) : Option ContextRecord :=
  match R.slotAt h.programIndex h.slot with
  | some rec => if rec.generation = h.generation then some rec else none
  | none => none

/-- Modelled from the spec: the handle of the record that is at a position now, the reference
"re-resolved on every use" of section 9. -/
def Registry.handleAt (R : Registry) (programIndex slot : Nat) : Option Handle :=
  match R.slotAt programIndex slot with
  | some rec => some { programIndex := programIndex, slot := slot, generation := rec.generation }
  | none => none

/-- Modelled from the spec: the registry with the entry of a program index replaced. -/
def Registry.putChain (R : Registry) (programIndex : Nat) (entry : Option ContextChain) : Registry :=
  match programIndex with
  | 0 => R
  | i + 1 => { R with chains := R.chains.set i entry }

/-- Modelled from the spec: the registry with the record at the position of a handle replaced. -/
def Registry.putRecord (R : Registry) (h : Handle) (rec : ContextRecord) : Registry :=
  match lookup R h.programIndex with
  | some chain => R.putChain h.programIndex (some (chain.set h.slot rec))
  | none => R

/-- Modelled from the spec: the validation every accessor and mutator performs before use
(section 4.3): a null reference fails with `NullContext`, a reference that does not resolve to a
live (`Active`) record of the registry fails with `StaleContext`. Only the generation and the
lifecycle state of the record are inspected. -/
def resolve (R : Registry) (ref : ContextRef) : Except AccessError (Handle × ContextRecord) :=
  match ref with
  | none => .error .NullContext
  | some h =>
    match R.recordAt h with
    | none => .error .StaleContext
    | some rec =>
      match rec.state with
      | .Active => .ok (h, rec)
      | _ => .error .StaleContext

/-- Modelled from the spec: the bodies of the `ec_*` getters are not among the sources. A getter
validates its reference and on success returns the current value of its member (section 4.3). -/
def ec_get (R : Registry) (ref : ContextRef) (g : Getter) : Except AccessError Value :=
  match resolve R ref with
  | .error e => .error e
  | .ok (_, rec) => .ok (rec.read g.field)

/-- Modelled from the spec: the bodies of the `ec_Set*` setters are not among the sources. A setter
validates its reference, fails with `ImmutableField` if its member is an identity member that has
been set before, and otherwise applies the new value and returns it (section 4.3). -/
def ec_set (R : Registry) (ref : ContextRef) (s : Setter) (v : Value) :
    Except AccessError Value × Registry :=
  match resolve R ref with
  | .error e => (.error e, R)
  | .ok (h, rec) =>
    if s.field.isIdentity && rec.isSet s.field then (.error .ImmutableField, R)
    else (.ok v, R.putRecord h (rec.write s.field v))

/-- Modelled from the spec: the first free entry of the table of chains. -/
def freeSlot : List (Option ContextChain) → Option Nat
  | [] => none
  | none :: _ => some 0
  | some _ :: rest => (freeSlot rest).map (· + 1)

/-- Modelled from the spec: the members of the master record of a newly admitted program, its
identity as supplied at admission; the master describes the program through its main module, so
its module kind is the kind of the program and its module name the name of the program. -/
def masterFields (programIndex : Nat) (identity : ProgramIdentity) : List (Field × Value) :=
  [(.programIndex, .num programIndex), (.programType, .programType identity.programType),
   (.programName, .text identity.programName),
   (.moduleType, .moduleType identity.programType.mainModuleType),
   (.moduleName, .text identity.programName),
   (.launchType, .launchType identity.launchType)]

/-- Modelled from the spec: the initialized master record of a newly admitted program. -/
def masterRecord (programIndex : Nat) (identity : ProgramIdentity) (generation : Nat) :
    ContextRecord :=
  { generation := generation, state := .Active, fields := masterFields programIndex identity }

/-- Modelled from the spec: a record that was created and not attached yet. -/
def freshRecord (generation : Nat) : ContextRecord :=
  { generation := generation, state := .Uninitialized, fields := [] }

/-- Modelled from the spec: the chain of a newly admitted program, the initialized master record
at position 0 and the still uninitialized record of the main module at position 1 (the record a
main-module attach returns as "the existing main-module record"). The two records receive the
next two generations. -/
def newChain (programIndex : Nat) (identity : ProgramIdentity) (generation : Nat) : ContextChain :=
  [masterRecord programIndex identity generation, freshRecord (generation + 1)]

/-- Modelled from the spec: the members a record holds right after its module was attached; the
root phase is `Init`, nothing is carried over from an earlier record. -/
def attachedFields (programIndex : Nat) (module : ModuleIdentity) : List (Field × Value) :=
  [(.programIndex, .num programIndex), (.moduleType, .moduleType module.moduleType),
   (.moduleName, .text module.moduleName), (.rootFunction, .rootFunction .RF_INIT)]

/-- Modelled from the spec: the record of a newly attached library. -/
def libraryRecord (programIndex : Nat) (module : ModuleIdentity) (generation : Nat) :
    ContextRecord :=
  { generation := generation, state := .Active, fields := attachedFields programIndex module }

/-- Modelled from the spec: `admitProgram(identity) -> programIndex` of section 4.1. It allocates
the next free index (an index is reused only after its program was retired), creates the chain
with an initialized master record, and fails with `RegistryExhausted` if the configured maximum
of concurrent programs is reached. The records of the chain receive fresh generations. -/
def admitProgram (R : Registry) (identity : ProgramIdentity) :
    Except RegistryError Nat × Registry :=
  match freeSlot R.chains with
  | some i =>
    (.ok (i + 1),
      { R with
        nextGeneration := R.nextGeneration + 2
        chains := R.chains.set i (some (newChain (i + 1) identity R.nextGeneration)) })
  | none =>
    if R.chains.length < R.maxPrograms then
      (.ok (R.chains.length + 1),
        { R with
          nextGeneration := R.nextGeneration + 2
          chains :=
            R.chains ++ [some (newChain (R.chains.length + 1) identity R.nextGeneration)] })
    else (.error .RegistryExhausted, R)

/-- Modelled from the spec: `attachModule(programIndex, moduleIdentity) -> ContextHandle` of
section 4.1. A library attach appends a new record with a fresh generation to the chain
(`ChainFull` if the configured maximum chain depth is reached); a main-module attach returns the
existing main-module record, taking it from `Uninitialized` to `Active` (section 4.2) or leaving
an active one as it is; an attach to an invalid record fails with `AlreadyRetired`, an unknown
index with `UnknownProgram`. The handle carries the generation of the record. -/
def attachModule (R : Registry) (programIndex : Nat) (module : ModuleIdentity) :
    Except RegistryError Handle × Registry :=
  match lookup R programIndex with
  | none => (.error .UnknownProgram, R)
  | some chain =>
    match module.moduleType with
    | .MT_LIBRARY =>
      if chain.length < R.maxDepth then
        (.ok { programIndex := programIndex, slot := chain.length, generation := R.nextGeneration },
          { R.putChain programIndex
              (some (chain ++ [libraryRecord programIndex module R.nextGeneration])) with
            nextGeneration := R.nextGeneration + 1 })
      else (.error .ChainFull, R)
    | _ =>
      match chain[1]? with
      | none => (.error .UnknownProgram, R)
      | some rec =>
        match rec.state with
        | .Uninitialized =>
          (.ok { programIndex := programIndex, slot := 1, generation := rec.generation },
            R.putRecord { programIndex := programIndex, slot := 1, generation := rec.generation }
              { rec with state := .Active, fields := attachedFields programIndex module })
        | .Active =>
          (.ok { programIndex := programIndex, slot := 1, generation := rec.generation }, R)
        | .Invalid => (.error .AlreadyRetired, R)

/-- Modelled from the spec: `detachModule(handle)` of section 4.1 marks the given non-master
record invalid and does not shrink the chain. A handle whose generation is not that of the record
at its position names no record, and nothing happens. -/
def detachModule (R : Registry) (h : Handle) : Registry :=
  if h.slot = 0 then R
  else
    match R.recordAt h with
    | some rec => R.putRecord h { rec with state := .Invalid }
    | none => R

/-- Modelled from the spec: `retireProgram(programIndex)` of section 4.1 releases the entire chain
and reclaims the index for future admission. -/
def retireProgram (R : Registry) (programIndex : Nat) : Registry :=
  match lookup R programIndex with
  | some _ => R.putChain programIndex none
  | none => R

/-- Modelled from the spec: the end of the teardown phase of a module (section 4.2), which
applies to a live non-master record whose root phase is `Deinit`. The record of an indicator
(the module whose backing record is reallocated each cycle) is discarded and a fresh
`Uninitialized` record with a new generation takes its position (`Active(Deinit) →
Uninitialized`); for every other module teardown is final (`Active(Deinit) → Invalid`). -/
def completeTeardown (R : Registry) (h : Handle) : Registry :=
  if h.slot = 0 then R
  else
    match R.recordAt h with
    | none => R
    | some rec =>
      if rec.state = .Active ∧ rec.read .rootFunction = .rootFunction .RF_DEINIT then
        if rec.read .moduleType = .moduleType .MT_INDICATOR then
          { R.putRecord h (freshRecord R.nextGeneration) with
            nextGeneration := R.nextGeneration + 1 }
        else R.putRecord h { rec with state := .Invalid }
      else R

/-- Modelled from the spec: the operations that structurally change the registry (section 5). -/
inductive RegistryOp where
  | admitting (identity : ProgramIdentity)
  | attaching (programIndex : Nat) (module : ModuleIdentity)
  | detaching (h : Handle)
  | retiring (programIndex : Nat)
  deriving DecidableEq, Repr

/-- The registry after one operation. -/
def RegistryOp.apply (R : Registry) : RegistryOp → Registry
  | .admitting identity => (admitProgram R identity).2
  | .attaching programIndex module => (attachModule R programIndex module).2
  | .detaching h => detachModule R h
  | .retiring programIndex => retireProgram R programIndex

/-- A call of a setter. -/
structure SetterCall where
  ref : ContextRef
  setter : Setter
  value : Value
  deriving DecidableEq, Repr

/-- One step of the life of a registry: a registry operation, the end of the teardown phase of a
module, or a call of a setter. -/
inductive Op where
  | registry (op : RegistryOp)
  | teardown (h : Handle)
  | set (call : SetterCall)
  deriving DecidableEq, Repr

/-- The registry after one step, whatever the result of the step. -/
def Op.apply (R : Registry) : Op → Registry
  | .registry op => op.apply R
  | .teardown h => completeTeardown R h
  | .set call => (ec_set R call.ref call.setter call.value).2

/-- The registry after a sequence of steps. -/
def runAll (R : Registry) (ops : List Op) : Registry :=
  ops.foldl Op.apply R

/-- The registry a host has after a sequence of steps on the registry it constructed. -/
def reached (maxPrograms maxDepth : Nat) (ops : List Op) : Registry :=
  runAll (Registry.empty maxPrograms maxDepth) ops

/-- Whether a handle names a live (`Active`) record. -/
def isLive (R : Registry) (h : Handle) : Bool :=
  match R.recordAt h with
  | some rec => decide (rec.state = .Active)
  | none => false

/-- The record a handle names is live and its member `f` holds `v`. -/
def holdsValue (R : Registry) (h : Handle) (f : Field) (v : Value) : Prop :=
  ∃ rec, R.recordAt h = some rec ∧ rec.state = .Active ∧ rec.fields.lookup f = some v

/-- Every getter and every setter called with the reference fails with `StaleContext`, and the
setter leaves the registry as it is. -/
def failsStale (R : Registry) (ref : ContextRef) : Prop :=
  (∀ g : Getter, ec_get R ref g = .error .StaleContext) ∧
    ∀ (s : Setter) (v : Value), ec_set R ref s v = (.error .StaleContext, R)

/-- The record a handle was handed out for is gone for good: the handle is of a generation the
registry has already passed, and the record it names, if it is still kept in its chain, is
`Invalid`. -/
def Dead (R : Registry) (h : Handle) : Prop :=
  h.generation < R.nextGeneration ∧ ∀ rec, R.recordAt h = some rec → rec.state = .Invalid

/-- Every record of the registry has a generation the generation counter has passed. -/
def WellFormed (R : Registry) : Prop :=
  ∀ (programIndex slot : Nat) (rec : ContextRecord),
    R.slotAt programIndex slot = some rec → rec.generation < R.nextGeneration

/-- How one record can differ before and after a step, at a position of the chain of a program
and with the generation counter at `N` before the step and at `N'` after it: its module is
detached or finally torn down, the main module is attached to it, it is discarded for a fresh
record (the indicator case), or a setter wrote one of its members. -/
inductive RecordStep (N N' programIndex slot : Nat) : ContextRecord → ContextRecord → Prop where
  | invalidate (r : ContextRecord) (hslot : slot ≠ 0) :
    RecordStep N N' programIndex slot r { r with state := .Invalid }
  | activate (r : ContextRecord) (module : ModuleIdentity) (hslot : slot = 1)
    (hstate : r.state = .Uninitialized) (hmodule : module.moduleType ≠ .MT_LIBRARY) :
    RecordStep N N' programIndex slot r
      { r with state := .Active, fields := attachedFields programIndex module }
  | recreate (r : ContextRecord) (g : Nat) (hslot : slot ≠ 0) (hstate : r.state = .Active)
    (hkind : r.read .moduleType = .moduleType .MT_INDICATOR) (hN : N ≤ g) (hN' : g < N') :
    RecordStep N N' programIndex slot r (freshRecord g)
  | write (r : ContextRecord) (f : Field) (v : Value) (hstate : r.state = .Active)
    (hfree : f.isIdentity = true → r.isSet f = false) :
    RecordStep N N' programIndex slot r (r.write f v)

/-- How the entry of one program index can differ before and after a step: it is unchanged,
released, newly created in a free entry, extended by a live library record, or one of its records
takes a `RecordStep`. -/
inductive EntryStep (N N' programIndex : Nat) :
    Option ContextChain → Option ContextChain → Prop where
  | same (entry : Option ContextChain) : EntryStep N N' programIndex entry entry
  | release (entry : Option ContextChain) : EntryStep N N' programIndex entry none
  | create (identity : ProgramIdentity) (g : Nat) (hN : N ≤ g) (hN' : g + 1 < N') :
    EntryStep N N' programIndex none (some (newChain programIndex identity g))
  | append (chain : ContextChain) (module : ModuleIdentity) (g : Nat) (hN : N ≤ g) (hN' : g < N')
    (hmodule : module.moduleType = .MT_LIBRARY) :
    EntryStep N N' programIndex (some chain)
      (some (chain ++ [libraryRecord programIndex module g]))
  | change (chain : ContextChain) (k : Nat) (r r' : ContextRecord) (hk : chain[k]? = some r)
    (hstep : RecordStep N N' programIndex k r r') :
    EntryStep N N' programIndex (some chain) (some (chain.set k r'))

/-- How a registry can differ before and after a step: the generation counter does not go back
and the entry of every program index takes an `EntryStep`. -/
def RegistryStep (R R' : Registry) : Prop :=
  R.nextGeneration ≤ R'.nextGeneration ∧
    ∀ programIndex : Nat,
      EntryStep R.nextGeneration R'.nextGeneration programIndex
        (lookup R programIndex) (lookup R' programIndex)

/-- The identity of an expert that was loaded by hand. -/
def expertIdentity : ProgramIdentity :=
  { programType := .PT_EXPERT, programName := "Expert", launchType := .LT_MANUAL }

/-- The steps that admit an expert and attach its main module and one library. -/
def expertWithLibraryOps : List Op :=
  [.registry (.admitting expertIdentity),
   .registry (.attaching 1 { moduleType := .MT_EXPERT, moduleName := "Expert" }),
   .registry (.attaching 1 { moduleType := .MT_LIBRARY, moduleName := "Library" })]

/-- A registry in which program 1, an expert, has its main module and one library attached. -/
def registryWithLibrary : Registry :=
  reached 4 8 expertWithLibraryOps

/-- The handle of the master record of `registryWithLibrary`: program 1, position 0, and the
generation the registry had reached at admission. -/
def masterHandle : Handle := { programIndex := 1, slot := 0, generation := 0 }

/-- The handle `attachModule` returned for the main module of `registryWithLibrary`. -/
def mainHandle : Handle := { programIndex := 1, slot := 1, generation := 1 }

/-- The handle `attachModule` returned for the library of `registryWithLibrary`. -/
def libraryHandle : Handle := { programIndex := 1, slot := 2, generation := 2 }

/-- The steps that retire program 1 and admit a script under the index that became free, with
its main module and one library. -/
def readmitOps : List Op :=
  [.registry (.retiring 1),
   .registry (.admitting
      { programType := .PT_SCRIPT, programName := "New", launchType := .LT_PROGRAM }),
   .registry (.attaching 1 { moduleType := .MT_SCRIPT, moduleName := "New" }),
   .registry (.attaching 1 { moduleType := .MT_LIBRARY, moduleName := "Other" })]

/-- The handle `attachModule` returned for the library of the program admitted by
`readmitOps`. -/
def newLibraryHandle : Handle := { programIndex := 1, slot := 2, generation := 5 }

/-- The steps that admit an indicator, attach its main module and one library, and run the
main module from `Init` over `Start` into `Deinit`; the main module sets its symbol on the way. -/
def indicatorOps : List Op :=
  [.registry (.admitting
      { programType := .PT_INDICATOR, programName := "Indicator", launchType := .LT_TEMPLATE }),
   .registry (.attaching 1 { moduleType := .MT_INDICATOR, moduleName := "Indicator" }),
   .registry (.attaching 1 { moduleType := .MT_LIBRARY, moduleName := "Library" }),
   .set { ref := some mainHandle, setter := .ec_SetRootFunction, value := .rootFunction .RF_START },
   .set { ref := some mainHandle, setter := .ec_SetSymbol, value := .text "EURUSD" },
   .set { ref := some mainHandle, setter := .ec_SetRootFunction, value := .rootFunction .RF_DEINIT }]

/-- A registry in which program 1, an indicator with one library, is in the `Deinit` phase of
its main module. -/
def registryInDeinit : Registry :=
  reached 4 8 indicatorOps

/-- A registry in which program 1, an indicator, is between the end of `Deinit` and the next
`Init` of its main module. -/
def registryInGap : Registry :=
  completeTeardown registryInDeinit mainHandle

/-- The main record of the indicator of `registryInDeinit`. -/
def indicatorMainRecord : ContextRecord :=
  { generation := 1
    state := .Active
    fields :=
      [(.rootFunction, .rootFunction .RF_DEINIT), (.symbol, .text "EURUSD"),
       (.programIndex, .num 1), (.moduleType, .moduleType .MT_INDICATOR),
       (.moduleName, .text "Indicator")] }

/-- The step that attaches the main module of the indicator again. -/
def reattachOps : List Op :=
  [.registry (.attaching 1 { moduleType := .MT_INDICATOR, moduleName := "Indicator" })]

/-- The handle `attachModule` returns for the main module of the indicator after the gap. -/
def newMainHandle : Handle := { programIndex := 1, slot := 1, generation := 3 }

/-- The steps that admit an expert and attach its main module. -/
def expertOps : List Op :=
  [.registry (.admitting expertIdentity),
   .registry (.attaching 1 { moduleType := .MT_EXPERT, moduleName := "Expert" })]

/-- The registry of `registryWithLibrary` after the library has set its launch type. -/
def registryWithLaunchType : Registry :=
  (ec_set registryWithLibrary (some libraryHandle) .ec_SetLaunchType (.launchType .LT_MANUAL)).2

/-- Steps taken later on `registryWithLibrary`: the library sets its launch type and its symbol,
and a second library is attached to the program. -/
def laterSteps : List Op :=
  [.set { ref := some libraryHandle, setter := .ec_SetLaunchType, value := .launchType .LT_MANUAL },
   .set { ref := some libraryHandle, setter := .ec_SetSymbol, value := .text "EURUSD" },
   (.registry (.attaching 1 { moduleType := .MT_LIBRARY, moduleName := "Other" }))]

/-! ## Record accessors: SYMBOL_GROUP, FILETIME, TIME_ZONE_INFORMATION

The accessors of src/struct/mt4/SymbolGroup.cpp, src/struct/win32/FileTime.cpp and
src/struct/win32/TimeZoneInformation.cpp. A pointer is an address; the memory maps the addresses
at which objects live to the objects. A function that dereferences an address at which no object
of the expected type lives has no defined result (`none`).
-/

/-- Constants and helpers the accessors use whose definitions are not among the sources:
`MIN_VALID_POINTER`, `ERR_INVALID_PARAMETER` and `White` (shared headers), the value `_error`
returns for an error code (expander.h declares `int _error(..., int code, ...)`, the body is
missing), and the layout of `struct SYMBOL_GROUP` (struct/mt4/SymbolGroup.h): the offsets and the
sizes of its char arrays `name` and `description`. -/
structure Consts where
  MIN_VALID_POINTER : Nat
  ERR_INVALID_PARAMETER : Int
  White : Nat
  errorReturn : Int → Int
  sgNameOffset : Nat
  sgNameSize : Nat
  sgDescriptionOffset : Nat
  sgDescriptionSize : Nat

/-- The color value `CLR_NONE` of expander.h, 0xFFFFFFFF. -/
def CLR_NONE : Nat := 0xFFFFFFFF

/-- An `int` converted to a 32-bit unsigned value or pointer. -/
def toUint (n : Int) : Nat := (n % 4294967296).toNat

/-- A call of one of the diagnostic helpers `debug`, `warn` and `error` of expander.h. -/
inductive DiagCall where
  | debug
  | warn (code : Int)
  | error (code : Int)
  deriving DecidableEq, Repr

/-- The members of a `SYMBOL_GROUP` the accessors use. -/
structure SYMBOL_GROUP where
  name : String
  description : String
  backgroundColor : Nat
  deriving DecidableEq, Repr

/-- Win32 struct FILETIME. -/
structure FILETIME where
  dwLowDateTime : Nat
  dwHighDateTime : Nat
  deriving DecidableEq, Repr

/-- Win32 struct SYSTEMTIME. -/
structure SYSTEMTIME where
  wYear : Nat
  wMonth : Nat
  wDayOfWeek : Nat
  wDay : Nat
  wHour : Nat
  wMinute : Nat
  wSecond : Nat
  wMilliseconds : Nat
  deriving DecidableEq, Repr

/-- Win32 struct TIME_ZONE_INFORMATION; the names are arrays of wide characters. -/
structure TIME_ZONE_INFORMATION where
  Bias : Int
  StandardName : List Nat
  StandardDate : SYSTEMTIME
  StandardBias : Int
  DaylightName : List Nat
  DaylightDate : SYSTEMTIME
  DaylightBias : Int
  deriving DecidableEq, Repr

/-- The objects in memory, by address. -/
structure Memory where
  symbolGroups : List (Nat × SYMBOL_GROUP)
  fileTimes : List (Nat × FILETIME)
  timeZones : List (Nat × TIME_ZONE_INFORMATION)
  strings : List (Nat × String)
  deriving DecidableEq, Repr

/-- The state an accessor runs in: the memory and the diagnostic calls made so far. -/
structure Machine where
  mem : Memory
  diag : List DiagCall
  deriving DecidableEq, Repr

/-- The macro `error(code, ...)`: the call is recorded, its value is what `_error` returns. -/
def error (K : Consts) (code : Int) (m : Machine) : Int × Machine :=
  (K.errorReturn code, { m with diag := m.diag ++ [.error code] })

/-- The memory with the SYMBOL_GROUP at `address` replaced. -/
def Memory.storeSymbolGroup (mem : Memory) (address : Nat) (sg : SYMBOL_GROUP) : Memory :=
  { mem with symbolGroups := (address, sg) :: mem.symbolGroups.filter (fun p => p.1 != address) }

/-- The name of a SYMBOL_GROUP: `sg->name` is the address of the array member. -/
def sg_Name (K : Consts) (sg : Nat) (m : Machine) : Option (Nat × Machine) :=
  if sg < K.MIN_VALID_POINTER then
    some (toUint (error K K.ERR_INVALID_PARAMETER m).1, (error K K.ERR_INVALID_PARAMETER m).2)
  else some (sg + K.sgNameOffset, m)

/-- The description of a SYMBOL_GROUP: `sg->description` is the address of the array member. -/
def sg_Description (K : Consts) (sg : Nat) (m : Machine) : Option (Nat × Machine) :=
  if sg < K.MIN_VALID_POINTER then
    some (toUint (error K K.ERR_INVALID_PARAMETER m).1, (error K K.ERR_INVALID_PARAMETER m).2)
  else some (sg + K.sgDescriptionOffset, m)

/-- The background color of a SYMBOL_GROUP, White if none is set. -/
def sg_BackgroundColor (K : Consts) (sg : Nat) (m : Machine) : Option (Nat × Machine) :=
  if sg < K.MIN_VALID_POINTER then some (CLR_NONE, (error K K.ERR_INVALID_PARAMETER m).2)
  else
    match m.mem.symbolGroups.lookup sg with
    | none => none
    | some group =>
      if group.backgroundColor ≠ 0 then some (group.backgroundColor, m)
      else some (K.White, m)

/-- Set the name of a SYMBOL_GROUP; returns the passed pointer `name`. -/
def sg_SetName (K : Consts) (sg : Nat) (name : Nat) (m : Machine) : Option (Nat × Machine) :=
  if sg < K.MIN_VALID_POINTER then
    some (toUint (error K K.ERR_INVALID_PARAMETER m).1, (error K K.ERR_INVALID_PARAMETER m).2)
  else if name < K.MIN_VALID_POINTER then
    some (toUint (error K K.ERR_INVALID_PARAMETER m).1, (error K K.ERR_INVALID_PARAMETER m).2)
  else
    match m.mem.strings.lookup name with
    | none => none
    | some text =>
      if text.length = 0 ∨ text.length > K.sgNameSize - 1 then
        some (toUint (error K K.ERR_INVALID_PARAMETER m).1, (error K K.ERR_INVALID_PARAMETER m).2)
      else
        match m.mem.symbolGroups.lookup sg with
        | none => none
        | some group =>
          some (name, { m with mem := m.mem.storeSymbolGroup sg { group with name := text } })

/-- Set the description of a SYMBOL_GROUP; returns the passed pointer `description`. -/
def sg_SetDescription (K : Consts) (sg : Nat) (description : Nat) (m : Machine) :
    Option (Nat × Machine) :=
  if sg < K.MIN_VALID_POINTER then
    some (toUint (error K K.ERR_INVALID_PARAMETER m).1, (error K K.ERR_INVALID_PARAMETER m).2)
  else if description < K.MIN_VALID_POINTER then
    some (toUint (error K K.ERR_INVALID_PARAMETER m).1, (error K K.ERR_INVALID_PARAMETER m).2)
  else
    match m.mem.strings.lookup description with
    | none => none
    | some text =>
      if text.length > K.sgDescriptionSize - 1 then
        some (toUint (error K K.ERR_INVALID_PARAMETER m).1, (error K K.ERR_INVALID_PARAMETER m).2)
      else
        match m.mem.symbolGroups.lookup sg with
        | none => none
        | some group =>
          some (description,
            { m with mem := m.mem.storeSymbolGroup sg { group with description := text } })

/-- Set the background color of a SYMBOL_GROUP; `CLR_NONE` is stored as White. -/
def sg_SetBackgroundColor (K : Consts) (sg : Nat) (color : Nat) (m : Machine) :
    Option (Nat × Machine) :=
  if sg < K.MIN_VALID_POINTER then some (CLR_NONE, (error K K.ERR_INVALID_PARAMETER m).2)
  else if color &&& 0xFF000000 ≠ 0 ∧ color ≠ CLR_NONE then
    some (CLR_NONE, (error K K.ERR_INVALID_PARAMETER m).2)
  else
    match m.mem.symbolGroups.lookup sg with
    | none => none
    | some group =>
      let stored := if color &&& 0xFF000000 ≠ 0 then K.White else color
      some (stored,
        { m with mem := m.mem.storeSymbolGroup sg { group with backgroundColor := stored } })

/-- The lower 32 bits of a FILETIME. -/
def ft_LowDateTime (K : Consts) (ft : Nat) (m : Machine) : Option (Nat × Machine) :=
  if ft < K.MIN_VALID_POINTER then
    some (toUint (error K K.ERR_INVALID_PARAMETER m).1, (error K K.ERR_INVALID_PARAMETER m).2)
  else
    match m.mem.fileTimes.lookup ft with
    | none => none
    | some time => some (time.dwLowDateTime, m)

/-- The upper 32 bits of a FILETIME. -/
def ft_HighDateTime (K : Consts) (ft : Nat) (m : Machine) : Option (Nat × Machine) :=
  if ft < K.MIN_VALID_POINTER then
    some (toUint (error K K.ERR_INVALID_PARAMETER m).1, (error K K.ERR_INVALID_PARAMETER m).2)
  else
    match m.mem.fileTimes.lookup ft with
    | none => none
    | some time => some (time.dwHighDateTime, m)

/-- The current bias of a TIME_ZONE_INFORMATION in minutes. -/
def tzi_Bias (K : Consts) (tzi : Nat) (m : Machine) : Option (Int × Machine) :=
  if tzi < K.MIN_VALID_POINTER then some (error K K.ERR_INVALID_PARAMETER m)
  else
    match m.mem.timeZones.lookup tzi with
    | none => none
    | some zone => some (zone.Bias, m)

/-- The standard bias of a TIME_ZONE_INFORMATION in minutes. -/
def tzi_StandardBias (K : Consts) (tzi : Nat) (m : Machine) : Option (Int × Machine) :=
  if tzi < K.MIN_VALID_POINTER then some (error K K.ERR_INVALID_PARAMETER m)
  else
    match m.mem.timeZones.lookup tzi with
    | none => none
    | some zone => some (zone.StandardBias, m)

/-- The daylight bias of a TIME_ZONE_INFORMATION in minutes. -/
def tzi_DaylightBias (K : Consts) (tzi : Nat) (m : Machine) : Option (Int × Machine) :=
  if tzi < K.MIN_VALID_POINTER then some (error K K.ERR_INVALID_PARAMETER m)
  else
    match m.mem.timeZones.lookup tzi with
    | none => none
    | some zone => some (zone.DaylightBias, m)

/-- The constants of the MetaTrader 4 build: pointers below 0x10000 are never valid on Windows,
the error code is MQL's code 4051, White is 0x00FFFFFF, `_error` returns 0, and a SYMBOL_GROUP
starts with `char name[16]` followed by `char description[64]`. -/
def mt4Consts : Consts :=
  { MIN_VALID_POINTER := 0x10000
    ERR_INVALID_PARAMETER := 4051
    White := 0xFFFFFF
    errorReturn := fun _ => 0
    sgNameOffset := 0
    sgNameSize := 16
    sgDescriptionOffset := 16
    sgDescriptionSize := 64 }

/-- A machine with empty memory and no diagnostic call made. -/
def emptyMachine : Machine :=
  { mem := { symbolGroups := [], fileTimes := [], timeZones := [], strings := [] }, diag := [] }

/-- A machine with one object of each kind in memory and one earlier diagnostic call. -/
def sampleMachine : Machine :=
  { mem :=
      { symbolGroups := [(0x20000, { name := "Forex", description := "Majors", backgroundColor := 0 })]
        fileTimes := [(0x30000, { dwLowDateTime := 7, dwHighDateTime := 9 })]
        timeZones := []
        strings := [(0x40000, "Metals")] }
    diag := [.debug] }

/-! ## Utility functions of src/mql/MQLUtils.cpp

A `switch` is rendered as a chain of tests in the order of its `case` labels. The labels are
macros of shared/defines.h, which is not among the sources; their values are parameters. The
labels of a C++ `switch` are pairwise different, so the order of the tests is immaterial.
A returned `const char*` is an `Option String`, `none` being the NULL pointer. The `debug` call in
front of a `return(NULL)` only writes a diagnostic message.
-/

/-- The value `TRUE` of a `BOOL`. -/
def TRUE : Int := 1

/-- The value `FALSE` of a `BOOL`. -/
def FALSE : Int := 0

/-- The C operator `!` on an `int`. -/
def lnot (value : Int) : Int := if value = 0 then 1 else 0

/-- The timeframe identifiers the utility functions mention (`PERIOD_*` of shared/defines.h). -/
inductive Period where
  | PERIOD_M1
  | PERIOD_M5
  | PERIOD_M15
  | PERIOD_M30
  | PERIOD_H1
  | PERIOD_H4
  | PERIOD_D1
  | PERIOD_W1
  | PERIOD_MN1
  | PERIOD_Q1
  deriving DecidableEq, Repr

/-- The nine MetaTrader standard timeframes. -/
def stdPeriods : List Period :=
  [.PERIOD_M1, .PERIOD_M5, .PERIOD_M15, .PERIOD_M30, .PERIOD_H1, .PERIOD_H4, .PERIOD_D1,
   .PERIOD_W1, .PERIOD_MN1]

/-- The values of the `PERIOD_*` macros in MetaTrader 4: the minutes of one bar. -/
def mt4Period : Period → Int
  | .PERIOD_M1 => 1
  | .PERIOD_M5 => 5
  | .PERIOD_M15 => 15
  | .PERIOD_M30 => 30
  | .PERIOD_H1 => 60
  | .PERIOD_H4 => 240
  | .PERIOD_D1 => 1440
  | .PERIOD_W1 => 10080
  | .PERIOD_MN1 => 43200
  | .PERIOD_Q1 => 129600

/-- Whether a timeframe id is a MetaTrader standard timeframe. `PERIOD` gives the values of the
`PERIOD_*` macros. -/
def IsStdTimeframe (PERIOD : Period → Int) (timeframe : Int) : Int :=
  if timeframe = PERIOD .PERIOD_M1 then TRUE
  else if timeframe = PERIOD .PERIOD_M5 then TRUE
  else if timeframe = PERIOD .PERIOD_M15 then TRUE
  else if timeframe = PERIOD .PERIOD_M30 then TRUE
  else if timeframe = PERIOD .PERIOD_H1 then TRUE
  else if timeframe = PERIOD .PERIOD_H4 then TRUE
  else if timeframe = PERIOD .PERIOD_D1 then TRUE
  else if timeframe = PERIOD .PERIOD_W1 then TRUE
  else if timeframe = PERIOD .PERIOD_MN1 then TRUE
  else FALSE

/-- Whether a timeframe id is a user-defined timeframe. -/
def IsCustomTimeframe (PERIOD : Period → Int) (timeframe : Int) : Int :=
  if timeframe ≤ 0 then FALSE
  else lnot (IsStdTimeframe PERIOD timeframe)

/-- The uninitialize reasons (`enum UninitializeReason` of expander.h). -/
inductive UninitializeReason where
  | UR_UNDEFINED
  | UR_REMOVE
  | UR_RECOMPILE
  | UR_CHARTCHANGE
  | UR_CHARTCLOSE
  | UR_PARAMETERS
  | UR_ACCOUNT
  | UR_TEMPLATE
  | UR_INITFAILED
  | UR_CLOSE
  deriving DecidableEq, Repr

/-- The values of the `UNINITREASON_*` macros in MetaTrader 4. -/
def mt4UninitReason : UninitializeReason → Int
  | .UR_UNDEFINED => 0
  | .UR_REMOVE => 1
  | .UR_RECOMPILE => 2
  | .UR_CHARTCHANGE => 3
  | .UR_CHARTCLOSE => 4
  | .UR_PARAMETERS => 5
  | .UR_ACCOUNT => 6
  | .UR_TEMPLATE => 7
  | .UR_INITFAILED => 8
  | .UR_CLOSE => 9

/-- The readable constant of an uninitialize reason code, NULL for an unknown code.
`UNINITREASON` gives the values of the `UNINITREASON_*` macros, `UNINITREASON .UR_REMOVE` being
`UNINITREASON_REMOVE`. -/
def UninitializeReasonToStr (UNINITREASON : UninitializeReason → Int) (reason : Int) :
    Option String :=
  if reason = UNINITREASON .UR_UNDEFINED then some "REASON_UNDEFINED"
  else if reason = UNINITREASON .UR_REMOVE then some "REASON_REMOVE"
  else if reason = UNINITREASON .UR_RECOMPILE then some "REASON_RECOMPILE"
  else if reason = UNINITREASON .UR_CHARTCHANGE then some "REASON_CHARTCHANGE"
  else if reason = UNINITREASON .UR_CHARTCLOSE then some "REASON_CHARTCLOSE"
  else if reason = UNINITREASON .UR_PARAMETERS then some "REASON_PARAMETERS"
  else if reason = UNINITREASON .UR_ACCOUNT then some "REASON_ACCOUNT"
  else if reason = UNINITREASON .UR_TEMPLATE then some "REASON_TEMPLATE"
  else if reason = UNINITREASON .UR_INITFAILED then some "REASON_INITFAILED"
  else if reason = UNINITREASON .UR_CLOSE then some "REASON_CLOSE"
  else none

/-- The readable constant of a ModuleType. `MODULETYPE` gives the values of the enum members
(the `MODULETYPE_*` macros); `NULL` is 0. -/
def ModuleTypeToStr (MODULETYPE : ModuleType → Int) (type : Int) : Option String :=
  if type = 0 then some "NULL"
  else if type = MODULETYPE .MT_EXPERT then some "MT_EXPERT"
  else if type = MODULETYPE .MT_SCRIPT then some "MT_SCRIPT"
  else if type = MODULETYPE .MT_INDICATOR then some "MT_INDICATOR"
  else if type = MODULETYPE .MT_LIBRARY then some "MT_LIBRARY"
  else none

/-- The readable description of a ModuleType. -/
def ModuleTypeDescription (MODULETYPE : ModuleType → Int) (type : Int) : Option String :=
  if type = 0 then some "NULL"
  else if type = MODULETYPE .MT_EXPERT then some "Expert"
  else if type = MODULETYPE .MT_SCRIPT then some "Script"
  else if type = MODULETYPE .MT_INDICATOR then some "Indicator"
  else if type = MODULETYPE .MT_LIBRARY then some "Library"
  else none

/-- The readable constant of a ProgramType. `PROGRAMTYPE` gives the values of the enum members
(the `PROGRAMTYPE_*` macros). -/
def ProgramTypeToStr (PROGRAMTYPE : ProgramType → Int) (type : Int) : Option String :=
  if type = 0 then some "NULL"
  else if type = PROGRAMTYPE .PT_EXPERT then some "PT_EXPERT"
  else if type = PROGRAMTYPE .PT_SCRIPT then some "PT_SCRIPT"
  else if type = PROGRAMTYPE .PT_INDICATOR then some "PT_INDICATOR"
  else none

/-- The readable description of a ProgramType. -/
def ProgramTypeDescription (PROGRAMTYPE : ProgramType → Int) (type : Int) : Option String :=
  if type = 0 then some "NULL"
  else if type = PROGRAMTYPE .PT_EXPERT then some "Expert"
  else if type = PROGRAMTYPE .PT_SCRIPT then some "Script"
  else if type = PROGRAMTYPE .PT_INDICATOR then some "Indicator"
  else none

/-- The readable constant of a RootFunction id. `ROOTFUNCTION` gives the values of the enum
members (the `ROOTFUNCTION_*` macros). -/
def RootFunctionToStr (ROOTFUNCTION : RootFunction → Int) (id : Int) : Option String :=
  if id = 0 then some "NULL"
  else if id = ROOTFUNCTION .RF_INIT then some "RF_INIT"
  else if id = ROOTFUNCTION .RF_START then some "RF_START"
  else if id = ROOTFUNCTION .RF_DEINIT then some "RF_DEINIT"
  else none

/-- The name of a RootFunction. -/
def RootFunctionName (ROOTFUNCTION : RootFunction → Int) (id : Int) : Option String :=
  if id = 0 then some "NULL"
  else if id = ROOTFUNCTION .RF_INIT then some "init"
  else if id = ROOTFUNCTION .RF_START then some "start"
  else if id = ROOTFUNCTION .RF_DEINIT then some "deinit"
  else none

/-- The values of the `MODULETYPE_*` macros in the MQL framework (flags). -/
def mt4ModuleType : ModuleType → Int
  | .MT_INDICATOR => 1
  | .MT_EXPERT => 2
  | .MT_SCRIPT => 4
  | .MT_LIBRARY => 8

/-- The values of the `PROGRAMTYPE_*` macros in the MQL framework (flags). -/
def mt4ProgramType : ProgramType → Int
  | .PT_INDICATOR => 1
  | .PT_EXPERT => 2
  | .PT_SCRIPT => 4

/-- The values of the `ROOTFUNCTION_*` macros in the MQL framework. -/
def mt4RootFunction : RootFunction → Int
  | .RF_INIT => 1
  | .RF_START => 2
  | .RF_DEINIT => 3

/-- The upper-case hexadecimal digit of a value below 16. -/
def hexDigit (d : Nat) : Char :=
  if d < 10 then Char.ofNat (48 + d) else Char.ofNat (55 + d)

/-- The `width` least significant hexadecimal digits of a value, most significant first. -/
def hexDigits : Nat → Nat → List Char
  | 0, _ => []
  | width + 1, value => hexDigits width (value / 16) ++ [hexDigit (value % 16)]

/-- The conversion `%p` of the Microsoft C runtime on a 32-bit target: the address as 8
hexadecimal digits, upper case, padded with zeros. -/
def formatPointer (address : Nat) : String :=
  String.mk (hexDigits 8 address)

/-- The function `sprintf_s` of the Microsoft C runtime for an already formatted text: the text
is stored if it fits the buffer together with its terminating NUL; otherwise the call does not
return a result. -/
def sprintf_s (bufferSize : Nat) (text : String) : Option String :=
  if text.length + 1 ≤ bufferSize then some text else none

/-- The hexadecimal representation of an integer: `sprintf_s(szchar, 9, "%p", value)`, the
4 bytes of `value` being read as an address. -/
def IntToHexStr (value : Int) : Option String :=
  sprintf_s 9 (formatPointer (toUint value))

/-- The value of an upper-case hexadecimal digit. -/
def hexDigitValue (ch : Char) : Option Nat :=
  if 48 ≤ ch.toNat ∧ ch.toNat ≤ 57 then some (ch.toNat - 48)
  else if 65 ≤ ch.toNat ∧ ch.toNat ≤ 70 then some (ch.toNat - 55)
  else none

/-- The number an upper-case hexadecimal numeral denotes, if it is one. -/
def hexValue (digits : List Char) : Option Nat :=
  digits.foldl
    (fun acc ch =>
      match acc, hexDigitValue ch with
      | some a, some d => some (16 * a + d)
      | _, _ => none)
    (some 0)

/-- The decimal digit of a value below 10. -/
def decimalDigit (d : Nat) : Char := Char.ofNat (48 + d)

/-- The decimal digits of a value, most significant first and without leading zeros; `fuel` bounds
the number of digits after the first and suffices when it is at least the value. -/
def decimalDigits : Nat → Nat → List Char
  | 0, value => [decimalDigit (value % 10)]
  | fuel + 1, value =>
    if value < 10 then [decimalDigit value]
    else decimalDigits fuel (value / 10) ++ [decimalDigit (value % 10)]

/-- The conversion `%d` of the C runtime: the decimal digits of the value, with a minus sign in
front if the value is negative. -/
def formatDecimal (value : Int) : String :=
  if value < 0 then String.mk ('-' :: decimalDigits (-value).toNat (-value).toNat)
  else String.mk (decimalDigits value.toNat value.toNat)

/-- The function `_scprintf` of the Microsoft C runtime for an already formatted text: the number
of characters the text has, the terminating NUL not counted. -/
def _scprintf (text : String) : Nat := text.length

/-- The description of a timeframe id: its short name, or the id as a decimal number if it is not
a known timeframe (`size = _scprintf("%d", period) + 1; sprintf_s(szchar, size, "%d", period)`). -/
def PeriodDescription (PERIOD : Period → Int) (period : Int) : Option String :=
  if period = 0 then some "NULL"
  else if period = PERIOD .PERIOD_M1 then some "M1"
  else if period = PERIOD .PERIOD_M5 then some "M5"
  else if period = PERIOD .PERIOD_M15 then some "M15"
  else if period = PERIOD .PERIOD_M30 then some "M30"
  else if period = PERIOD .PERIOD_H1 then some "H1"
  else if period = PERIOD .PERIOD_H4 then some "H4"
  else if period = PERIOD .PERIOD_D1 then some "D1"
  else if period = PERIOD .PERIOD_W1 then some "W1"
  else if period = PERIOD .PERIOD_MN1 then some "MN1"
  else if period = PERIOD .PERIOD_Q1 then some "Q1"
  else sprintf_s (_scprintf (formatDecimal period) + 1) (formatDecimal period)

/-- Alias of `PeriodDescription`. -/
def TimeframeDescription (PERIOD : Period → Int) (timeframe : Int) : Option String :=
  PeriodDescription PERIOD timeframe

/-- The value of a decimal digit. -/
def decimalDigitValue (ch : Char) : Option Nat :=
  if 48 ≤ ch.toNat ∧ ch.toNat ≤ 57 then some (ch.toNat - 48) else none

/-- The number a run of decimal digits denotes, if it is one. -/
def decimalNatValue (digits : List Char) : Option Nat :=
  digits.foldl
    (fun acc ch =>
      match acc, decimalDigitValue ch with
      | some a, some d => some (10 * a + d)
      | _, _ => none)
    (some 0)

/-- The integer a signed decimal numeral denotes, if it is one: an optional minus sign followed by
decimal digits. -/
def decimalValue (text : List Char) : Option Int :=
  match text with
  | [] => none
  | ch :: rest =>
    if ch = '-' then
      match decimalNatValue rest with
      | some n => some (-(Int.ofNat n))
      | none => none
    else
      match decimalNatValue (ch :: rest) with
      | some n => some (Int.ofNat n)
      | none => none

/-! ## String functions of src/mql/MQLUtils.cpp and src/util/string.cpp

A C string argument is a pointer; the memory maps the address of a C string to its text, the
characters in front of the terminating NUL. Reading the text at an address where no string lives
has no defined result (`none`).
-/

/-- The values the diagnostic helpers `_debug` and `_warn` return. Expander.h declares both with
result type `int`; their bodies are not among the sources. -/
structure DiagReturns where
  debugReturn : Int
  warnReturn : Int → Int

/-- The diagnostic helpers of the MetaTrader 4 build, which return 0. -/
def mt4Diag : DiagReturns := { debugReturn := 0, warnReturn := fun _ => 0 }

/-- The macro `warn(code, ...)`: the call is recorded, its value is what `_warn` returns. -/
def warn (D : DiagReturns) (code : Int) (m : Machine) : Int × Machine :=
  (D.warnReturn code, { m with diag := m.diag ++ [.warn code] })

/-- The loop `for (i=0; i < len1; i++) if (s1[i] != s2[i]) return(FALSE);` followed by
`return(TRUE)`, entered at index `i` with `remaining` iterations to go. A read behind the text
reads the terminating NUL. -/
def compareChars (text1 text2 : List Char) : Nat → Nat → Int
  | _, 0 => TRUE
  | i, remaining + 1 =>
    if text1.getD i (Char.ofNat 0) ≠ text2.getD i (Char.ofNat 0) then FALSE
    else compareChars text1 text2 (i + 1) remaining

/-- The function `StringCompare` of src/mql/MQLUtils.cpp: compares two C strings, case
sensitive. -/
def StringCompare (mem : Memory) (s1 s2 : Nat) : Option Int :=
  if s1 = s2 then some TRUE
  else if s1 = 0 ∨ s2 = 0 then some FALSE
  else
    match mem.strings.lookup s1, mem.strings.lookup s2 with
    | some text1, some text2 =>
      if text1.length ≠ text2.length then some FALSE
      else some (compareChars text1.data text2.data 0 text1.length)
    | _, _ => none

/-- The function `strcmp` of the C library on two texts: 0 if they are equal, otherwise negative
or positive by the first position at which they differ. -/
def strcmp : List Char → List Char → Int
  | [], [] => 0
  | [], _ :: _ => -1
  | _ :: _, [] => 1
  | a :: rest1, b :: rest2 =>
    if a = b then strcmp rest1 rest2 else if a < b then -1 else 1

/-- The function `strncmp` of the C library on two texts: `strcmp` restricted to the first `count`
characters. -/
def strncmp : List Char → List Char → Nat → Int
  | _, _, 0 => 0
  | [], [], _ + 1 => 0
  | [], _ :: _, _ + 1 => -1
  | _ :: _, [], _ + 1 => 1
  | a :: rest1, b :: rest2, count + 1 =>
    if a = b then strncmp rest1 rest2 count else if a < b then -1 else 1

/-- The function `StringCompare` of src/util/string.cpp: whether two strings are considered
equal. -/
def util.StringCompare (mem : Memory) (s1 s2 : Nat) : Option Int :=
  if s1 = s2 then some TRUE
  else if s1 = 0 ∨ s2 = 0 then some FALSE
  else
    match mem.strings.lookup s1, mem.strings.lookup s2 with
    | some text1, some text2 => some (if strcmp text1.data text2.data = 0 then TRUE else FALSE)
    | _, _ => none

/-- The function `StringEndsWith` of src/util/string.cpp: whether a string ends with the given
substring. `str + strLen - suffixLen` points at the last `suffixLen` characters of `str`. -/
def StringEndsWith (K : Consts) (D : DiagReturns) (str suffix : Nat) (m : Machine) :
    Option (Int × Machine) :=
  if str = 0 then some (FALSE, m)
  else if suffix = 0 then some (warn D K.ERR_INVALID_PARAMETER m)
  else
    match m.mem.strings.lookup str, m.mem.strings.lookup suffix with
    | some text, some ending =>
      if ending.length = 0 then some (warn D K.ERR_INVALID_PARAMETER m)
      else if text.length ≥ ending.length then
        some (if strncmp (text.data.drop (text.length - ending.length)) ending.data
                  ending.length = 0 then TRUE else FALSE, m)
      else some (FALSE, m)
    | _, _ => none

/-- Two pointers denote equal strings in the sense of the documentation of `StringCompare`: both
are NULL, or both are not NULL and their texts have the same length and the same character at
every position. -/
def sameStrings (mem : Memory) (s1 s2 : Nat) : Prop :=
  (s1 = 0 ∧ s2 = 0) ∨
    (s1 ≠ 0 ∧ s2 ≠ 0 ∧ ∃ text1 text2 : String,
      mem.strings.lookup s1 = some text1 ∧ mem.strings.lookup s2 = some text2 ∧
      text1.length = text2.length ∧
      ∀ i : Nat, i < text1.length → text1.data[i]? = text2.data[i]?)

/-- A memory that holds the strings "EURUSD" and "USD", an empty string and a second copy of
"USD". -/
def stringMemory : Memory :=
  { symbolGroups := []
    fileTimes := []
    timeZones := []
    strings := [(0x20000, "EURUSD"), (0x20010, "USD"), (0x20020, ""), (0x20030, "USD")] }

/-! ## ShiftIndicatorBuffer of src/mql/MQLUtils.cpp

The buffer is an array of `double`; the function only moves and stores values, so the element
type is left open (a value is its 8 bytes). `elements` are the elements that live at the address
`buffer`; an access outside of them has no defined result (`none`).
-/

/-- The function `MoveMemory(dest, source, bytes)` for a destination and a source inside one array
of 8-byte elements, both given as element indices: the block is copied as if through a temporary
copy, so the regions may overlap. -/
def MoveMemory {α : Type} (elements : List α) (dest source bytes : Nat) : Option (List α) :=
  if bytes = 0 then some elements
  else if source + bytes / 8 ≤ elements.length ∧ dest + bytes / 8 ≤ elements.length then
    some (elements.take dest ++ (elements.drop source).take (bytes / 8)
      ++ elements.drop (dest + bytes / 8))
  else none

/-- The loop `for (int i=...; i < bufferSize; i++) buffer[i] = emptyValue;`, entered with the
current value of `i`. It stops when `i < bufferSize` fails; running out of `fuel` gives no
result. -/
def fillLoop {α : Type} (bufferSize : Int) (emptyValue : α) :
    Nat → Int → List α → Option (List α)
  | 0, _, _ => none
  | fuel + 1, i, elements =>
    if i < bufferSize then
      if 0 ≤ i ∧ i.toNat < elements.length then
        fillLoop bufferSize emptyValue fuel (i + 1) (elements.set i.toNat emptyValue)
      else none
    else some elements

/-- Shifts the values of an indicator buffer by `bars` positions towards the start; the oldest
values are dropped and the positions that become free are set to `emptyValue`. The result is the
returned BOOL, the elements after the call and the diagnostic calls made. The byte count
`(bufferSize-bars)*sizeof(buffer[0])` is computed in 32-bit unsigned arithmetic. -/
def ShiftIndicatorBuffer {α : Type} (K : Consts) (D : DiagReturns) (buffer : Nat)
    (elements : List α) (bufferSize bars : Int) (emptyValue : α) (diag : List DiagCall) :
    Option (Int × List α × List DiagCall) :=
  if buffer ≠ 0 ∧ buffer < K.MIN_VALID_POINTER then
    some (D.debugReturn, elements, diag ++ [.debug])
  else if bufferSize < 0 then some (D.debugReturn, elements, diag ++ [.debug])
  else if bars < 0 then some (D.debugReturn, elements, diag ++ [.debug])
  else if bufferSize = 0 ∨ bars = 0 then some (TRUE, elements, diag)
  else
    match MoveMemory elements 0 bars.toNat (toUint ((bufferSize - bars) * 8)) with
    | none => none
    | some moved =>
      match fillLoop bufferSize emptyValue (bars.toNat + 1) (bufferSize - bars) moved with
      | none => none
      | some filled => some (TRUE, filled, diag)

/-! ## Theorems: layout of EXECUTION_CONTEXT -/

theorem memberConsistent_win32_all :
    ∀ i, i < 32 → memberConsistent win32 (EXECUTION_CONTEXT win32) i = true := by
  decide

/-- C1: with 1-byte packing, scalars (integers, enums, BOOLs, pointers, handles) of 4 bytes,
MAX_PATH = 260 and a symbol member of 12 bytes, the offset and the size documented for every member
of EXECUTION_CONTEXT are the packed offset (the sum of the sizes of the members declared before
it) and the size of its type, and the whole record takes 904 bytes. -/
theorem EXECUTION_CONTEXT_layout_consistent (t : Target)
    (hscalar : t.scalarSize = 4) (hpath : t.MAX_PATH = 260)
    (hsymbol : t.MAX_SYMBOL_LENGTH + 1 = 12) :
    (∀ i m, (EXECUTION_CONTEXT t)[i]? = some m →
        m.docOffset = packedOffset t (EXECUTION_CONTEXT t) i ∧ m.docSize = m.type.sizeof t) ∧
      (EXECUTION_CONTEXT t).length = 32 ∧
      packedSize t (EXECUTION_CONTEXT t) = 904 := by
  have ht : t = win32 := by
    cases t
    simp only [win32, Target.mk.injEq] at *
    omega
  subst ht
  refine ⟨?_, rfl, by decide⟩
  intro i m hm
  have hi : i < 32 := by
    have := (List.getElem?_eq_some.mp hm).1
    simpa [EXECUTION_CONTEXT] using this
  have hc := memberConsistent_win32_all i hi
  unfold memberConsistent at hc
  rw [hm] at hc
  simpa using hc

theorem EXECUTION_CONTEXT_layout_consistent_witness :
    (win32.scalarSize = 4 ∧ win32.MAX_PATH = 260 ∧ win32.MAX_SYMBOL_LENGTH + 1 = 12) ∧
      ((∀ i m, (EXECUTION_CONTEXT win32)[i]? = some m →
          m.docOffset = packedOffset win32 (EXECUTION_CONTEXT win32) i ∧
            m.docSize = m.type.sizeof win32) ∧
        (EXECUTION_CONTEXT win32).length = 32 ∧
        packedSize win32 (EXECUTION_CONTEXT win32) = 904) :=
  ⟨⟨rfl, rfl, rfl⟩, EXECUTION_CONTEXT_layout_consistent win32 rfl rfl rfl⟩

/-! ## Theorems: registry and accessor layer -/

theorem lookup_putChain (R : Registry) (i j : Nat) (entry : Option ContextChain) :
    lookup (R.putChain i entry) j =
      if i = j ∧ 0 < i ∧ i ≤ R.chains.length then entry else lookup R j := by
  cases i with
  | zero => simp [Registry.putChain]
  | succ a =>
    cases j with
    | zero => simp [lookup]
    | succ b =>
      simp only [Registry.putChain, lookup, List.getElem?_set]
      by_cases hab : a = b
      · subst hab
        by_cases hlen : a < R.chains.length
        · have h1 : a + 1 ≤ R.chains.length := hlen
          cases entry <;> simp [hlen, h1]
        · have h1 : ¬ a + 1 ≤ R.chains.length := hlen
          have h2 : R.chains[a]? = none := List.getElem?_eq_none (Nat.le_of_not_lt hlen)
          simp [hlen, h1, h2]
      · simp [hab]

theorem lookup_some_bounds {R : Registry} {i : Nat} {chain : ContextChain}
    (h : lookup R i = some chain) : 0 < i ∧ i ≤ R.chains.length := by
  cases i with
  | zero => simp [lookup] at h
  | succ a =>
    refine ⟨Nat.succ_pos a, ?_⟩
    by_contra hlen
    have h2 : R.chains[a]? = none := List.getElem?_eq_none (by omega)
    simp [lookup, h2] at h

theorem lookup_putRecord (R : Registry) (h : Handle) (rec : ContextRecord) (j : Nat) :
    lookup (R.putRecord h rec) j =
      match lookup R h.programIndex with
      | some chain => if h.programIndex = j then some (chain.set h.slot rec) else lookup R j
      | none => lookup R j := by
  unfold Registry.putRecord
  cases hl : lookup R h.programIndex with
  | none => rfl
  | some chain =>
    have hb := lookup_some_bounds hl
    simp only [lookup_putChain]
    by_cases hj : h.programIndex = j
    · rw [if_pos ⟨hj, hb.1, hb.2⟩, if_pos hj]
    · rw [if_neg (fun hh => hj hh.1), if_neg hj]

theorem lookup_withGeneration (R : Registry) (n j : Nat) :
    lookup { R with nextGeneration := n } j = lookup R j := by
  cases j <;> rfl

theorem putChain_nextGeneration (R : Registry) (i : Nat) (entry : Option ContextChain) :
    (R.putChain i entry).nextGeneration = R.nextGeneration := by
  cases i <;> rfl

theorem putRecord_nextGeneration (R : Registry) (h : Handle) (rec : ContextRecord) :
    (R.putRecord h rec).nextGeneration = R.nextGeneration := by
  unfold Registry.putRecord
  cases lookup R h.programIndex with
  | none => rfl
  | some chain => exact putChain_nextGeneration R _ _

theorem lookup_empty (maxPrograms maxDepth idx : Nat) :
    lookup (Registry.empty maxPrograms maxDepth) idx = none := by
  cases idx <;> simp [lookup, Registry.empty]

theorem recordAt_eq_some {R : Registry} {h : Handle} {rec : ContextRecord} :
    R.recordAt h = some rec ↔
      R.slotAt h.programIndex h.slot = some rec ∧ rec.generation = h.generation := by
  unfold Registry.recordAt
  cases hs : R.slotAt h.programIndex h.slot with
  | none => simp
  | some r =>
    by_cases hg : r.generation = h.generation
    · simp only [hg, if_true, Option.some.injEq]
      constructor
      · intro he; subst he; exact ⟨rfl, hg⟩
      · intro he; exact he.1
    · simp only [hg, if_false]
      constructor
      · intro he; cases he
      · rintro ⟨he, hg2⟩
        cases he
        exact absurd hg2 hg

theorem slotAt_eq_some {R : Registry} {i slot : Nat} {rec : ContextRecord} :
    R.slotAt i slot = some rec ↔ ∃ chain, lookup R i = some chain ∧ chain[slot]? = some rec := by
  unfold Registry.slotAt
  cases hl : lookup R i with
  | none => simp
  | some chain => simp

theorem isLive_eq_true {R : Registry} {h : Handle} :
    isLive R h = true ↔ ∃ rec, R.recordAt h = some rec ∧ rec.state = .Active := by
  unfold isLive
  cases hr : R.recordAt h with
  | none => simp
  | some rec => simp

theorem resolve_ok_iff {R : Registry} {ref : ContextRef} {h : Handle} {rec : ContextRecord} :
    resolve R ref = .ok (h, rec) ↔
      ref = some h ∧ R.recordAt h = some rec ∧ rec.state = .Active := by
  cases ref with
  | none => simp [resolve]
  | some h' =>
    cases hr : R.recordAt h' with
    | none =>
      simp only [resolve, hr]
      constructor
      · intro hh; cases hh
      · rintro ⟨h1, h2, _⟩
        cases h1
        rw [hr] at h2
        cases h2
    | some rec' =>
      cases hs : rec'.state with
      | Active =>
        simp only [resolve, hr, hs]
        constructor
        · intro hh
          cases hh
          exact ⟨rfl, hr, hs⟩
        · rintro ⟨h1, h2, _⟩
          cases h1
          rw [hr] at h2
          cases h2
          rfl
      | Uninitialized =>
        simp only [resolve, hr, hs]
        constructor
        · intro hh; cases hh
        · rintro ⟨h1, h2, h3⟩
          cases h1
          rw [hr] at h2
          cases h2
          rw [hs] at h3
          cases h3
      | Invalid =>
        simp only [resolve, hr, hs]
        constructor
        · intro hh; cases hh
        · rintro ⟨h1, h2, h3⟩
          cases h1
          rw [hr] at h2
          cases h2
          rw [hs] at h3
          cases h3

theorem resolve_of_not_live {R : Registry} {h : Handle} (hdead : isLive R h = false) :
    resolve R (some h) = .error .StaleContext := by
  unfold isLive at hdead
  cases hr : R.recordAt h with
  | none => simp only [resolve, hr]
  | some rec =>
    rw [hr] at hdead
    cases hs : rec.state with
    | Active => simp [hs] at hdead
    | Uninitialized => simp only [resolve, hr, hs]
    | Invalid => simp only [resolve, hr, hs]

theorem lookup_filter_ne {f f' : Field} (hne : f ≠ f') (l : List (Field × Value)) :
    List.lookup f (l.filter (fun p => p.1 != f')) = List.lookup f l := by
  induction l with
  | nil => rfl
  | cons p rest ih =>
    obtain ⟨k, w⟩ := p
    by_cases hk : k = f'
    · subst hk
      have hfk : (f == k) = false := by simpa using hne
      simp [List.filter, List.lookup, hfk, ih]
    · have hkf : (k != f') = true := by simpa using hk
      simp only [List.filter, hkf, List.lookup]
      cases hfk : f == k with
      | true => rfl
      | false => exact ih

theorem lookup_write (rec : ContextRecord) (f f' : Field) (v : Value) :
    (rec.write f' v).fields.lookup f = if f = f' then some v else rec.fields.lookup f := by
  unfold ContextRecord.write
  by_cases hff : f = f'
  · subst hff
    simp [List.lookup]
  · have hb : (f == f') = false := by simpa using hff
    simp only [List.lookup, hb, if_neg hff]
    exact lookup_filter_ne hff _

/-- A write that a setter is allowed to make keeps every identity member that was set. -/
theorem lookup_write_of_free {rec : ContextRecord} {f f' : Field} {v w : Value}
    (hid : f.isIdentity = true) (hlook : rec.fields.lookup f = some v)
    (hfree : f'.isIdentity = true → rec.isSet f' = false) :
    (rec.write f' w).fields.lookup f = some v := by
  rw [lookup_write]
  by_cases hff : f = f'
  · subst hff
    have := hfree hid
    simp [ContextRecord.isSet, hlook] at this
  · rw [if_neg hff]
    exact hlook

theorem freeSlot_some {l : List (Option ContextChain)} {i : Nat} (h : freeSlot l = some i) :
    l[i]? = some none := by
  induction l generalizing i with
  | nil => simp [freeSlot] at h
  | cons e rest ih =>
    cases e with
    | none =>
      simp only [freeSlot, Option.some.injEq] at h
      subst h
      simp
    | some chain =>
      simp only [freeSlot, Option.map_eq_some'] at h
      obtain ⟨a, ha, rfl⟩ := h
      simpa using ih ha

theorem lookup_of_getElem?_none {R : Registry} {i : Nat} (h : R.chains[i]? = some none) :
    lookup R (i + 1) = none := by
  simp [lookup, h]

theorem registryStep_refl (R : Registry) : RegistryStep R R :=
  ⟨Nat.le_refl _, fun _ => EntryStep.same _⟩

theorem admitProgram_step (R : Registry) (identity : ProgramIdentity) :
    RegistryStep R (admitProgram R identity).2 := by
  unfold admitProgram
  cases hf : freeSlot R.chains with
  | some i =>
    have hi := freeSlot_some hf
    have hlt : i < R.chains.length := (List.getElem?_eq_some.mp hi).1
    refine ⟨Nat.le_add_right _ _, fun j => ?_⟩
    have hput : lookup ({ R with
          nextGeneration := R.nextGeneration + 2
          chains := R.chains.set i (some (newChain (i + 1) identity R.nextGeneration)) } : Registry) j
        = lookup (R.putChain (i + 1) (some (newChain (i + 1) identity R.nextGeneration))) j := by
      cases j <;> rfl
    simp only [hput, lookup_putChain]
    by_cases hj : i + 1 = j
    · subst hj
      rw [if_pos ⟨rfl, Nat.succ_pos i, hlt⟩, lookup_of_getElem?_none hi]
      exact EntryStep.create identity R.nextGeneration (Nat.le_refl _) (by simp)
    · rw [if_neg (fun hh => hj hh.1)]
      exact EntryStep.same _
  | none =>
    simp only []
    split
    · refine ⟨Nat.le_add_right _ _, fun j => ?_⟩
      cases j with
      | zero => exact EntryStep.same _
      | succ b =>
        by_cases hb : b < R.chains.length
        · have : lookup ({ R with
                nextGeneration := R.nextGeneration + 2
                chains := R.chains ++
                  [some (newChain (R.chains.length + 1) identity R.nextGeneration)] } : Registry)
                (b + 1) = lookup R (b + 1) := by
            simp only [lookup, List.getElem?_append_left hb]
          rw [this]
          exact EntryStep.same _
        · by_cases hb2 : b = R.chains.length
          · subst hb2
            have h1 : lookup R (R.chains.length + 1) = none := by simp [lookup]
            have h2 : lookup ({ R with
                nextGeneration := R.nextGeneration + 2
                chains := R.chains ++
                  [some (newChain (R.chains.length + 1) identity R.nextGeneration)] } : Registry)
                (R.chains.length + 1)
                = some (newChain (R.chains.length + 1) identity R.nextGeneration) := by
              simp [lookup]
            rw [h1, h2]
            exact EntryStep.create identity R.nextGeneration (Nat.le_refl _) (by simp)
          · have h1 : R.chains[b]? = none := List.getElem?_eq_none (by omega)
            have h2 : (R.chains ++
                [some (newChain (R.chains.length + 1) identity R.nextGeneration)])[b]? = none :=
              List.getElem?_eq_none (by simp; omega)
            have : lookup ({ R with
                nextGeneration := R.nextGeneration + 2
                chains := R.chains ++
                  [some (newChain (R.chains.length + 1) identity R.nextGeneration)] } : Registry)
                (b + 1) = lookup R (b + 1) := by
              simp only [lookup, h1, h2]
            rw [this]
            exact EntryStep.same _
    · exact registryStep_refl R

/-- Replacing the record at a position by a `RecordStep` of it is an `EntryStep` of every
entry. -/
theorem putRecord_entryStep {R : Registry} {h : Handle} {rec rec' : ContextRecord} {N N' : Nat}
    (hrec : R.slotAt h.programIndex h.slot = some rec)
    (hstep : RecordStep N N' h.programIndex h.slot rec rec') (j : Nat) :
    EntryStep N N' j (lookup R j) (lookup (R.putRecord h rec') j) := by
  rw [lookup_putRecord]
  obtain ⟨chain, hl, hc⟩ := slotAt_eq_some.mp hrec
  simp only [hl]
  by_cases hj : h.programIndex = j
  · rw [if_pos hj, ← hj, hl]
    exact EntryStep.change chain h.slot rec rec' hc hstep
  · rw [if_neg hj]
    exact EntryStep.same _

theorem attachModule_step (R : Registry) (i : Nat) (module : ModuleIdentity) :
    RegistryStep R (attachModule R i module).2 := by
  unfold attachModule
  cases hl : lookup R i with
  | none => exact registryStep_refl R
  | some chain =>
    have hb := lookup_some_bounds hl
    by_cases hm : module.moduleType = .MT_LIBRARY
    · simp only [hm]
      split
      · refine ⟨Nat.le_add_right _ _, fun j => ?_⟩
        simp only [lookup_withGeneration, lookup_putChain]
        by_cases hj : i = j
        · rw [if_pos ⟨hj, hb.1, hb.2⟩, ← hj, hl]
          exact EntryStep.append chain module R.nextGeneration (Nat.le_refl _)
            (Nat.lt_succ_self _) hm
        · rw [if_neg (fun hh => hj hh.1)]
          exact EntryStep.same _
      · exact registryStep_refl R
    · have hmain : RegistryStep R
          (match chain[1]? with
            | none => ((.error .UnknownProgram : Except RegistryError Handle), R)
            | some rec =>
              match rec.state with
              | .Uninitialized =>
                (.ok { programIndex := i, slot := 1, generation := rec.generation },
                  R.putRecord { programIndex := i, slot := 1, generation := rec.generation }
                    { rec with state := .Active, fields := attachedFields i module })
              | .Active => (.ok { programIndex := i, slot := 1, generation := rec.generation }, R)
              | .Invalid => (.error .AlreadyRetired, R)).2 := by
        cases h1 : chain[1]? with
        | none => exact registryStep_refl R
        | some rec =>
          cases hs : rec.state with
          | Active => simp only [hs]; exact registryStep_refl R
          | Invalid => simp only [hs]; exact registryStep_refl R
          | Uninitialized =>
            simp only [hs]
            refine ⟨Nat.le_of_eq (putRecord_nextGeneration R _ _).symm, fun j => ?_⟩
            rw [putRecord_nextGeneration]
            have hat : R.slotAt i 1 = some rec := slotAt_eq_some.mpr ⟨chain, hl, h1⟩
            exact @putRecord_entryStep R
              { programIndex := i, slot := 1, generation := rec.generation } rec
              { rec with state := .Active, fields := attachedFields i module }
              R.nextGeneration R.nextGeneration hat
              (RecordStep.activate rec module rfl hs hm) j
      cases hmt : module.moduleType with
      | MT_LIBRARY => exact absurd hmt hm
      | MT_INDICATOR => exact hmain
      | MT_EXPERT => exact hmain
      | MT_SCRIPT => exact hmain

theorem detachModule_step (R : Registry) (h : Handle) : RegistryStep R (detachModule R h) := by
  unfold detachModule
  split
  · exact registryStep_refl R
  · rename_i hslot
    cases hr : R.recordAt h with
    | none => exact registryStep_refl R
    | some rec =>
      simp only []
      refine ⟨Nat.le_of_eq (putRecord_nextGeneration R _ _).symm, fun j => ?_⟩
      rw [putRecord_nextGeneration]
      exact putRecord_entryStep (recordAt_eq_some.mp hr).1 (RecordStep.invalidate rec hslot) j

theorem retireProgram_step (R : Registry) (i : Nat) : RegistryStep R (retireProgram R i) := by
  unfold retireProgram
  cases hl : lookup R i with
  | none => exact registryStep_refl R
  | some chain =>
    refine ⟨Nat.le_of_eq (putChain_nextGeneration R _ _).symm, fun j => ?_⟩
    simp only [lookup_putChain]
    split
    · exact EntryStep.release _
    · exact EntryStep.same _

theorem completeTeardown_step (R : Registry) (h : Handle) :
    RegistryStep R (completeTeardown R h) := by
  unfold completeTeardown
  split
  · exact registryStep_refl R
  · rename_i hslot
    cases hr : R.recordAt h with
    | none => exact registryStep_refl R
    | some rec =>
      simp only []
      split
      · rename_i hcond
        split
        · rename_i hkind
          refine ⟨Nat.le_add_right _ _, fun j => ?_⟩
          simp only [lookup_withGeneration]
          exact putRecord_entryStep (recordAt_eq_some.mp hr).1
            (RecordStep.recreate rec R.nextGeneration hslot hcond.1 hkind (Nat.le_refl _)
              (Nat.lt_succ_self _)) j
        · refine ⟨Nat.le_of_eq (putRecord_nextGeneration R _ _).symm, fun j => ?_⟩
          rw [putRecord_nextGeneration]
          exact putRecord_entryStep (recordAt_eq_some.mp hr).1 (RecordStep.invalidate rec hslot) j
      · exact registryStep_refl R

theorem ec_set_step (R : Registry) (ref : ContextRef) (s : Setter) (v : Value) :
    RegistryStep R (ec_set R ref s v).2 := by
  unfold ec_set
  cases hres : resolve R ref with
  | error e => exact registryStep_refl R
  | ok p =>
    obtain ⟨h, rec⟩ := p
    obtain ⟨_, hrec, hstate⟩ := resolve_ok_iff.mp hres
    simp only []
    split
    · exact registryStep_refl R
    · rename_i hcond
      refine ⟨Nat.le_of_eq (putRecord_nextGeneration R _ _).symm, fun j => ?_⟩
      rw [putRecord_nextGeneration]
      refine putRecord_entryStep (recordAt_eq_some.mp hrec).1
        (RecordStep.write rec s.field v hstate ?_) j
      intro hid
      cases hset : rec.isSet s.field with
      | false => rfl
      | true => exact absurd (by simp [hid, hset]) hcond

theorem op_step (R : Registry) (op : Op) : RegistryStep R (op.apply R) := by
  cases op with
  | registry rop =>
    cases rop with
    | admitting identity => exact admitProgram_step R identity
    | attaching i module => exact attachModule_step R i module
    | detaching h => exact detachModule_step R h
    | retiring i => exact retireProgram_step R i
  | teardown h => exact completeTeardown_step R h
  | set call => exact ec_set_step R call.ref call.setter call.value

/-- How the record at a position can differ after a step: it is the record that was there, a
record with a fresh generation, or a `RecordStep` of the record that was there. -/
theorem slotAt_step {R R' : Registry} (hstep : RegistryStep R R') {i slot : Nat}
    {r' : ContextRecord} (h' : R'.slotAt i slot = some r') :
    R.slotAt i slot = some r' ∨
      (R.nextGeneration ≤ r'.generation ∧ r'.generation < R'.nextGeneration) ∨
      ∃ r, R.slotAt i slot = some r ∧
        RecordStep R.nextGeneration R'.nextGeneration i slot r r' := by
  obtain ⟨chain', hl', hc'⟩ := slotAt_eq_some.mp h'
  have es := hstep.2 i
  rw [hl'] at es
  generalize hold : lookup R i = old at es
  cases es with
  | same => exact Or.inl (slotAt_eq_some.mpr ⟨chain', hold, hc'⟩)
  | create identity g hN hN' =>
    right; left
    match slot, hc' with
    | 0, hc' =>
      simp only [newChain, List.getElem?_cons_zero, Option.some.injEq] at hc'
      subst hc'
      exact ⟨hN, by simp only [masterRecord]; omega⟩
    | 1, hc' =>
      simp only [newChain, List.getElem?_cons_succ, List.getElem?_cons_zero,
        Option.some.injEq] at hc'
      subst hc'
      exact ⟨by simp only [freshRecord]; omega, hN'⟩
    | n + 2, hc' => simp [newChain] at hc'
  | append chain module g hN hN' hmodule =>
    by_cases hlt : slot < chain.length
    · rw [List.getElem?_append_left hlt] at hc'
      exact Or.inl (slotAt_eq_some.mpr ⟨chain, hold, hc'⟩)
    · rw [List.getElem?_append_right (Nat.le_of_not_lt hlt)] at hc'
      right; left
      cases hd : slot - chain.length with
      | zero =>
        rw [hd] at hc'
        simp only [List.getElem?_cons_zero, Option.some.injEq] at hc'
        subst hc'
        exact ⟨hN, hN'⟩
      | succ n =>
        rw [hd] at hc'
        simp at hc'
  | change chain k r r2 hk hrs =>
    by_cases hks : k = slot
    · subst hks
      have hlt : k < chain.length := (List.getElem?_eq_some.mp hk).1
      rw [List.getElem?_set_self hlt] at hc'
      cases hc'
      exact Or.inr (Or.inr ⟨r, slotAt_eq_some.mpr ⟨chain, hold, hk⟩, hrs⟩)
    · rw [List.getElem?_set_ne hks] at hc'
      exact Or.inl (slotAt_eq_some.mpr ⟨chain, hold, hc'⟩)

theorem wellFormed_empty (maxPrograms maxDepth : Nat) :
    WellFormed (Registry.empty maxPrograms maxDepth) := by
  intro i slot rec hrec
  obtain ⟨chain, hl, _⟩ := slotAt_eq_some.mp hrec
  rw [lookup_empty] at hl
  cases hl

theorem wellFormed_step {R R' : Registry} (hwf : WellFormed R) (hstep : RegistryStep R R') :
    WellFormed R' := by
  intro i slot r' hr'
  rcases slotAt_step hstep hr' with hsame | hfresh | ⟨r, hr, hrs⟩
  · exact Nat.lt_of_lt_of_le (hwf i slot r' hsame) hstep.1
  · exact hfresh.2
  · have hlt := Nat.lt_of_lt_of_le (hwf i slot r hr) hstep.1
    cases hrs with
    | invalidate => exact hlt
    | activate => exact hlt
    | recreate g _ _ _ _ hN' => exact hN'
    | write => exact hlt

theorem wellFormed_runAll (ops : List Op) :
    ∀ R : Registry, WellFormed R → WellFormed (runAll R ops) := by
  induction ops with
  | nil => intro R h; exact h
  | cons op rest ih =>
    intro R h
    exact ih _ (wellFormed_step h (op_step R op))

/-- How the record a handle of a passed generation names can differ after a step: it is what
it was, it is `Invalid`, it was `Uninitialized`, or it was and is live and has kept every identity
member that was set. -/
theorem recordAt_step {R R' : Registry} (hstep : RegistryStep R R') {h : Handle}
    (hgen : h.generation < R.nextGeneration) {r' : ContextRecord}
    (h' : R'.recordAt h = some r') :
    ∃ r, R.recordAt h = some r ∧
      (r' = r ∨ r'.state = .Invalid ∨ r.state = .Uninitialized ∨
        (r.state = .Active ∧ r'.state = .Active ∧
          ∀ (f : Field) (v : Value), f.isIdentity = true → r.fields.lookup f = some v →
            r'.fields.lookup f = some v)) := by
  obtain ⟨hs', hg'⟩ := recordAt_eq_some.mp h'
  rcases slotAt_step hstep hs' with hsame | hfresh | ⟨r, hr, hrs⟩
  · exact ⟨r', recordAt_eq_some.mpr ⟨hsame, hg'⟩, Or.inl rfl⟩
  · omega
  · cases hrs with
    | invalidate =>
      exact ⟨r, recordAt_eq_some.mpr ⟨hr, hg'⟩, Or.inr (Or.inl rfl)⟩
    | activate module _ hstate _ =>
      exact ⟨r, recordAt_eq_some.mpr ⟨hr, hg'⟩, Or.inr (Or.inr (Or.inl hstate))⟩
    | recreate g _ _ _ hN _ =>
      simp only [freshRecord] at hg'
      omega
    | write f v hstate hfree =>
      refine ⟨r, recordAt_eq_some.mpr ⟨hr, hg'⟩, Or.inr (Or.inr (Or.inr ⟨hstate, hstate, ?_⟩))⟩
      intro f0 v0 hid hlook
      exact lookup_write_of_free hid hlook hfree

theorem dead_step {R R' : Registry} (hstep : RegistryStep R R') {h : Handle} (hd : Dead R h) :
    Dead R' h := by
  refine ⟨Nat.lt_of_lt_of_le hd.1 hstep.1, fun r' hr' => ?_⟩
  obtain ⟨r, hr, hcase⟩ := recordAt_step hstep hd.1 hr'
  have hinv := hd.2 r hr
  rcases hcase with h1 | h1 | h1 | ⟨h1, _, _⟩
  · rw [h1]; exact hinv
  · exact h1
  · rw [hinv] at h1; cases h1
  · rw [hinv] at h1; cases h1

theorem dead_runAll {h : Handle} (ops : List Op) :
    ∀ R : Registry, Dead R h → Dead (runAll R ops) h := by
  induction ops with
  | nil => intro R hd; exact hd
  | cons op rest ih =>
    intro R hd
    exact ih _ (dead_step (op_step R op) hd)

theorem not_live_of_dead {R : Registry} {h : Handle} (hd : Dead R h) : isLive R h = false := by
  cases hl : isLive R h with
  | false => rfl
  | true =>
    obtain ⟨rec, hrec, hstate⟩ := isLive_eq_true.mp hl
    rw [hd.2 rec hrec] at hstate
    cases hstate

theorem generation_lt_of_recordAt {R : Registry} (hwf : WellFormed R) {h : Handle}
    {rec : ContextRecord} (hrec : R.recordAt h = some rec) :
    h.generation < R.nextGeneration := by
  obtain ⟨hs, hg⟩ := recordAt_eq_some.mp hrec
  rw [← hg]
  exact hwf _ _ _ hs

/-- A member of a live record that is an identity member and was set either is kept by a step,
with the record still live, or the record is gone for good. -/
theorem holdsValue_step {R R' : Registry} (hwf : WellFormed R) (hstep : RegistryStep R R')
    {h : Handle} {f : Field} {v : Value} (hid : f.isIdentity = true)
    (hv : holdsValue R h f v) : holdsValue R' h f v ∨ Dead R' h := by
  obtain ⟨rec, hrec, hstate, hlook⟩ := hv
  have hgen := generation_lt_of_recordAt hwf hrec
  have hgen' : h.generation < R'.nextGeneration := Nat.lt_of_lt_of_le hgen hstep.1
  cases hr' : R'.recordAt h with
  | none =>
    right
    exact ⟨hgen', fun r hr => by rw [hr'] at hr; cases hr⟩
  | some r' =>
    obtain ⟨r, hr, hcase⟩ := recordAt_step hstep hgen hr'
    rw [hrec] at hr
    cases hr
    rcases hcase with h1 | h1 | h1 | ⟨_, h2, h3⟩
    · left
      rw [h1] at hr'
      exact ⟨rec, hr', hstate, hlook⟩
    · right
      refine ⟨hgen', fun r2 hr2 => ?_⟩
      rw [hr'] at hr2
      cases hr2
      exact h1
    · rw [hstate] at h1; cases h1
    · left
      exact ⟨r', hr', h2, h3 f v hid hlook⟩

theorem holdsValue_runAll {h : Handle} {f : Field} {v : Value} (hid : f.isIdentity = true)
    (ops : List Op) :
    ∀ R : Registry, WellFormed R → holdsValue R h f v →
      holdsValue (runAll R ops) h f v ∨ Dead (runAll R ops) h := by
  induction ops with
  | nil => intro R _ hv; exact Or.inl hv
  | cons op rest ih =>
    intro R hwf hv
    rcases holdsValue_step hwf (op_step R op) hid hv with h1 | h1
    · exact ih _ (wellFormed_step hwf (op_step R op)) h1
    · exact Or.inr (dead_runAll rest _ h1)

/-- A live record either stays live over a step or is gone for good. -/
theorem live_step {R R' : Registry} (hwf : WellFormed R) (hstep : RegistryStep R R')
    {h : Handle} (hlive : isLive R h = true) : isLive R' h = true ∨ Dead R' h := by
  obtain ⟨rec, hrec, hstate⟩ := isLive_eq_true.mp hlive
  have hgen := generation_lt_of_recordAt hwf hrec
  have hgen' : h.generation < R'.nextGeneration := Nat.lt_of_lt_of_le hgen hstep.1
  cases hr' : R'.recordAt h with
  | none =>
    right
    exact ⟨hgen', fun r hr => by rw [hr'] at hr; cases hr⟩
  | some r' =>
    obtain ⟨r, hr, hcase⟩ := recordAt_step hstep hgen hr'
    rw [hrec] at hr
    cases hr
    rcases hcase with h1 | h1 | h1 | ⟨_, h2, _⟩
    · left
      rw [h1] at hr'
      exact isLive_eq_true.mpr ⟨rec, hr', hstate⟩
    · right
      refine ⟨hgen', fun r2 hr2 => ?_⟩
      rw [hr'] at hr2
      cases hr2
      exact h1
    · rw [hstate] at h1; cases h1
    · left
      exact isLive_eq_true.mpr ⟨r', hr', h2⟩

theorem live_runAll {h : Handle} (ops : List Op) :
    ∀ R : Registry, WellFormed R → isLive R h = true →
      isLive (runAll R ops) h = true ∨ Dead (runAll R ops) h := by
  induction ops with
  | nil => intro R _ hv; exact Or.inl hv
  | cons op rest ih =>
    intro R hwf hv
    rcases live_step hwf (op_step R op) hv with h1 | h1
    · exact ih _ (wellFormed_step hwf (op_step R op)) h1
    · exact Or.inr (dead_runAll rest _ h1)

theorem slotAt_putRecord_same {R : Registry} {h : Handle} {rec : ContextRecord}
    (hr : R.slotAt h.programIndex h.slot = some rec) (rec' : ContextRecord) :
    (R.putRecord h rec').slotAt h.programIndex h.slot = some rec' := by
  obtain ⟨chain, hl, hc⟩ := slotAt_eq_some.mp hr
  have hlt : h.slot < chain.length := (List.getElem?_eq_some.mp hc).1
  refine slotAt_eq_some.mpr ⟨chain.set h.slot rec', ?_, List.getElem?_set_self hlt⟩
  rw [lookup_putRecord]
  simp only [hl, if_true]

theorem slotAt_withGeneration (R : Registry) (n i slot : Nat) :
    ({ R with nextGeneration := n } : Registry).slotAt i slot = R.slotAt i slot := by
  unfold Registry.slotAt
  rw [lookup_withGeneration]

theorem isLive_withGeneration (R : Registry) (n : Nat) (h : Handle) :
    isLive ({ R with nextGeneration := n } : Registry) h = isLive R h := by
  unfold isLive Registry.recordAt
  rw [slotAt_withGeneration]

/-- A record that replaces the record at the position of a handle and is not `Active` leaves the
handle without a live record. -/
theorem not_live_putRecord {R : Registry} {h : Handle} {rec rec' : ContextRecord}
    (hr : R.slotAt h.programIndex h.slot = some rec) (hstate : rec'.state ≠ .Active) :
    isLive (R.putRecord h rec') h = false := by
  cases hl : isLive (R.putRecord h rec') h with
  | false => rfl
  | true =>
    obtain ⟨r, hrec, hs⟩ := isLive_eq_true.mp hl
    have h1 := (recordAt_eq_some.mp hrec).1
    rw [slotAt_putRecord_same hr] at h1
    cases h1
    exact absurd hs hstate

theorem detachModule_not_live (R : Registry) {h : Handle} (hslot : h.slot ≠ 0) :
    isLive (detachModule R h) h = false := by
  unfold detachModule
  rw [if_neg hslot]
  cases hr : R.recordAt h with
  | none => simp [isLive, hr]
  | some rec =>
    exact not_live_putRecord (recordAt_eq_some.mp hr).1 (by simp)

theorem retireProgram_not_live (R : Registry) (h : Handle) :
    isLive (retireProgram R h.programIndex) h = false := by
  have hnone : lookup (retireProgram R h.programIndex) h.programIndex = none := by
    unfold retireProgram
    cases hl : lookup R h.programIndex with
    | none => exact hl
    | some chain =>
      have hb := lookup_some_bounds hl
      simp only [lookup_putChain]
      rw [if_pos ⟨trivial, hb.1, hb.2⟩]
  simp [isLive, Registry.recordAt, Registry.slotAt, hnone]

theorem completeTeardown_not_live (R : Registry) {h : Handle} {rec : ContextRecord}
    (hslot : h.slot ≠ 0) (hrec : R.recordAt h = some rec) (hstate : rec.state = .Active)
    (hphase : rec.read .rootFunction = .rootFunction .RF_DEINIT) :
    isLive (completeTeardown R h) h = false := by
  unfold completeTeardown
  rw [if_neg hslot]
  simp only [hrec]
  rw [if_pos ⟨hstate, hphase⟩]
  split
  · rw [isLive_withGeneration]
    exact not_live_putRecord (recordAt_eq_some.mp hrec).1 (by simp [freshRecord])
  · exact not_live_putRecord (recordAt_eq_some.mp hrec).1 (by simp)

theorem ec_get_of_holds {R : Registry} {h : Handle} {f : Field} {v : Value}
    (hv : holdsValue R h f v) (g : Getter) (hg : g.field = f) :
    ec_get R (some h) g = .ok v := by
  obtain ⟨rec, hrec, hstate, hlook⟩ := hv
  have hres : resolve R (some h) = .ok (h, rec) := resolve_ok_iff.mpr ⟨rfl, hrec, hstate⟩
  simp [ec_get, hres, ContextRecord.read, hg, hlook]

theorem ec_set_immutable_of_holds {R : Registry} {h : Handle} {s : Setter} {v : Value}
    (hid : s.field.isIdentity = true) (hv : holdsValue R h s.field v) (w : Value) :
    ec_set R (some h) s w = (.error .ImmutableField, R) := by
  obtain ⟨rec, hrec, hstate, hlook⟩ := hv
  have hres : resolve R (some h) = .ok (h, rec) := resolve_ok_iff.mpr ⟨rfl, hrec, hstate⟩
  have hset : rec.isSet s.field = true := by simp [ContextRecord.isSet, hlook]
  simp [ec_set, hres, hid, hset]

theorem ec_get_of_not_live {R : Registry} {h : Handle} (hdead : isLive R h = false)
    (g : Getter) : ec_get R (some h) g = .error .StaleContext := by
  simp only [ec_get, resolve_of_not_live hdead]

theorem ec_set_of_not_live {R : Registry} {h : Handle} (hdead : isLive R h = false)
    (s : Setter) (v : Value) : ec_set R (some h) s v = (.error .StaleContext, R) := by
  simp only [ec_set, resolve_of_not_live hdead]

theorem recordAt_putRecord_same {R : Registry} {h : Handle} {rec : ContextRecord}
    (hr : R.recordAt h = some rec) {rec' : ContextRecord}
    (hg : rec'.generation = rec.generation) :
    (R.putRecord h rec').recordAt h = some rec' := by
  obtain ⟨hs, hgen⟩ := recordAt_eq_some.mp hr
  exact recordAt_eq_some.mpr ⟨slotAt_putRecord_same hs rec', hg.trans hgen⟩

theorem holdsValue_of_ec_set_ok {R R' : Registry} {h : Handle} {s : Setter} {v w : Value}
    (hok : ec_set R (some h) s v = (.ok w, R')) : w = v ∧ holdsValue R' h s.field v := by
  unfold ec_set at hok
  cases hres : resolve R (some h) with
  | error e => simp [hres] at hok
  | ok p =>
    obtain ⟨h', rec⟩ := p
    obtain ⟨h1, hrec, hstate⟩ := resolve_ok_iff.mp hres
    cases h1
    simp only [hres] at hok
    split at hok
    · simp at hok
    · have hR : R' = R.putRecord h (rec.write s.field v) := by
        simpa using (congrArg Prod.snd hok).symm
      have hw : w = v := by
        have := congrArg Prod.fst hok
        simp only [Except.ok.injEq] at this
        exact this.symm
      subst hR
      exact ⟨hw, rec.write s.field v, recordAt_putRecord_same hrec rfl, hstate,
        by simp [lookup_write]⟩

theorem wellFormed_reached (maxPrograms maxDepth : Nat) (ops : List Op) :
    WellFormed (reached maxPrograms maxDepth ops) :=
  wellFormed_runAll ops _ (wellFormed_empty maxPrograms maxDepth)

theorem failsStale_of_not_live {R : Registry} {h : Handle} (hdead : isLive R h = false) :
    failsStale R (some h) :=
  ⟨ec_get_of_not_live hdead, ec_set_of_not_live hdead⟩

/-- Whether a handle names a live record does not depend on what the members of the record at
its position hold. -/
theorem isLive_putRecord_fields {R : Registry} {h : Handle} {rec : ContextRecord}
    (hr : R.slotAt h.programIndex h.slot = some rec) (fs : List (Field × Value)) :
    isLive (R.putRecord h { rec with fields := fs }) h = isLive R h := by
  unfold isLive Registry.recordAt
  rw [slotAt_putRecord_same hr, hr]
  by_cases hg : rec.generation = h.generation
  · simp only [hg, if_true]
  · simp only [hg, if_false]

/-- After the end of the teardown phase of a live record the position of the record holds a
record that is not live. -/
theorem completeTeardown_slot (R : Registry) {h : Handle} {rec : ContextRecord}
    (hslot : h.slot ≠ 0) (hrec : R.recordAt h = some rec) (hstate : rec.state = .Active)
    (hphase : rec.read .rootFunction = .rootFunction .RF_DEINIT) :
    ∃ rec', (completeTeardown R h).slotAt h.programIndex h.slot = some rec' ∧
      rec'.state ≠ .Active := by
  unfold completeTeardown
  rw [if_neg hslot]
  simp only [hrec]
  rw [if_pos ⟨hstate, hphase⟩]
  split
  · refine ⟨freshRecord R.nextGeneration, ?_, by simp [freshRecord]⟩
    rw [slotAt_withGeneration]
    exact slotAt_putRecord_same (recordAt_eq_some.mp hrec).1 _
  · exact ⟨{ rec with state := .Invalid },
      slotAt_putRecord_same (recordAt_eq_some.mp hrec).1 _, by simp⟩

theorem failsStale_handleAt {R : Registry} {i slot : Nat} {rec : ContextRecord}
    (hrec : R.slotAt i slot = some rec) (hstate : rec.state ≠ .Active) :
    failsStale R (R.handleAt i slot) := by
  have hh : R.handleAt i slot
      = some { programIndex := i, slot := slot, generation := rec.generation } := by
    simp only [Registry.handleAt, hrec]
  rw [hh]
  apply failsStale_of_not_live
  cases hl : isLive R { programIndex := i, slot := slot, generation := rec.generation } with
  | false => rfl
  | true =>
    obtain ⟨r, hr, hs⟩ := isLive_eq_true.mp hl
    have h1 := (recordAt_eq_some.mp hr).1
    simp only at h1
    rw [hrec] at h1
    cases h1
    exact absurd hs hstate

/-- C2: in every registry a host can reach, a record becomes invalid when its module is detached
(unloaded, recompiled or crashed), when its program is retired, or when the teardown phase of its
module ends; for the main record of an indicator the position then holds a fresh uninitialized
record until the next init. From then on every ec_* getter and every ec_Set* setter called with
the reference to the record fails with StaleContext, and so does every accessor called with the
re-resolved reference to the position during the gap; the setter leaves the registry as it is (no
member is written), the outcome is the same whatever the members of the record hold (no member
is read), and it stays so after every further step: a reference whose record was live and is no
longer, or whose record is Invalid, never succeeds again, also not when the program index or the
position is used anew. -/
theorem ec_accessors_stale_on_invalid (maxPrograms maxDepth : Nat) (ops : List Op) (h : Handle) :
    (h.slot ≠ 0 →
        failsStale (detachModule (reached maxPrograms maxDepth ops) h) (some h)) ∧
      failsStale (retireProgram (reached maxPrograms maxDepth ops) h.programIndex) (some h) ∧
      (h.slot ≠ 0 →
        holdsValue (reached maxPrograms maxDepth ops) h .rootFunction (.rootFunction .RF_DEINIT) →
        failsStale (completeTeardown (reached maxPrograms maxDepth ops) h) (some h) ∧
          failsStale (completeTeardown (reached maxPrograms maxDepth ops) h)
            ((completeTeardown (reached maxPrograms maxDepth ops) h).handleAt
              h.programIndex h.slot)) ∧
      (isLive (reached maxPrograms maxDepth ops) h = false →
        failsStale (reached maxPrograms maxDepth ops) (some h) ∧
          ∀ (rec : ContextRecord) (fs : List (Field × Value)),
            (reached maxPrograms maxDepth ops).slotAt h.programIndex h.slot = some rec →
            failsStale ((reached maxPrograms maxDepth ops).putRecord h { rec with fields := fs })
              (some h)) ∧
      (isLive (reached maxPrograms maxDepth ops) h = true →
        ∀ later : List Op, isLive (runAll (reached maxPrograms maxDepth ops) later) h = false →
          ∀ further : List Op,
            failsStale (runAll (runAll (reached maxPrograms maxDepth ops) later) further)
              (some h)) ∧
      (∀ rec : ContextRecord, (reached maxPrograms maxDepth ops).recordAt h = some rec →
        rec.state = .Invalid →
        ∀ further : List Op,
          failsStale (runAll (reached maxPrograms maxDepth ops) further) (some h)) := by
  have hwf := wellFormed_reached maxPrograms maxDepth ops
  refine ⟨?_, ?_, ?_, ?_, ?_, ?_⟩
  · intro hslot
    exact failsStale_of_not_live (detachModule_not_live _ hslot)
  · exact failsStale_of_not_live (retireProgram_not_live _ h)
  · rintro hslot ⟨rec, hrec, hstate, hlook⟩
    have hphase : rec.read .rootFunction = .rootFunction .RF_DEINIT := by
      simp only [ContextRecord.read, hlook, Option.getD_some]
    refine ⟨failsStale_of_not_live (completeTeardown_not_live _ hslot hrec hstate hphase), ?_⟩
    obtain ⟨rec', hrec', hstate'⟩ := completeTeardown_slot _ hslot hrec hstate hphase
    exact failsStale_handleAt hrec' hstate'
  · intro hdead
    refine ⟨failsStale_of_not_live hdead, fun rec fs hrec => ?_⟩
    apply failsStale_of_not_live
    rw [isLive_putRecord_fields hrec]
    exact hdead
  · intro hlive later hdead further
    rcases live_runAll later _ hwf hlive with h1 | h1
    · rw [h1] at hdead
      cases hdead
    · exact failsStale_of_not_live (not_live_of_dead (dead_runAll further _ h1))
  · intro rec hrec hinv further
    have hd : Dead (reached maxPrograms maxDepth ops) h := by
      refine ⟨generation_lt_of_recordAt hwf hrec, fun r hr => ?_⟩
      rw [hrec] at hr
      cases hr
      exact hinv
    exact failsStale_of_not_live (not_live_of_dead (dead_runAll further _ hd))

theorem ec_accessors_stale_on_invalid_witness :
    (libraryHandle.slot ≠ 0 ∧
        isLive registryWithLibrary libraryHandle = true ∧
        isLive (runAll registryWithLibrary readmitOps) libraryHandle = false ∧
        ec_get (runAll registryWithLibrary readmitOps) (some newLibraryHandle) .ec_ModuleName
          = .ok (.text "Other")) ∧
      (failsStale (detachModule registryWithLibrary libraryHandle) (some libraryHandle) ∧
        failsStale (retireProgram registryWithLibrary 1) (some libraryHandle) ∧
        failsStale (runAll registryWithLibrary readmitOps) (some libraryHandle)) ∧
      (mainHandle.slot ≠ 0 ∧
        holdsValue registryInDeinit mainHandle .rootFunction (.rootFunction .RF_DEINIT) ∧
        isLive registryInDeinit mainHandle = true ∧
        isLive registryInGap mainHandle = false ∧
        registryInGap.handleAt 1 1 = some newMainHandle ∧
        ec_get registryInGap (some libraryHandle) .ec_ModuleName = .ok (.text "Library") ∧
        ec_get (runAll registryInGap reattachOps) (some newMainHandle) .ec_ModuleName
          = .ok (.text "Indicator") ∧
        ec_get (runAll registryInGap reattachOps) (some newMainHandle) .ec_Symbol
          = .ok (.num 0)) ∧
      (failsStale registryInGap (some mainHandle) ∧
        failsStale registryInGap (some newMainHandle) ∧
        failsStale (runAll registryInGap reattachOps) (some mainHandle)) :=
  ⟨⟨by decide, by decide, by decide, rfl⟩,
    ⟨(ec_accessors_stale_on_invalid 4 8 expertWithLibraryOps libraryHandle).1 (by decide),
      (ec_accessors_stale_on_invalid 4 8 expertWithLibraryOps libraryHandle).2.1,
      (ec_accessors_stale_on_invalid 4 8 expertWithLibraryOps libraryHandle).2.2.2.2.1
        (by decide) readmitOps (by decide) []⟩,
    ⟨by decide, ⟨indicatorMainRecord, by decide, rfl, rfl⟩, by decide, by decide, by decide,
      rfl, rfl, rfl⟩,
    ⟨((ec_accessors_stale_on_invalid 4 8 indicatorOps mainHandle).2.2.1 (by decide)
        ⟨indicatorMainRecord, by decide, rfl, rfl⟩).1,
      ((ec_accessors_stale_on_invalid 4 8 indicatorOps mainHandle).2.2.1 (by decide)
        ⟨indicatorMainRecord, by decide, rfl, rfl⟩).2,
      (ec_accessors_stale_on_invalid 4 8 indicatorOps mainHandle).2.2.2.2.1
        (by decide) [.teardown mainHandle] (by decide) reattachOps⟩⟩

theorem lookup_admitProgram {R R' : Registry} {identity : ProgramIdentity} {idx : Nat}
    (hok : admitProgram R identity = (.ok idx, R')) :
    lookup R' idx = some (newChain idx identity R.nextGeneration) := by
  unfold admitProgram at hok
  cases hf : freeSlot R.chains with
  | some i =>
    have hi := freeSlot_some hf
    have hlt : i < R.chains.length := (List.getElem?_eq_some.mp hi).1
    simp only [hf, Prod.mk.injEq, Except.ok.injEq] at hok
    obtain ⟨h1, h2⟩ := hok
    subst h1
    subst h2
    simp [lookup, List.getElem?_set_self hlt]
  | none =>
    simp only [hf] at hok
    split at hok
    · simp only [Prod.mk.injEq, Except.ok.injEq] at hok
      obtain ⟨h1, h2⟩ := hok
      subst h1
      subst h2
      simp [lookup]
    · simp at hok

/-- The members that admission sets on the master record. -/
theorem holdsValue_admitProgram {R R' : Registry} {identity : ProgramIdentity} {idx : Nat}
    (hok : admitProgram R identity = (.ok idx, R')) (f : Field) (v : Value)
    (hv : (masterFields idx identity).lookup f = some v) :
    holdsValue R' { programIndex := idx, slot := 0, generation := R.nextGeneration } f v := by
  refine ⟨masterRecord idx identity R.nextGeneration, ?_, rfl, hv⟩
  refine recordAt_eq_some.mpr ⟨slotAt_eq_some.mpr ⟨_, lookup_admitProgram hok, ?_⟩, rfl⟩
  simp [newChain]

/-- The members that an attach sets on the record it creates or takes into use. -/
theorem holdsValue_attachModule {R R' : Registry} {idx : Nat} {module : ModuleIdentity}
    {h : Handle} (hok : attachModule R idx module = (.ok h, R'))
    (hnew : isLive R h = false) (f : Field) (v : Value)
    (hv : (attachedFields idx module).lookup f = some v) : holdsValue R' h f v := by
  unfold attachModule at hok
  cases hl : lookup R idx with
  | none => simp [hl] at hok
  | some chain =>
    have hb := lookup_some_bounds hl
    simp only [hl] at hok
    by_cases hm : module.moduleType = .MT_LIBRARY
    · simp only [hm] at hok
      split at hok
      · simp only [Prod.mk.injEq, Except.ok.injEq] at hok
        obtain ⟨h1, h2⟩ := hok
        subst h1
        subst h2
        refine ⟨libraryRecord idx module R.nextGeneration, ?_, rfl, hv⟩
        refine recordAt_eq_some.mpr ⟨?_, rfl⟩
        rw [slotAt_withGeneration]
        refine slotAt_eq_some.mpr ⟨chain ++ [libraryRecord idx module R.nextGeneration], ?_, ?_⟩
        · rw [lookup_putChain, if_pos ⟨rfl, hb.1, hb.2⟩]
        · simp
      · simp at hok
    · have hmain : (match chain[1]? with
            | none => ((.error .UnknownProgram : Except RegistryError Handle), R)
            | some rec =>
              match rec.state with
              | .Uninitialized =>
                (.ok { programIndex := idx, slot := 1, generation := rec.generation },
                  R.putRecord { programIndex := idx, slot := 1, generation := rec.generation }
                    { rec with state := .Active, fields := attachedFields idx module })
              | .Active =>
                (.ok { programIndex := idx, slot := 1, generation := rec.generation }, R)
              | .Invalid => (.error .AlreadyRetired, R)) = (.ok h, R') := by
        cases hmt : module.moduleType with
        | MT_LIBRARY => exact absurd hmt hm
        | MT_INDICATOR => rw [hmt] at hok; exact hok
        | MT_EXPERT => rw [hmt] at hok; exact hok
        | MT_SCRIPT => rw [hmt] at hok; exact hok
      cases h1 : chain[1]? with
      | none => simp [h1] at hmain
      | some rec =>
        have hat : R.slotAt idx 1 = some rec := slotAt_eq_some.mpr ⟨chain, hl, h1⟩
        cases hs : rec.state with
        | Invalid => simp [h1, hs] at hmain
        | Active =>
          simp only [h1, hs, Prod.mk.injEq, Except.ok.injEq] at hmain
          obtain ⟨h2, _⟩ := hmain
          subst h2
          have hlive : isLive R { programIndex := idx, slot := 1, generation := rec.generation }
              = true :=
            isLive_eq_true.mpr ⟨rec, recordAt_eq_some.mpr ⟨hat, rfl⟩, hs⟩
          rw [hlive] at hnew
          cases hnew
        | Uninitialized =>
          simp only [h1, hs, Prod.mk.injEq, Except.ok.injEq] at hmain
          obtain ⟨h2, h3⟩ := hmain
          subst h2
          subst h3
          exact ⟨_, recordAt_eq_some.mpr ⟨slotAt_putRecord_same hat _, rfl⟩, rfl, hv⟩

theorem isIdentity_of_mem {s : Setter} (hs : s ∈ identitySetters) :
    s.field.isIdentity = true := by
  simp only [identitySetters, List.mem_cons, List.mem_singleton, List.not_mem_nil,
    or_false] at hs
  rcases hs with h | h | h | h | h | h <;> subst h <;> rfl

/-- C3 (amended): an identity member (programIndex, programType, programName, moduleType,
moduleName, launchType) of a record is set at admission (on the master record), at attach (on the
record the attach creates or takes into use) or by a successful call of its setter, which returns
the value. Once it is set, then after any further steps of the registry: while the record is live,
every call of the corresponding setter (ec_SetProgramIndex, ec_SetProgramType, ec_SetProgramName,
ec_SetModuleType, ec_SetModuleName, ec_SetLaunchType) fails with ImmutableField, leaves the
registry as it is, and every getter of the member returns the value stored first; once the record
is no longer live, the call fails with StaleContext and leaves the registry as it is, now and
after every further step. -/
theorem identity_setter_write_once (maxPrograms maxDepth : Nat) (ops : List Op) (h : Handle)
    (s : Setter) (v : Value) (hs : s ∈ identitySetters) :
    (∀ (identity : ProgramIdentity) (idx : Nat) (R' : Registry),
        admitProgram (reached maxPrograms maxDepth ops) identity = (.ok idx, R') →
        h = { programIndex := idx, slot := 0,
              generation := (reached maxPrograms maxDepth ops).nextGeneration } →
        (masterFields idx identity).lookup s.field = some v →
        holdsValue R' h s.field v) ∧
      (∀ (idx : Nat) (module : ModuleIdentity) (R' : Registry),
        attachModule (reached maxPrograms maxDepth ops) idx module = (.ok h, R') →
        isLive (reached maxPrograms maxDepth ops) h = false →
        (attachedFields idx module).lookup s.field = some v →
        holdsValue R' h s.field v) ∧
      (∀ (w : Value) (R' : Registry),
        ec_set (reached maxPrograms maxDepth ops) (some h) s v = (.ok w, R') →
        w = v ∧ holdsValue R' h s.field v) ∧
      (holdsValue (reached maxPrograms maxDepth ops) h s.field v →
        ∀ (later : List Op) (w : Value),
          (isLive (runAll (reached maxPrograms maxDepth ops) later) h = true →
            ec_set (runAll (reached maxPrograms maxDepth ops) later) (some h) s w
                = (.error .ImmutableField, runAll (reached maxPrograms maxDepth ops) later) ∧
              ∀ g : Getter, g.field = s.field →
                ec_get (runAll (reached maxPrograms maxDepth ops) later) (some h) g = .ok v) ∧
          (isLive (runAll (reached maxPrograms maxDepth ops) later) h = false →
            ∀ further : List Op,
              ec_set (runAll (runAll (reached maxPrograms maxDepth ops) later) further) (some h)
                  s w
                = (.error .StaleContext,
                    runAll (runAll (reached maxPrograms maxDepth ops) later) further))) := by
  have hid := isIdentity_of_mem hs
  have hwf := wellFormed_reached maxPrograms maxDepth ops
  refine ⟨?_, ?_, ?_, ?_⟩
  · intro identity idx R' hok hh hv
    subst hh
    exact holdsValue_admitProgram hok _ _ hv
  · intro idx module R' hok hnew hv
    exact holdsValue_attachModule hok hnew _ _ hv
  · intro w R' hok
    exact holdsValue_of_ec_set_ok hok
  · intro hv later w
    rcases holdsValue_runAll hid later _ hwf hv with h1 | h1
    · refine ⟨fun _ => ⟨ec_set_immutable_of_holds hid h1 w, fun g hg => ec_get_of_holds h1 g hg⟩,
        fun hdead => ?_⟩
      obtain ⟨rec, hrec, hstate, _⟩ := h1
      rw [isLive_eq_true.mpr ⟨rec, hrec, hstate⟩] at hdead
      cases hdead
    · refine ⟨fun hlive => ?_, fun _ further => ?_⟩
      · rw [not_live_of_dead h1] at hlive
        cases hlive
      · exact ec_set_of_not_live (not_live_of_dead (dead_runAll further _ h1)) s w

theorem identity_setter_write_once_witness :
    (Setter.ec_SetProgramType ∈ identitySetters ∧
        admitProgram (reached 4 8 []) expertIdentity
          = (.ok 1, reached 4 8 [.registry (.admitting expertIdentity)]) ∧
        holdsValue (reached 4 8 [.registry (.admitting expertIdentity)]) masterHandle
          Setter.ec_SetProgramType.field (.programType .PT_EXPERT) ∧
        holdsValue registryWithLibrary masterHandle Setter.ec_SetProgramType.field
          (.programType .PT_EXPERT) ∧
        isLive (runAll registryWithLibrary laterSteps) masterHandle = true ∧
        isLive (runAll registryWithLibrary readmitOps) masterHandle = false) ∧
      ((ec_set (runAll registryWithLibrary laterSteps) (some masterHandle) .ec_SetProgramType
            (.programType .PT_SCRIPT)
          = (.error .ImmutableField, runAll registryWithLibrary laterSteps) ∧
        ∀ g : Getter, g.field = Setter.ec_SetProgramType.field →
          ec_get (runAll registryWithLibrary laterSteps) (some masterHandle) g
            = .ok (.programType .PT_EXPERT)) ∧
        ec_set (runAll registryWithLibrary readmitOps) (some masterHandle) .ec_SetProgramType
            (.programType .PT_SCRIPT)
          = (.error .StaleContext, runAll registryWithLibrary readmitOps)) ∧
      (Setter.ec_SetProgramIndex ∈ identitySetters ∧
        attachModule (reached 4 8 expertOps) 1 { moduleType := .MT_LIBRARY, moduleName := "Library" }
          = (.ok libraryHandle, registryWithLibrary) ∧
        isLive (reached 4 8 expertOps) libraryHandle = false ∧
        holdsValue registryWithLibrary libraryHandle Setter.ec_SetProgramIndex.field (.num 1) ∧
        isLive (runAll registryWithLibrary laterSteps) libraryHandle = true ∧
        isLive (runAll registryWithLibrary readmitOps) libraryHandle = false) ∧
      ((ec_set (runAll registryWithLibrary laterSteps) (some libraryHandle) .ec_SetProgramIndex
            (.num 7)
          = (.error .ImmutableField, runAll registryWithLibrary laterSteps) ∧
        ∀ g : Getter, g.field = Setter.ec_SetProgramIndex.field →
          ec_get (runAll registryWithLibrary laterSteps) (some libraryHandle) g = .ok (.num 1)) ∧
        ec_set (runAll registryWithLibrary readmitOps) (some libraryHandle) .ec_SetProgramIndex
            (.num 7)
          = (.error .StaleContext, runAll registryWithLibrary readmitOps)) :=
  ⟨⟨by decide, rfl,
      (identity_setter_write_once 4 8 [] masterHandle .ec_SetProgramType
        (.programType .PT_EXPERT) (by decide)).1 expertIdentity 1
        (reached 4 8 [.registry (.admitting expertIdentity)]) rfl rfl rfl,
      ⟨masterRecord 1 expertIdentity 0, by decide, rfl, rfl⟩, by decide, by decide⟩,
    ⟨((identity_setter_write_once 4 8 expertWithLibraryOps masterHandle .ec_SetProgramType
          (.programType .PT_EXPERT) (by decide)).2.2.2
          ⟨masterRecord 1 expertIdentity 0, by decide, rfl, rfl⟩ laterSteps
          (.programType .PT_SCRIPT)).1 (by decide),
      ((identity_setter_write_once 4 8 expertWithLibraryOps masterHandle .ec_SetProgramType
          (.programType .PT_EXPERT) (by decide)).2.2.2
          ⟨masterRecord 1 expertIdentity 0, by decide, rfl, rfl⟩ readmitOps
          (.programType .PT_SCRIPT)).2 (by decide) []⟩,
    ⟨by decide, rfl, by decide,
      (identity_setter_write_once 4 8 expertOps libraryHandle .ec_SetProgramIndex (.num 1)
        (by decide)).2.1 1 { moduleType := .MT_LIBRARY, moduleName := "Library" }
        registryWithLibrary rfl (by decide) rfl,
      by decide, by decide⟩,
    ⟨((identity_setter_write_once 4 8 expertWithLibraryOps libraryHandle .ec_SetProgramIndex
          (.num 1) (by decide)).2.2.2
          ⟨libraryRecord 1 { moduleType := .MT_LIBRARY, moduleName := "Library" } 2,
            by decide, rfl, rfl⟩ laterSteps (.num 7)).1 (by decide),
      ((identity_setter_write_once 4 8 expertWithLibraryOps libraryHandle .ec_SetProgramIndex
          (.num 1) (by decide)).2.2.2
          ⟨libraryRecord 1 { moduleType := .MT_LIBRARY, moduleName := "Library" } 2,
            by decide, rfl, rfl⟩ readmitOps (.num 7)).2 (by decide) []⟩⟩

/-- C3 (as stated) fails: the library of program 1 has its module type set at attach and sets its
launch type successfully; the library is detached, and the later calls of ec_SetModuleType and
ec_SetLaunchType on the same record fail with StaleContext, not with ImmutableField. -/
theorem identity_setter_stale_after_detach :
    (ec_set registryWithLibrary (some libraryHandle) .ec_SetLaunchType
        (.launchType .LT_MANUAL)).1 = .ok (.launchType .LT_MANUAL) ∧
      ec_get registryWithLaunchType (some libraryHandle) .ec_ModuleType
        = .ok (.moduleType .MT_LIBRARY) ∧
      (ec_set (detachModule registryWithLaunchType libraryHandle) (some libraryHandle)
          .ec_SetLaunchType (.launchType .LT_PROGRAM)).1 = .error .StaleContext ∧
      (ec_set (detachModule registryWithLaunchType libraryHandle) (some libraryHandle)
          .ec_SetLaunchType (.launchType .LT_PROGRAM)).1 ≠ .error .ImmutableField ∧
      (ec_set (detachModule registryWithLaunchType libraryHandle) (some libraryHandle)
          .ec_SetModuleType (.moduleType .MT_LIBRARY)).1 = .error .StaleContext ∧
      (ec_set (detachModule registryWithLaunchType libraryHandle) (some libraryHandle)
          .ec_SetModuleType (.moduleType .MT_LIBRARY)).1 ≠ .error .ImmutableField := by
  have h1 : (ec_set (detachModule registryWithLaunchType libraryHandle) (some libraryHandle)
      .ec_SetLaunchType (.launchType .LT_PROGRAM)).1 = .error .StaleContext := rfl
  have h2 : (ec_set (detachModule registryWithLaunchType libraryHandle) (some libraryHandle)
      .ec_SetModuleType (.moduleType .MT_LIBRARY)).1 = .error .StaleContext := rfl
  refine ⟨rfl, rfl, h1, ?_, h2, ?_⟩
  · rw [h1]
    intro h
    cases h
  · rw [h2]
    intro h
    cases h

/-- C5: if null is below MIN_VALID_POINTER and `_error` returns 0 for ERR_INVALID_PARAMETER, then
for every reference that is null or a non-zero address below MIN_VALID_POINTER each of sg_Name,
sg_Description, sg_BackgroundColor, sg_SetName, sg_SetDescription, sg_SetBackgroundColor,
ft_LowDateTime, ft_HighDateTime, tzi_Bias, tzi_StandardBias and tzi_DaylightBias makes exactly one
diagnostic call, error(ERR_INVALID_PARAMETER), returns its error value (NULL, 0 or CLR_NONE), and
leaves the memory as it is, whatever the memory holds. -/
theorem accessors_reject_invalid_reference (K : Consts)
    (hmin : 0 < K.MIN_VALID_POINTER) (herr : K.errorReturn K.ERR_INVALID_PARAMETER = 0)
    (ref : Nat) (href : ref = 0 ∨ (ref ≠ 0 ∧ ref < K.MIN_VALID_POINTER)) (m : Machine) :
    sg_Name K ref m
        = some (0, { mem := m.mem, diag := m.diag ++ [.error K.ERR_INVALID_PARAMETER] }) ∧
      sg_Description K ref m
        = some (0, { mem := m.mem, diag := m.diag ++ [.error K.ERR_INVALID_PARAMETER] }) ∧
      sg_BackgroundColor K ref m
        = some (CLR_NONE, { mem := m.mem, diag := m.diag ++ [.error K.ERR_INVALID_PARAMETER] }) ∧
      (∀ name : Nat, sg_SetName K ref name m
        = some (0, { mem := m.mem, diag := m.diag ++ [.error K.ERR_INVALID_PARAMETER] })) ∧
      (∀ description : Nat, sg_SetDescription K ref description m
        = some (0, { mem := m.mem, diag := m.diag ++ [.error K.ERR_INVALID_PARAMETER] })) ∧
      (∀ color : Nat, sg_SetBackgroundColor K ref color m
        = some (CLR_NONE, { mem := m.mem, diag := m.diag ++ [.error K.ERR_INVALID_PARAMETER] })) ∧
      ft_LowDateTime K ref m
        = some (0, { mem := m.mem, diag := m.diag ++ [.error K.ERR_INVALID_PARAMETER] }) ∧
      ft_HighDateTime K ref m
        = some (0, { mem := m.mem, diag := m.diag ++ [.error K.ERR_INVALID_PARAMETER] }) ∧
      tzi_Bias K ref m
        = some (0, { mem := m.mem, diag := m.diag ++ [.error K.ERR_INVALID_PARAMETER] }) ∧
      tzi_StandardBias K ref m
        = some (0, { mem := m.mem, diag := m.diag ++ [.error K.ERR_INVALID_PARAMETER] }) ∧
      tzi_DaylightBias K ref m
        = some (0, { mem := m.mem, diag := m.diag ++ [.error K.ERR_INVALID_PARAMETER] }) := by
  have hlt : ref < K.MIN_VALID_POINTER := by
    rcases href with h0 | ⟨_, h1⟩
    · rw [h0]; exact hmin
    · exact h1
  have hzero : toUint 0 = 0 := by decide
  refine ⟨?_, ?_, ?_, ?_, ?_, ?_, ?_, ?_, ?_, ?_, ?_⟩
  · simp only [sg_Name, if_pos hlt, error, herr, hzero]
  · simp only [sg_Description, if_pos hlt, error, herr, hzero]
  · simp only [sg_BackgroundColor, if_pos hlt, error]
  · intro name
    simp only [sg_SetName, if_pos hlt, error, herr, hzero]
  · intro description
    simp only [sg_SetDescription, if_pos hlt, error, herr, hzero]
  · intro color
    simp only [sg_SetBackgroundColor, if_pos hlt, error]
  · simp only [ft_LowDateTime, if_pos hlt, error, herr, hzero]
  · simp only [ft_HighDateTime, if_pos hlt, error, herr, hzero]
  · simp only [tzi_Bias, if_pos hlt, error, herr]
  · simp only [tzi_StandardBias, if_pos hlt, error, herr]
  · simp only [tzi_DaylightBias, if_pos hlt, error, herr]

theorem accessors_reject_invalid_reference_witness :
    (0 < mt4Consts.MIN_VALID_POINTER ∧
        mt4Consts.errorReturn mt4Consts.ERR_INVALID_PARAMETER = 0 ∧
        ((255 : Nat) = 0 ∨ ((255 : Nat) ≠ 0 ∧ 255 < mt4Consts.MIN_VALID_POINTER))) ∧
      (sg_Name mt4Consts 255 sampleMachine
          = some (0, { mem := sampleMachine.mem, diag := [.debug, .error 4051] }) ∧
        sg_Description mt4Consts 255 sampleMachine
          = some (0, { mem := sampleMachine.mem, diag := [.debug, .error 4051] }) ∧
        sg_BackgroundColor mt4Consts 255 sampleMachine
          = some (CLR_NONE, { mem := sampleMachine.mem, diag := [.debug, .error 4051] }) ∧
        (∀ name : Nat, sg_SetName mt4Consts 255 name sampleMachine
          = some (0, { mem := sampleMachine.mem, diag := [.debug, .error 4051] })) ∧
        (∀ description : Nat, sg_SetDescription mt4Consts 255 description sampleMachine
          = some (0, { mem := sampleMachine.mem, diag := [.debug, .error 4051] })) ∧
        (∀ color : Nat, sg_SetBackgroundColor mt4Consts 255 color sampleMachine
          = some (CLR_NONE, { mem := sampleMachine.mem, diag := [.debug, .error 4051] })) ∧
        ft_LowDateTime mt4Consts 255 sampleMachine
          = some (0, { mem := sampleMachine.mem, diag := [.debug, .error 4051] }) ∧
        ft_HighDateTime mt4Consts 255 sampleMachine
          = some (0, { mem := sampleMachine.mem, diag := [.debug, .error 4051] }) ∧
        tzi_Bias mt4Consts 255 sampleMachine
          = some (0, { mem := sampleMachine.mem, diag := [.debug, .error 4051] }) ∧
        tzi_StandardBias mt4Consts 255 sampleMachine
          = some (0, { mem := sampleMachine.mem, diag := [.debug, .error 4051] }) ∧
        tzi_DaylightBias mt4Consts 255 sampleMachine
          = some (0, { mem := sampleMachine.mem, diag := [.debug, .error 4051] })) :=
  ⟨⟨by decide, rfl, Or.inr ⟨by decide, by decide⟩⟩,
    accessors_reject_invalid_reference mt4Consts (by decide) rfl 255
      (Or.inr ⟨by decide, by decide⟩) sampleMachine⟩

/-! ## Theorems: utility functions -/

theorem IsStdTimeframe_eq_TRUE_iff (PERIOD : Period → Int) (timeframe : Int) :
    IsStdTimeframe PERIOD timeframe = TRUE ↔ ∃ p, p ∈ stdPeriods ∧ timeframe = PERIOD p := by
  constructor
  · intro h
    unfold IsStdTimeframe at h
    simp only [stdPeriods, List.mem_cons, List.mem_singleton, List.not_mem_nil, or_false]
    split at h
    · exact ⟨.PERIOD_M1, by simp, by assumption⟩
    split at h
    · exact ⟨.PERIOD_M5, by simp, by assumption⟩
    split at h
    · exact ⟨.PERIOD_M15, by simp, by assumption⟩
    split at h
    · exact ⟨.PERIOD_M30, by simp, by assumption⟩
    split at h
    · exact ⟨.PERIOD_H1, by simp, by assumption⟩
    split at h
    · exact ⟨.PERIOD_H4, by simp, by assumption⟩
    split at h
    · exact ⟨.PERIOD_D1, by simp, by assumption⟩
    split at h
    · exact ⟨.PERIOD_W1, by simp, by assumption⟩
    split at h
    · exact ⟨.PERIOD_MN1, by simp, by assumption⟩
    · simp [TRUE, FALSE] at h
  · rintro ⟨p, hp, rfl⟩
    simp only [stdPeriods, List.mem_cons, List.mem_singleton, List.not_mem_nil, or_false] at hp
    rcases hp with rfl | rfl | rfl | rfl | rfl | rfl | rfl | rfl | rfl <;>
      simp only [IsStdTimeframe, if_true] <;> split_ifs <;> rfl

theorem IsStdTimeframe_TRUE_or_FALSE (PERIOD : Period → Int) (timeframe : Int) :
    IsStdTimeframe PERIOD timeframe = TRUE ∨ IsStdTimeframe PERIOD timeframe = FALSE := by
  unfold IsStdTimeframe
  split_ifs
  all_goals first | exact Or.inl rfl | exact Or.inr rfl

/-- C8: for every timeframe, IsStdTimeframe returns TRUE if and only if the timeframe is one of
the nine standard timeframes PERIOD_M1, PERIOD_M5, PERIOD_M15, PERIOD_M30, PERIOD_H1, PERIOD_H4,
PERIOD_D1, PERIOD_W1, PERIOD_MN1, and it returns FALSE otherwise. -/
theorem IsStdTimeframe_iff_standard (PERIOD : Period → Int) (timeframe : Int) :
    (IsStdTimeframe PERIOD timeframe = TRUE ↔
        timeframe = PERIOD .PERIOD_M1 ∨ timeframe = PERIOD .PERIOD_M5 ∨
        timeframe = PERIOD .PERIOD_M15 ∨ timeframe = PERIOD .PERIOD_M30 ∨
        timeframe = PERIOD .PERIOD_H1 ∨ timeframe = PERIOD .PERIOD_H4 ∨
        timeframe = PERIOD .PERIOD_D1 ∨ timeframe = PERIOD .PERIOD_W1 ∨
        timeframe = PERIOD .PERIOD_MN1) ∧
      (IsStdTimeframe PERIOD timeframe ≠ TRUE → IsStdTimeframe PERIOD timeframe = FALSE) := by
  constructor
  · rw [IsStdTimeframe_eq_TRUE_iff]
    simp only [stdPeriods, List.mem_cons, List.mem_singleton, List.not_mem_nil, or_false]
    constructor
    · rintro ⟨p, hp, rfl⟩
      rcases hp with rfl | rfl | rfl | rfl | rfl | rfl | rfl | rfl | rfl <;> simp
    · intro h
      rcases h with h | h | h | h | h | h | h | h | h
      · exact ⟨.PERIOD_M1, by simp, h⟩
      · exact ⟨.PERIOD_M5, by simp, h⟩
      · exact ⟨.PERIOD_M15, by simp, h⟩
      · exact ⟨.PERIOD_M30, by simp, h⟩
      · exact ⟨.PERIOD_H1, by simp, h⟩
      · exact ⟨.PERIOD_H4, by simp, h⟩
      · exact ⟨.PERIOD_D1, by simp, h⟩
      · exact ⟨.PERIOD_W1, by simp, h⟩
      · exact ⟨.PERIOD_MN1, by simp, h⟩
  · intro h
    rcases IsStdTimeframe_TRUE_or_FALSE PERIOD timeframe with h1 | h1
    · exact absurd h1 h
    · exact h1

theorem IsStdTimeframe_iff_standard_witness :
    IsStdTimeframe mt4Period 240 = TRUE ∧ IsStdTimeframe mt4Period 129600 = FALSE :=
  ⟨(IsStdTimeframe_iff_standard mt4Period 240).1.mpr (by decide),
    (IsStdTimeframe_iff_standard mt4Period 129600).2 (by decide)⟩

/-- C9: if the nine standard PERIOD_* values are positive, then for every timeframe > 0 exactly
one of IsStdTimeframe and IsCustomTimeframe returns TRUE (the other returns FALSE), and for every
timeframe <= 0 both return FALSE. -/
theorem timeframes_partition (PERIOD : Period → Int)
    (hpos : ∀ p, p ∈ stdPeriods → 0 < PERIOD p) (timeframe : Int) :
    (0 < timeframe →
        (IsStdTimeframe PERIOD timeframe = TRUE ∧ IsCustomTimeframe PERIOD timeframe = FALSE) ∨
        (IsStdTimeframe PERIOD timeframe = FALSE ∧ IsCustomTimeframe PERIOD timeframe = TRUE)) ∧
      (timeframe ≤ 0 →
        IsStdTimeframe PERIOD timeframe = FALSE ∧ IsCustomTimeframe PERIOD timeframe = FALSE) := by
  constructor
  · intro hgt
    have hnle : ¬ timeframe ≤ 0 := by omega
    rcases IsStdTimeframe_TRUE_or_FALSE PERIOD timeframe with h | h
    · left
      refine ⟨h, ?_⟩
      simp [IsCustomTimeframe, hnle, h, lnot, TRUE, FALSE]
    · right
      refine ⟨h, ?_⟩
      simp [IsCustomTimeframe, hnle, h, lnot, TRUE, FALSE]
  · intro hle
    constructor
    · rcases IsStdTimeframe_TRUE_or_FALSE PERIOD timeframe with h | h
      · obtain ⟨p, hp, rfl⟩ := (IsStdTimeframe_eq_TRUE_iff PERIOD timeframe).mp h
        have := hpos p hp
        omega
      · exact h
    · simp [IsCustomTimeframe, hle]

theorem timeframes_partition_witness :
    (∀ p, p ∈ stdPeriods → 0 < mt4Period p) ∧
      ((0 < (240 : Int) →
          (IsStdTimeframe mt4Period 240 = TRUE ∧ IsCustomTimeframe mt4Period 240 = FALSE) ∨
          (IsStdTimeframe mt4Period 240 = FALSE ∧ IsCustomTimeframe mt4Period 240 = TRUE)) ∧
        ((240 : Int) ≤ 0 →
          IsStdTimeframe mt4Period 240 = FALSE ∧ IsCustomTimeframe mt4Period 240 = FALSE)) :=
  ⟨by decide, timeframes_partition mt4Period (by decide) 240⟩

theorem mt4UninitReason_injective : Function.Injective mt4UninitReason := by
  intro a b h
  cases a <;> cases b <;> first | rfl | exact absurd h (by decide)

theorem mt4ModuleType_injective : Function.Injective mt4ModuleType := by
  intro a b h
  cases a <;> cases b <;> first | rfl | exact absurd h (by decide)

theorem mt4ProgramType_injective : Function.Injective mt4ProgramType := by
  intro a b h
  cases a <;> cases b <;> first | rfl | exact absurd h (by decide)

theorem mt4RootFunction_injective : Function.Injective mt4RootFunction := by
  intro a b h
  cases a <;> cases b <;> first | rfl | exact absurd h (by decide)

theorem UninitializeReasonToStr_of_reason (UNINITREASON : UninitializeReason → Int)
    (hinj : Function.Injective UNINITREASON) (r : UninitializeReason) :
    UninitializeReasonToStr UNINITREASON (UNINITREASON r) =
      some (match r with
        | .UR_UNDEFINED => "REASON_UNDEFINED"
        | .UR_REMOVE => "REASON_REMOVE"
        | .UR_RECOMPILE => "REASON_RECOMPILE"
        | .UR_CHARTCHANGE => "REASON_CHARTCHANGE"
        | .UR_CHARTCLOSE => "REASON_CHARTCLOSE"
        | .UR_PARAMETERS => "REASON_PARAMETERS"
        | .UR_ACCOUNT => "REASON_ACCOUNT"
        | .UR_TEMPLATE => "REASON_TEMPLATE"
        | .UR_INITFAILED => "REASON_INITFAILED"
        | .UR_CLOSE => "REASON_CLOSE") := by
  cases r <;> simp [UninitializeReasonToStr, hinj.eq_iff]

/-- C6: the case labels of the switch being pairwise different, UninitializeReasonToStr returns a
non-NULL name for each of the 10 uninitialize reasons (undefined, remove, recompile, chart change,
chart close, parameters, account, template, init failed, close), the names of two different
reasons are different, and for every input that is none of the 10 reasons it returns NULL. -/
theorem UninitializeReasonToStr_exactly_ten (UNINITREASON : UninitializeReason → Int)
    (hinj : Function.Injective UNINITREASON) :
    (∀ r : UninitializeReason,
        ∃ name, UninitializeReasonToStr UNINITREASON (UNINITREASON r) = some name) ∧
      (∀ r1 r2 : UninitializeReason, r1 ≠ r2 →
        UninitializeReasonToStr UNINITREASON (UNINITREASON r1)
          ≠ UninitializeReasonToStr UNINITREASON (UNINITREASON r2)) ∧
      ([UninitializeReason.UR_UNDEFINED, .UR_REMOVE, .UR_RECOMPILE, .UR_CHARTCHANGE,
          .UR_CHARTCLOSE, .UR_PARAMETERS, .UR_ACCOUNT, .UR_TEMPLATE, .UR_INITFAILED,
          .UR_CLOSE].map (fun r => UninitializeReasonToStr UNINITREASON (UNINITREASON r))
        = [some "REASON_UNDEFINED", some "REASON_REMOVE", some "REASON_RECOMPILE",
           some "REASON_CHARTCHANGE", some "REASON_CHARTCLOSE", some "REASON_PARAMETERS",
           some "REASON_ACCOUNT", some "REASON_TEMPLATE", some "REASON_INITFAILED",
           some "REASON_CLOSE"]) ∧
      (∀ reason : Int, (∀ r : UninitializeReason, reason ≠ UNINITREASON r) →
        UninitializeReasonToStr UNINITREASON reason = none) := by
  refine ⟨?_, ?_, ?_, ?_⟩
  · intro r
    exact ⟨_, UninitializeReasonToStr_of_reason UNINITREASON hinj r⟩
  · intro r1 r2 hne
    rw [UninitializeReasonToStr_of_reason UNINITREASON hinj r1,
      UninitializeReasonToStr_of_reason UNINITREASON hinj r2]
    cases r1 <;> cases r2 <;> first | exact absurd rfl hne | decide
  · simp only [List.map, UninitializeReasonToStr_of_reason UNINITREASON hinj]
  · intro reason hnot
    simp [UninitializeReasonToStr, hnot]

theorem UninitializeReasonToStr_exactly_ten_witness :
    Function.Injective mt4UninitReason ∧
      ((∀ r : UninitializeReason,
          ∃ name, UninitializeReasonToStr mt4UninitReason (mt4UninitReason r) = some name) ∧
        (∀ r1 r2 : UninitializeReason, r1 ≠ r2 →
          UninitializeReasonToStr mt4UninitReason (mt4UninitReason r1)
            ≠ UninitializeReasonToStr mt4UninitReason (mt4UninitReason r2)) ∧
        ([UninitializeReason.UR_UNDEFINED, .UR_REMOVE, .UR_RECOMPILE, .UR_CHARTCHANGE,
            .UR_CHARTCLOSE, .UR_PARAMETERS, .UR_ACCOUNT, .UR_TEMPLATE, .UR_INITFAILED,
            .UR_CLOSE].map (fun r => UninitializeReasonToStr mt4UninitReason (mt4UninitReason r))
          = [some "REASON_UNDEFINED", some "REASON_REMOVE", some "REASON_RECOMPILE",
             some "REASON_CHARTCHANGE", some "REASON_CHARTCLOSE", some "REASON_PARAMETERS",
             some "REASON_ACCOUNT", some "REASON_TEMPLATE", some "REASON_INITFAILED",
             some "REASON_CLOSE"]) ∧
        (∀ reason : Int, (∀ r : UninitializeReason, reason ≠ mt4UninitReason r) →
          UninitializeReasonToStr mt4UninitReason reason = none)) :=
  ⟨mt4UninitReason_injective,
    UninitializeReasonToStr_exactly_ten mt4UninitReason mt4UninitReason_injective⟩

theorem ModuleTypeToStr_same_name {MODULETYPE : ModuleType → Int} {x y : Int} {name : String}
    (hx : ModuleTypeToStr MODULETYPE x = some name)
    (hy : ModuleTypeToStr MODULETYPE y = some name) : x = y := by
  unfold ModuleTypeToStr at hx hy
  split_ifs at hx hy <;> cases hx <;> first | exact absurd hy (by decide) | simp_all

theorem ModuleTypeDescription_same_name {MODULETYPE : ModuleType → Int} {x y : Int}
    {name : String} (hx : ModuleTypeDescription MODULETYPE x = some name)
    (hy : ModuleTypeDescription MODULETYPE y = some name) : x = y := by
  unfold ModuleTypeDescription at hx hy
  split_ifs at hx hy <;> cases hx <;> first | exact absurd hy (by decide) | simp_all

theorem ProgramTypeToStr_same_name {PROGRAMTYPE : ProgramType → Int} {x y : Int} {name : String}
    (hx : ProgramTypeToStr PROGRAMTYPE x = some name)
    (hy : ProgramTypeToStr PROGRAMTYPE y = some name) : x = y := by
  unfold ProgramTypeToStr at hx hy
  split_ifs at hx hy <;> cases hx <;> first | exact absurd hy (by decide) | simp_all

theorem ProgramTypeDescription_same_name {PROGRAMTYPE : ProgramType → Int} {x y : Int}
    {name : String} (hx : ProgramTypeDescription PROGRAMTYPE x = some name)
    (hy : ProgramTypeDescription PROGRAMTYPE y = some name) : x = y := by
  unfold ProgramTypeDescription at hx hy
  split_ifs at hx hy <;> cases hx <;> first | exact absurd hy (by decide) | simp_all

theorem RootFunctionToStr_same_name {ROOTFUNCTION : RootFunction → Int} {x y : Int}
    {name : String} (hx : RootFunctionToStr ROOTFUNCTION x = some name)
    (hy : RootFunctionToStr ROOTFUNCTION y = some name) : x = y := by
  unfold RootFunctionToStr at hx hy
  split_ifs at hx hy <;> cases hx <;> first | exact absurd hy (by decide) | simp_all

theorem RootFunctionName_same_name {ROOTFUNCTION : RootFunction → Int} {x y : Int}
    {name : String} (hx : RootFunctionName ROOTFUNCTION x = some name)
    (hy : RootFunctionName ROOTFUNCTION y = some name) : x = y := by
  unfold RootFunctionName at hx hy
  split_ifs at hx hy <;> cases hx <;> first | exact absurd hy (by decide) | simp_all

theorem ModuleTypeToStr_member (MODULETYPE : ModuleType → Int) (t : ModuleType) :
    ∃ name, ModuleTypeToStr MODULETYPE (MODULETYPE t) = some name := by
  unfold ModuleTypeToStr
  cases t <;> split_ifs <;> first | exact ⟨_, rfl⟩ | (exfalso; simp_all)

theorem ModuleTypeDescription_member (MODULETYPE : ModuleType → Int) (t : ModuleType) :
    ∃ name, ModuleTypeDescription MODULETYPE (MODULETYPE t) = some name := by
  unfold ModuleTypeDescription
  cases t <;> split_ifs <;> first | exact ⟨_, rfl⟩ | (exfalso; simp_all)

theorem ProgramTypeToStr_member (PROGRAMTYPE : ProgramType → Int) (t : ProgramType) :
    ∃ name, ProgramTypeToStr PROGRAMTYPE (PROGRAMTYPE t) = some name := by
  unfold ProgramTypeToStr
  cases t <;> split_ifs <;> first | exact ⟨_, rfl⟩ | (exfalso; simp_all)

theorem ProgramTypeDescription_member (PROGRAMTYPE : ProgramType → Int) (t : ProgramType) :
    ∃ name, ProgramTypeDescription PROGRAMTYPE (PROGRAMTYPE t) = some name := by
  unfold ProgramTypeDescription
  cases t <;> split_ifs <;> first | exact ⟨_, rfl⟩ | (exfalso; simp_all)

theorem RootFunctionToStr_member (ROOTFUNCTION : RootFunction → Int) (f : RootFunction) :
    ∃ name, RootFunctionToStr ROOTFUNCTION (ROOTFUNCTION f) = some name := by
  unfold RootFunctionToStr
  cases f <;> split_ifs <;> first | exact ⟨_, rfl⟩ | (exfalso; simp_all)

theorem RootFunctionName_member (ROOTFUNCTION : RootFunction → Int) (f : RootFunction) :
    ∃ name, RootFunctionName ROOTFUNCTION (ROOTFUNCTION f) = some name := by
  unfold RootFunctionName
  cases f <;> split_ifs <;> first | exact ⟨_, rfl⟩ | (exfalso; simp_all)

theorem names_differ {α : Type} {code : α → Int} {f : Int → Option String}
    (hinj : Function.Injective code)
    (hmember : ∀ a, ∃ name, f (code a) = some name)
    (hsame : ∀ x y name, f x = some name → f y = some name → x = y)
    (a b : α) (hne : a ≠ b) : f (code a) ≠ f (code b) := by
  intro heq
  obtain ⟨name, hname⟩ := hmember a
  exact hne (hinj (hsame _ _ name hname (heq ▸ hname)))

/-- C7: the members of each enum having pairwise different values, each of ModuleTypeToStr,
ModuleTypeDescription, ProgramTypeToStr, ProgramTypeDescription, RootFunctionToStr and
RootFunctionName returns a non-NULL string for every member of its enum, and two different
members never map to the same string. -/
theorem enum_names_exhaustive_injective
    (MODULETYPE : ModuleType → Int) (PROGRAMTYPE : ProgramType → Int)
    (ROOTFUNCTION : RootFunction → Int)
    (hmodule : Function.Injective MODULETYPE) (hprogram : Function.Injective PROGRAMTYPE)
    (hroot : Function.Injective ROOTFUNCTION) :
    ((∀ t, ∃ name, ModuleTypeToStr MODULETYPE (MODULETYPE t) = some name) ∧
        ∀ t1 t2, t1 ≠ t2 →
          ModuleTypeToStr MODULETYPE (MODULETYPE t1) ≠ ModuleTypeToStr MODULETYPE (MODULETYPE t2)) ∧
      ((∀ t, ∃ name, ModuleTypeDescription MODULETYPE (MODULETYPE t) = some name) ∧
        ∀ t1 t2, t1 ≠ t2 →
          ModuleTypeDescription MODULETYPE (MODULETYPE t1)
            ≠ ModuleTypeDescription MODULETYPE (MODULETYPE t2)) ∧
      ((∀ t, ∃ name, ProgramTypeToStr PROGRAMTYPE (PROGRAMTYPE t) = some name) ∧
        ∀ t1 t2, t1 ≠ t2 →
          ProgramTypeToStr PROGRAMTYPE (PROGRAMTYPE t1)
            ≠ ProgramTypeToStr PROGRAMTYPE (PROGRAMTYPE t2)) ∧
      ((∀ t, ∃ name, ProgramTypeDescription PROGRAMTYPE (PROGRAMTYPE t) = some name) ∧
        ∀ t1 t2, t1 ≠ t2 →
          ProgramTypeDescription PROGRAMTYPE (PROGRAMTYPE t1)
            ≠ ProgramTypeDescription PROGRAMTYPE (PROGRAMTYPE t2)) ∧
      ((∀ f, ∃ name, RootFunctionToStr ROOTFUNCTION (ROOTFUNCTION f) = some name) ∧
        ∀ f1 f2, f1 ≠ f2 →
          RootFunctionToStr ROOTFUNCTION (ROOTFUNCTION f1)
            ≠ RootFunctionToStr ROOTFUNCTION (ROOTFUNCTION f2)) ∧
      ((∀ f, ∃ name, RootFunctionName ROOTFUNCTION (ROOTFUNCTION f) = some name) ∧
        ∀ f1 f2, f1 ≠ f2 →
          RootFunctionName ROOTFUNCTION (ROOTFUNCTION f1)
            ≠ RootFunctionName ROOTFUNCTION (ROOTFUNCTION f2)) :=
  ⟨⟨ModuleTypeToStr_member MODULETYPE,
      names_differ hmodule (ModuleTypeToStr_member MODULETYPE)
        (fun _ _ _ => ModuleTypeToStr_same_name)⟩,
    ⟨ModuleTypeDescription_member MODULETYPE,
      names_differ hmodule (ModuleTypeDescription_member MODULETYPE)
        (fun _ _ _ => ModuleTypeDescription_same_name)⟩,
    ⟨ProgramTypeToStr_member PROGRAMTYPE,
      names_differ hprogram (ProgramTypeToStr_member PROGRAMTYPE)
        (fun _ _ _ => ProgramTypeToStr_same_name)⟩,
    ⟨ProgramTypeDescription_member PROGRAMTYPE,
      names_differ hprogram (ProgramTypeDescription_member PROGRAMTYPE)
        (fun _ _ _ => ProgramTypeDescription_same_name)⟩,
    ⟨RootFunctionToStr_member ROOTFUNCTION,
      names_differ hroot (RootFunctionToStr_member ROOTFUNCTION)
        (fun _ _ _ => RootFunctionToStr_same_name)⟩,
    ⟨RootFunctionName_member ROOTFUNCTION,
      names_differ hroot (RootFunctionName_member ROOTFUNCTION)
        (fun _ _ _ => RootFunctionName_same_name)⟩⟩

theorem enum_names_exhaustive_injective_witness :
    (Function.Injective mt4ModuleType ∧ Function.Injective mt4ProgramType ∧
        Function.Injective mt4RootFunction) ∧
      (((∀ t, ∃ name, ModuleTypeToStr mt4ModuleType (mt4ModuleType t) = some name) ∧
          ∀ t1 t2, t1 ≠ t2 →
            ModuleTypeToStr mt4ModuleType (mt4ModuleType t1)
              ≠ ModuleTypeToStr mt4ModuleType (mt4ModuleType t2)) ∧
        ((∀ t, ∃ name, ModuleTypeDescription mt4ModuleType (mt4ModuleType t) = some name) ∧
          ∀ t1 t2, t1 ≠ t2 →
            ModuleTypeDescription mt4ModuleType (mt4ModuleType t1)
              ≠ ModuleTypeDescription mt4ModuleType (mt4ModuleType t2)) ∧
        ((∀ t, ∃ name, ProgramTypeToStr mt4ProgramType (mt4ProgramType t) = some name) ∧
          ∀ t1 t2, t1 ≠ t2 →
            ProgramTypeToStr mt4ProgramType (mt4ProgramType t1)
              ≠ ProgramTypeToStr mt4ProgramType (mt4ProgramType t2)) ∧
        ((∀ t, ∃ name, ProgramTypeDescription mt4ProgramType (mt4ProgramType t) = some name) ∧
          ∀ t1 t2, t1 ≠ t2 →
            ProgramTypeDescription mt4ProgramType (mt4ProgramType t1)
              ≠ ProgramTypeDescription mt4ProgramType (mt4ProgramType t2)) ∧
        ((∀ f, ∃ name, RootFunctionToStr mt4RootFunction (mt4RootFunction f) = some name) ∧
          ∀ f1 f2, f1 ≠ f2 →
            RootFunctionToStr mt4RootFunction (mt4RootFunction f1)
              ≠ RootFunctionToStr mt4RootFunction (mt4RootFunction f2)) ∧
        ((∀ f, ∃ name, RootFunctionName mt4RootFunction (mt4RootFunction f) = some name) ∧
          ∀ f1 f2, f1 ≠ f2 →
            RootFunctionName mt4RootFunction (mt4RootFunction f1)
              ≠ RootFunctionName mt4RootFunction (mt4RootFunction f2))) :=
  ⟨⟨mt4ModuleType_injective, mt4ProgramType_injective, mt4RootFunction_injective⟩,
    enum_names_exhaustive_injective mt4ModuleType mt4ProgramType mt4RootFunction
      mt4ModuleType_injective mt4ProgramType_injective mt4RootFunction_injective⟩

theorem hexDigits_length (width value : Nat) : (hexDigits width value).length = width := by
  induction width generalizing value with
  | zero => rfl
  | succ w ih => simp [hexDigits, ih]

theorem hexDigitValue_hexDigit (d : Nat) (hd : d < 16) : hexDigitValue (hexDigit d) = some d := by
  interval_cases d <;> decide

theorem hexValue_append (digits : List Char) (ch : Char) :
    hexValue (digits ++ [ch]) =
      match hexValue digits, hexDigitValue ch with
      | some a, some d => some (16 * a + d)
      | _, _ => none := by
  simp [hexValue, List.foldl_append]

theorem hexValue_hexDigits (width value : Nat) :
    hexValue (hexDigits width value) = some (value % 16 ^ width) := by
  induction width generalizing value with
  | zero => simp [hexDigits, hexValue, Nat.mod_one]
  | succ w ih =>
    rw [hexDigits, hexValue_append, ih, hexDigitValue_hexDigit _ (Nat.mod_lt _ (by decide))]
    simp only [Option.some.injEq]
    rw [pow_succ, Nat.mul_comm (16 ^ w) 16, Nat.mod_mul]
    omega

theorem toUint_of_int32 (value : Int) (hlo : -2147483648 ≤ value) (hhi : value ≤ 2147483647) :
    toUint value = if 0 ≤ value then value.toNat else (value + 4294967296).toNat := by
  unfold toUint
  split <;> omega

theorem toUint_lt (value : Int) : toUint value < 4294967296 := by
  unfold toUint
  omega

/-- C10: for every 4-byte int value, IntToHexStr returns a string of exactly 8 characters that is
the upper-case hexadecimal numeral, padded with zeros, of the value read as an unsigned 32-bit
number (the value itself if it is not negative, the value plus 2^32 otherwise); and
IntToHexStr(13465610) is "00CD780A". -/
theorem IntToHexStr_eight_hex_digits :
    (∀ value : Int, -2147483648 ≤ value → value ≤ 2147483647 →
        ∃ text : String, IntToHexStr value = some text ∧ text.length = 8 ∧
          hexValue text.data
            = some (if 0 ≤ value then value.toNat else (value + 4294967296).toNat)) ∧
      IntToHexStr 13465610 = some "00CD780A" := by
  refine ⟨?_, by decide⟩
  intro value hlo hhi
  refine ⟨formatPointer (toUint value), ?_, ?_, ?_⟩
  · simp [IntToHexStr, sprintf_s, formatPointer, String.length, hexDigits_length]
  · simp [formatPointer, String.length, hexDigits_length]
  · simp only [formatPointer]
    rw [hexValue_hexDigits, ← toUint_of_int32 value hlo hhi]
    have := toUint_lt value
    rw [Nat.mod_eq_of_lt (by norm_num; exact this)]

theorem IntToHexStr_eight_hex_digits_witness :
    ((-2147483648 : Int) ≤ -1 ∧ (-1 : Int) ≤ 2147483647) ∧
      ∃ text : String, IntToHexStr (-1) = some text ∧ text.length = 8 ∧
        hexValue text.data
          = some (if (0 : Int) ≤ -1 then (-1 : Int).toNat else ((-1 : Int) + 4294967296).toNat) :=
  ⟨⟨by decide, by decide⟩, IntToHexStr_eight_hex_digits.1 (-1) (by decide) (by decide)⟩

theorem decimalDigitValue_decimalDigit (d : Nat) (hd : d < 10) :
    decimalDigitValue (decimalDigit d) = some d := by
  interval_cases d <;> decide

theorem decimalDigit_ne_minus (d : Nat) (hd : d < 10) : decimalDigit d ≠ '-' := by
  interval_cases d <;> decide

theorem decimalNatValue_append (digits : List Char) (ch : Char) :
    decimalNatValue (digits ++ [ch]) =
      match decimalNatValue digits, decimalDigitValue ch with
      | some a, some d => some (10 * a + d)
      | _, _ => none := by
  simp [decimalNatValue, List.foldl_append]

theorem decimalNatValue_decimalDigits (fuel : Nat) :
    ∀ value : Nat, value ≤ fuel → decimalNatValue (decimalDigits fuel value) = some value := by
  induction fuel with
  | zero =>
    intro value hv
    have h0 : value = 0 := by omega
    subst h0
    decide
  | succ fuel ih =>
    intro value hv
    unfold decimalDigits
    split
    · rename_i hlt
      have hsingle : decimalNatValue [decimalDigit value] =
          match decimalNatValue [], decimalDigitValue (decimalDigit value) with
          | some a, some d => some (10 * a + d)
          | _, _ => none := decimalNatValue_append [] (decimalDigit value)
      rw [hsingle, decimalDigitValue_decimalDigit value hlt]
      simp [decimalNatValue]
    · rw [decimalNatValue_append, ih (value / 10) (by omega),
        decimalDigitValue_decimalDigit _ (Nat.mod_lt _ (by decide))]
      simp only [Option.some.injEq]
      omega

theorem decimalDigits_head (fuel : Nat) :
    ∀ value : Nat, ∃ d rest, d < 10 ∧ decimalDigits fuel value = decimalDigit d :: rest := by
  induction fuel with
  | zero =>
    intro value
    exact ⟨value % 10, [], Nat.mod_lt _ (by decide), rfl⟩
  | succ fuel ih =>
    intro value
    unfold decimalDigits
    split
    · rename_i hlt
      exact ⟨value, [], hlt, rfl⟩
    · obtain ⟨d, rest, hd, hrest⟩ := ih (value / 10)
      exact ⟨d, rest ++ [decimalDigit (value % 10)], hd, by rw [hrest]; rfl⟩

theorem decimalValue_formatDecimal (value : Int) :
    decimalValue (formatDecimal value).data = some value := by
  unfold formatDecimal
  split
  · rename_i hneg
    simp only [decimalValue, if_true]
    rw [decimalNatValue_decimalDigits _ _ (Nat.le_refl _)]
    simp only [Option.some.injEq, Int.ofNat_eq_coe]
    omega
  · rename_i hnonneg
    obtain ⟨d, rest, hd, hrest⟩ := decimalDigits_head value.toNat value.toNat
    have hval := decimalNatValue_decimalDigits value.toNat value.toNat (Nat.le_refl _)
    rw [hrest] at hval
    simp only [hrest, decimalValue, if_neg (decimalDigit_ne_minus d hd), hval,
      Option.some.injEq, Int.ofNat_eq_coe]
    omega

theorem PeriodDescription_of_period (PERIOD : Period → Int)
    (hinj : Function.Injective PERIOD) (hnz : ∀ p, PERIOD p ≠ 0) (p : Period) :
    PeriodDescription PERIOD (PERIOD p) =
      some (match p with
        | .PERIOD_M1 => "M1"
        | .PERIOD_M5 => "M5"
        | .PERIOD_M15 => "M15"
        | .PERIOD_M30 => "M30"
        | .PERIOD_H1 => "H1"
        | .PERIOD_H4 => "H4"
        | .PERIOD_D1 => "D1"
        | .PERIOD_W1 => "W1"
        | .PERIOD_MN1 => "MN1"
        | .PERIOD_Q1 => "Q1") := by
  cases p <;> simp [PeriodDescription, hinj.eq_iff, hnz]

theorem PeriodDescription_other (PERIOD : Period → Int) (period : Int)
    (h0 : period ≠ 0) (hother : ∀ p, period ≠ PERIOD p) :
    PeriodDescription PERIOD period = some (formatDecimal period) := by
  simp [PeriodDescription, h0, hother, sprintf_s, _scprintf]

theorem mt4Period_injective : Function.Injective mt4Period := by
  intro a b h
  cases a <;> cases b <;> first | rfl | exact absurd h (by decide)

theorem mt4Period_ne_zero (p : Period) : mt4Period p ≠ 0 := by
  cases p <;> decide

/-- C11: the case labels of the switch being pairwise different, PeriodDescription never returns
NULL: for period 0 it returns "NULL", for each of M1, M5, M15, M30, H1, H4, D1, W1, MN1 and Q1 it
returns the short name, and for every other period, negative ones included, it returns the signed
decimal representation of the period (a numeral that denotes the period); TimeframeDescription
returns the same result for every input. -/
theorem PeriodDescription_total (PERIOD : Period → Int)
    (hinj : Function.Injective PERIOD) (hnz : ∀ p, PERIOD p ≠ 0) :
    (∀ period : Int, ∃ text, PeriodDescription PERIOD period = some text) ∧
      PeriodDescription PERIOD 0 = some "NULL" ∧
      ([Period.PERIOD_M1, .PERIOD_M5, .PERIOD_M15, .PERIOD_M30, .PERIOD_H1, .PERIOD_H4,
          .PERIOD_D1, .PERIOD_W1, .PERIOD_MN1, .PERIOD_Q1].map
            (fun p => PeriodDescription PERIOD (PERIOD p))
        = [some "M1", some "M5", some "M15", some "M30", some "H1", some "H4", some "D1",
           some "W1", some "MN1", some "Q1"]) ∧
      (∀ period : Int, period ≠ 0 → (∀ p, period ≠ PERIOD p) →
        PeriodDescription PERIOD period = some (formatDecimal period) ∧
          decimalValue (formatDecimal period).data = some period) ∧
      (∀ timeframe : Int,
        TimeframeDescription PERIOD timeframe = PeriodDescription PERIOD timeframe) := by
  refine ⟨?_, ?_, ?_, ?_, ?_⟩
  · intro period
    by_cases h0 : period = 0
    · exact ⟨"NULL", by simp [PeriodDescription, h0]⟩
    · by_cases hp : ∃ p, period = PERIOD p
      · obtain ⟨p, rfl⟩ := hp
        exact ⟨_, PeriodDescription_of_period PERIOD hinj hnz p⟩
      · exact ⟨_, PeriodDescription_other PERIOD period h0 (fun p hpp => hp ⟨p, hpp⟩)⟩
  · simp [PeriodDescription]
  · simp only [List.map, PeriodDescription_of_period PERIOD hinj hnz]
  · intro period h0 hother
    exact ⟨PeriodDescription_other PERIOD period h0 hother, decimalValue_formatDecimal period⟩
  · intro timeframe
    rfl

theorem PeriodDescription_total_witness :
    (Function.Injective mt4Period ∧ ∀ p, mt4Period p ≠ 0) ∧
      PeriodDescription mt4Period 0 = some "NULL" ∧
      PeriodDescription mt4Period (-5) = some "-5" ∧
      decimalValue (formatDecimal (-5)).data = some (-5) ∧
      TimeframeDescription mt4Period 7 = some "7" :=
  ⟨⟨mt4Period_injective, mt4Period_ne_zero⟩,
    (PeriodDescription_total mt4Period mt4Period_injective mt4Period_ne_zero).2.1,
    ((PeriodDescription_total mt4Period mt4Period_injective mt4Period_ne_zero).2.2.2.1 (-5)
      (by decide) (by intro p; cases p <;> decide)).1,
    ((PeriodDescription_total mt4Period mt4Period_injective mt4Period_ne_zero).2.2.2.1 (-5)
      (by decide) (by intro p; cases p <;> decide)).2,
    ((PeriodDescription_total mt4Period mt4Period_injective mt4Period_ne_zero).2.2.2.2 7).trans
      (by decide)⟩

/-! ## Theorems: string functions -/

theorem TRUE_ne_FALSE : TRUE ≠ FALSE := by decide

theorem ite_TRUE_iff (p : Prop) [Decidable p] : (if p then TRUE else FALSE) = TRUE ↔ p := by
  by_cases hp : p
  · simp [hp]
  · simp [hp, TRUE, FALSE]

theorem ite_TRUE_or_FALSE (p : Prop) [Decidable p] :
    (if p then TRUE else FALSE) = TRUE ∨ (if p then TRUE else FALSE) = FALSE := by
  by_cases hp : p
  · left; simp [hp]
  · right; simp [hp]

theorem compareChars_eq (text1 text2 : List Char) (hlen : text1.length = text2.length)
    (remaining : Nat) :
    ∀ i : Nat, i + remaining = text1.length →
      compareChars text1 text2 i remaining
        = if text1.drop i = text2.drop i then TRUE else FALSE := by
  induction remaining with
  | zero =>
    intro i hi
    have h1 : text1.drop i = [] := List.drop_eq_nil_of_le (by omega)
    have h2 : text2.drop i = [] := List.drop_eq_nil_of_le (by omega)
    simp [compareChars, h1, h2]
  | succ n ih =>
    intro i hi
    have hi1 : i < text1.length := by omega
    have hi2 : i < text2.length := by omega
    have hd1 : text1.getD i (Char.ofNat 0) = text1[i] := by
      simp [List.getD_eq_getElem?_getD, List.getElem?_eq_getElem hi1]
    have hd2 : text2.getD i (Char.ofNat 0) = text2[i] := by
      simp [List.getD_eq_getElem?_getD, List.getElem?_eq_getElem hi2]
    have e1 : text1.drop i = text1[i] :: text1.drop (i + 1) := List.drop_eq_getElem_cons hi1
    have e2 : text2.drop i = text2[i] :: text2.drop (i + 1) := List.drop_eq_getElem_cons hi2
    rw [compareChars, hd1, hd2, e1, e2]
    by_cases hc : text1[i] = text2[i]
    · rw [if_neg (not_not.mpr hc), ih (i + 1) (by omega)]
      simp only [hc, List.cons.injEq, true_and]
    · rw [if_pos hc, if_neg]
      intro h
      exact hc (List.cons.inj h).1

theorem compareChars_whole (text1 text2 : List Char) (hlen : text1.length = text2.length) :
    compareChars text1 text2 0 text1.length = if text1 = text2 then TRUE else FALSE := by
  simpa using compareChars_eq text1 text2 hlen text1.length 0 (by omega)

theorem strcmp_eq_zero_iff (text1 : List Char) :
    ∀ text2 : List Char, strcmp text1 text2 = 0 ↔ text1 = text2 := by
  induction text1 with
  | nil =>
    intro text2
    cases text2 <;> simp [strcmp]
  | cons a rest ih =>
    intro text2
    cases text2 with
    | nil => simp [strcmp]
    | cons b rest2 =>
      by_cases hab : a = b
      · simp [strcmp, hab, ih rest2]
      · by_cases hlt : a < b <;> simp [strcmp, hab, hlt]

theorem strncmp_eq_zero_iff (count : Nat) :
    ∀ text1 text2 : List Char,
      strncmp text1 text2 count = 0 ↔ text1.take count = text2.take count := by
  induction count with
  | zero => intro text1 text2; simp [strncmp]
  | succ n ih =>
    intro text1 text2
    cases text1 with
    | nil => cases text2 <;> simp [strncmp]
    | cons a rest1 =>
      cases text2 with
      | nil => simp [strncmp]
      | cons b rest2 =>
        by_cases hab : a = b
        · simp [strncmp, hab, ih rest1 rest2]
        · by_cases hlt : a < b <;> simp [strncmp, hab, hlt]

theorem texts_agree_iff (text1 text2 : String) :
    (text1.length = text2.length ∧
        ∀ i : Nat, i < text1.length → text1.data[i]? = text2.data[i]?) ↔ text1 = text2 := by
  constructor
  · rintro ⟨hlen, hpos⟩
    apply String.ext
    apply List.ext_getElem?
    intro n
    by_cases hn : n < text1.length
    · exact hpos n hn
    · have h1 : text1.data.length ≤ n := by
        have : text1.data.length = text1.length := rfl
        omega
      have h2 : text2.data.length ≤ n := by
        have : text2.data.length = text2.length := rfl
        omega
      rw [List.getElem?_eq_none h1, List.getElem?_eq_none h2]
  · rintro rfl
    exact ⟨rfl, fun _ _ => rfl⟩

theorem sameStrings_iff (mem : Memory) (s1 s2 : Nat)
    (h1 : s1 ≠ 0 → ∃ text, mem.strings.lookup s1 = some text) :
    sameStrings mem s1 s2 ↔
      s1 = s2 ∨ (s1 ≠ 0 ∧ s2 ≠ 0 ∧ mem.strings.lookup s1 = mem.strings.lookup s2) := by
  unfold sameStrings
  constructor
  · rintro (⟨h10, h20⟩ | ⟨hn1, hn2, text1, text2, hl1, hl2, hlen, hpos⟩)
    · left; rw [h10, h20]
    · right
      refine ⟨hn1, hn2, ?_⟩
      rw [hl1, hl2, (texts_agree_iff text1 text2).mp ⟨hlen, hpos⟩]
  · rintro (heq | ⟨hn1, hn2, hl⟩)
    · by_cases h0 : s1 = 0
      · left; exact ⟨h0, by rw [← heq]; exact h0⟩
      · right
        obtain ⟨text, htext⟩ := h1 h0
        exact ⟨h0, by rw [← heq]; exact h0, text, text, htext, by rw [← heq]; exact htext,
          rfl, fun _ _ => rfl⟩
    · right
      obtain ⟨text, htext⟩ := h1 hn1
      exact ⟨hn1, hn2, text, text, htext, by rw [← hl]; exact htext, rfl, fun _ _ => rfl⟩

theorem StringCompare_eq (mem : Memory) (s1 s2 : Nat)
    (h1 : s1 ≠ 0 → ∃ text, mem.strings.lookup s1 = some text)
    (h2 : s2 ≠ 0 → ∃ text, mem.strings.lookup s2 = some text) :
    StringCompare mem s1 s2 =
      some (if s1 = s2 ∨ (s1 ≠ 0 ∧ s2 ≠ 0 ∧ mem.strings.lookup s1 = mem.strings.lookup s2)
        then TRUE else FALSE) := by
  unfold StringCompare
  by_cases heq : s1 = s2
  · simp [heq]
  · by_cases hz : s1 = 0 ∨ s2 = 0
    · have hnot : ¬ (s1 ≠ 0 ∧ s2 ≠ 0 ∧ mem.strings.lookup s1 = mem.strings.lookup s2) := by
        rintro ⟨a, b, _⟩
        rcases hz with hz | hz
        · exact a hz
        · exact b hz
      simp [heq, hz, hnot]
    · have hn1 : s1 ≠ 0 := fun h => hz (Or.inl h)
      have hn2 : s2 ≠ 0 := fun h => hz (Or.inr h)
      obtain ⟨text1, ht1⟩ := h1 hn1
      obtain ⟨text2, ht2⟩ := h2 hn2
      rw [if_neg heq, if_neg hz, ht1, ht2]
      simp only [Option.some.injEq]
      by_cases hlen : text1.length = text2.length
      · have hlen' : text1.data.length = text2.data.length := hlen
        rw [if_neg (not_not.mpr hlen)]
        have hw := compareChars_whole text1.data text2.data hlen'
        have hlen2 : text1.length = text1.data.length := rfl
        rw [hlen2, hw]
        by_cases hd : text1.data = text2.data
        · have hsame : text1 = text2 := String.ext hd
          rw [if_pos hd, if_pos (Or.inr ⟨hn1, hn2, by rw [hsame]⟩)]
        · have hdiff : text1 ≠ text2 := fun h => hd (by rw [h])
          rw [if_neg hd, if_neg]
          rintro (h | ⟨_, _, h⟩)
          · exact heq h
          · exact hdiff h
      · have hdiff : text1 ≠ text2 := fun h => hlen (by rw [h])
        rw [if_pos hlen, if_neg]
        rintro (h | ⟨_, _, h⟩)
        · exact heq h
        · exact hdiff h

theorem util_StringCompare_eq (mem : Memory) (s1 s2 : Nat)
    (h1 : s1 ≠ 0 → ∃ text, mem.strings.lookup s1 = some text)
    (h2 : s2 ≠ 0 → ∃ text, mem.strings.lookup s2 = some text) :
    util.StringCompare mem s1 s2 =
      some (if s1 = s2 ∨ (s1 ≠ 0 ∧ s2 ≠ 0 ∧ mem.strings.lookup s1 = mem.strings.lookup s2)
        then TRUE else FALSE) := by
  unfold util.StringCompare
  by_cases heq : s1 = s2
  · simp [heq]
  · by_cases hz : s1 = 0 ∨ s2 = 0
    · have hnot : ¬ (s1 ≠ 0 ∧ s2 ≠ 0 ∧ mem.strings.lookup s1 = mem.strings.lookup s2) := by
        rintro ⟨a, b, _⟩
        rcases hz with hz | hz
        · exact a hz
        · exact b hz
      simp [heq, hz, hnot]
    · have hn1 : s1 ≠ 0 := fun h => hz (Or.inl h)
      have hn2 : s2 ≠ 0 := fun h => hz (Or.inr h)
      obtain ⟨text1, ht1⟩ := h1 hn1
      obtain ⟨text2, ht2⟩ := h2 hn2
      rw [if_neg heq, if_neg hz, ht1, ht2]
      simp only [Option.some.injEq]
      by_cases hd : text1.data = text2.data
      · have hsame : text1 = text2 := String.ext hd
        rw [if_pos ((strcmp_eq_zero_iff _ _).mpr hd), if_pos (Or.inr ⟨hn1, hn2, by rw [hsame]⟩)]
      · have hdiff : text1 ≠ text2 := fun h => hd (by rw [h])
        have hs : ¬ strcmp text1.data text2.data = 0 :=
          fun h => hd ((strcmp_eq_zero_iff _ _).mp h)
        rw [if_neg hs, if_neg]
        rintro (h | ⟨_, _, h⟩)
        · exact heq h
        · exact hdiff h

/-- C12: for all C strings s1 and s2, each possibly a NULL pointer, both functions named
StringCompare (src/mql/MQLUtils.cpp and src/util/string.cpp) return TRUE if and only if both
pointers are NULL or both are not NULL and the texts have the same length and the same character
at every position, and FALSE otherwise; in particular a NULL pointer and a pointer that is not
NULL, such as one to an empty string, never compare equal. -/
theorem StringCompare_iff_sameStrings (mem : Memory) (s1 s2 : Nat)
    (h1 : s1 ≠ 0 → ∃ text, mem.strings.lookup s1 = some text)
    (h2 : s2 ≠ 0 → ∃ text, mem.strings.lookup s2 = some text) :
    (∃ result, StringCompare mem s1 s2 = some result ∧ (result = TRUE ∨ result = FALSE) ∧
        (result = TRUE ↔ sameStrings mem s1 s2)) ∧
      (∃ result, util.StringCompare mem s1 s2 = some result ∧
        (result = TRUE ∨ result = FALSE) ∧ (result = TRUE ↔ sameStrings mem s1 s2)) ∧
      ((s1 = 0 ∧ s2 ≠ 0) ∨ (s1 ≠ 0 ∧ s2 = 0) →
        StringCompare mem s1 s2 = some FALSE ∧ util.StringCompare mem s1 s2 = some FALSE) := by
  have e1 := StringCompare_eq mem s1 s2 h1 h2
  have e2 := util_StringCompare_eq mem s1 s2 h1 h2
  have hs := sameStrings_iff mem s1 s2 h1
  refine ⟨⟨_, e1, ite_TRUE_or_FALSE _, ?_⟩, ⟨_, e2, ite_TRUE_or_FALSE _, ?_⟩, ?_⟩
  · rw [ite_TRUE_iff, hs]
  · rw [ite_TRUE_iff, hs]
  · intro hnull
    have hnot : ¬ (s1 = s2 ∨
        (s1 ≠ 0 ∧ s2 ≠ 0 ∧ mem.strings.lookup s1 = mem.strings.lookup s2)) := by
      rintro (h | ⟨a, b, _⟩)
      · rcases hnull with ⟨h0, hn⟩ | ⟨hn, h0⟩
        · exact hn (by rw [← h]; exact h0)
        · exact hn (by rw [h]; exact h0)
      · rcases hnull with ⟨h0, _⟩ | ⟨_, h0⟩
        · exact a h0
        · exact b h0
    rw [e1, e2, if_neg hnot]
    exact ⟨rfl, rfl⟩

theorem StringCompare_iff_sameStrings_witness :
    (((0x20010 : Nat) ≠ 0 → ∃ text, stringMemory.strings.lookup 0x20010 = some text) ∧
        ((0x20030 : Nat) ≠ 0 → ∃ text, stringMemory.strings.lookup 0x20030 = some text)) ∧
      StringCompare stringMemory 0x20010 0x20030 = some TRUE ∧
      util.StringCompare stringMemory 0x20010 0x20030 = some TRUE ∧
      ((∃ result, StringCompare stringMemory 0x20010 0x20030 = some result ∧
          (result = TRUE ∨ result = FALSE) ∧
          (result = TRUE ↔ sameStrings stringMemory 0x20010 0x20030)) ∧
        (∃ result, util.StringCompare stringMemory 0x20010 0x20030 = some result ∧
          (result = TRUE ∨ result = FALSE) ∧
          (result = TRUE ↔ sameStrings stringMemory 0x20010 0x20030)) ∧
        (((0x20010 : Nat) = 0 ∧ (0x20030 : Nat) ≠ 0) ∨ ((0x20010 : Nat) ≠ 0 ∧ (0x20030 : Nat) = 0) →
          StringCompare stringMemory 0x20010 0x20030 = some FALSE ∧
            util.StringCompare stringMemory 0x20010 0x20030 = some FALSE)) :=
  ⟨⟨fun _ => ⟨"USD", by decide⟩, fun _ => ⟨"USD", by decide⟩⟩, by decide, by decide,
    StringCompare_iff_sameStrings stringMemory 0x20010 0x20030
      (fun _ => ⟨"USD", by decide⟩) (fun _ => ⟨"USD", by decide⟩)⟩

theorem take_length_drop (text : List Char) (count : Nat) (hle : count ≤ text.length) :
    (text.drop (text.length - count)).take count = text.drop (text.length - count) := by
  apply List.take_of_length_le
  simp only [List.length_drop]
  omega

/-- C13: for every string str that is not NULL and every suffix that is neither NULL nor empty,
StringEndsWith returns TRUE if and only if str is at least as long as the suffix and the last
length(suffix) characters of str equal the suffix, and FALSE otherwise, without a diagnostic call;
for a NULL str it returns FALSE whatever the suffix is. -/
theorem StringEndsWith_iff_suffix (K : Consts) (D : DiagReturns) (m : Machine) :
    (∀ (str suffix : Nat) (text ending : String),
        str ≠ 0 → m.mem.strings.lookup str = some text →
        suffix ≠ 0 → m.mem.strings.lookup suffix = some ending → ending.length ≠ 0 →
        ∃ result, StringEndsWith K D str suffix m = some (result, m) ∧
          (result = TRUE ∨ result = FALSE) ∧
          (result = TRUE ↔
            ending.length ≤ text.length ∧
              text.data.drop (text.length - ending.length) = ending.data)) ∧
      (∀ suffix : Nat, StringEndsWith K D 0 suffix m = some (FALSE, m)) := by
  constructor
  · intro str suffix text ending hstr htext hsuffix hending hne
    unfold StringEndsWith
    rw [if_neg hstr, if_neg hsuffix, htext, hending]
    simp only [if_neg hne]
    by_cases hle : text.length ≥ ending.length
    · rw [if_pos hle]
      refine ⟨_, rfl, ite_TRUE_or_FALSE _, ?_⟩
      rw [ite_TRUE_iff, strncmp_eq_zero_iff]
      have hlen : ending.data.length = ending.length := rfl
      have hlen2 : text.data.length = text.length := rfl
      have ht : (text.data.drop (text.length - ending.length)).take ending.length
          = text.data.drop (text.length - ending.length) := by
        rw [← hlen2]
        exact take_length_drop text.data ending.length (by omega)
      have he : ending.data.take ending.length = ending.data :=
        List.take_of_length_le (by omega)
      rw [ht, he]
      exact ⟨fun h => ⟨hle, h⟩, fun h => h.2⟩
    · rw [if_neg hle]
      refine ⟨FALSE, rfl, Or.inr rfl, ?_⟩
      constructor
      · intro h
        exact absurd h.symm TRUE_ne_FALSE
      · intro h
        exact absurd h.1 hle
  · intro suffix
    simp [StringEndsWith]

/-- C14: for every str that is not NULL, if the suffix is NULL, or if str is a string and the
suffix is the empty string, StringEndsWith makes the call warn(ERR_INVALID_PARAMETER) and returns
the value of that call, FALSE if `_warn` returns 0, although the criterion of C13 holds for the
empty suffix (every string ends with the empty string). -/
theorem StringEndsWith_rejects_empty_suffix (K : Consts) (D : DiagReturns) (m : Machine)
    (hwarn : D.warnReturn K.ERR_INVALID_PARAMETER = 0) (str : Nat) (hstr : str ≠ 0) :
    StringEndsWith K D str 0 m
        = some (FALSE, { mem := m.mem, diag := m.diag ++ [.warn K.ERR_INVALID_PARAMETER] }) ∧
      (∀ (suffix : Nat) (text : String),
        m.mem.strings.lookup str = some text → suffix ≠ 0 →
        m.mem.strings.lookup suffix = some "" →
          StringEndsWith K D str suffix m
              = some (FALSE,
                  { mem := m.mem, diag := m.diag ++ [.warn K.ERR_INVALID_PARAMETER] }) ∧
            ("".length ≤ text.length ∧ text.data.drop (text.length - "".length) = "".data)) := by
  constructor
  · simp [StringEndsWith, hstr, warn, hwarn, FALSE]
  · intro suffix text htext hsuffix hending
    constructor
    · unfold StringEndsWith
      rw [if_neg hstr, if_neg hsuffix, htext, hending]
      simp [warn, hwarn, FALSE]
    · have hlen : text.data.length = text.length := rfl
      refine ⟨Nat.zero_le _, ?_⟩
      show text.data.drop (text.length - 0) = []
      rw [Nat.sub_zero, ← hlen]
      exact List.drop_length _

theorem StringEndsWith_rejects_empty_suffix_witness :
    (mt4Diag.warnReturn mt4Consts.ERR_INVALID_PARAMETER = 0 ∧ (0x20000 : Nat) ≠ 0) ∧
      (StringEndsWith mt4Consts mt4Diag 0x20000 0 { mem := stringMemory, diag := [] }
          = some (FALSE, { mem := stringMemory, diag := [.warn 4051] }) ∧
        (∀ (suffix : Nat) (text : String),
          stringMemory.strings.lookup 0x20000 = some text → suffix ≠ 0 →
          stringMemory.strings.lookup suffix = some "" →
            StringEndsWith mt4Consts mt4Diag 0x20000 suffix { mem := stringMemory, diag := [] }
                = some (FALSE, { mem := stringMemory, diag := [.warn 4051] }) ∧
              ("".length ≤ text.length ∧
                text.data.drop (text.length - "".length) = "".data))) :=
  ⟨⟨rfl, by decide⟩,
    StringEndsWith_rejects_empty_suffix mt4Consts mt4Diag { mem := stringMemory, diag := [] }
      rfl 0x20000 (by decide)⟩

theorem StringEndsWith_iff_suffix_witness :
    ((0x20000 : Nat) ≠ 0 ∧ stringMemory.strings.lookup 0x20000 = some "EURUSD" ∧
        (0x20010 : Nat) ≠ 0 ∧ stringMemory.strings.lookup 0x20010 = some "USD" ∧
        "USD".length ≠ 0) ∧
      StringEndsWith mt4Consts mt4Diag 0x20000 0x20010 { mem := stringMemory, diag := [] }
        = some (TRUE, { mem := stringMemory, diag := [] }) ∧
      ∃ result,
        StringEndsWith mt4Consts mt4Diag 0x20000 0x20010 { mem := stringMemory, diag := [] }
          = some (result, { mem := stringMemory, diag := [] }) ∧
        (result = TRUE ∨ result = FALSE) ∧
        (result = TRUE ↔
          "USD".length ≤ "EURUSD".length ∧
            "EURUSD".data.drop ("EURUSD".length - "USD".length) = "USD".data) :=
  ⟨⟨by decide, by decide, by decide, by decide, by decide⟩, by decide,
    (StringEndsWith_iff_suffix mt4Consts mt4Diag { mem := stringMemory, diag := [] }).1
      0x20000 0x20010 "EURUSD" "USD" (by decide) (by decide) (by decide) (by decide)
      (by decide)⟩

/-! ## Theorems: ShiftIndicatorBuffer -/

theorem take_succ_set {α : Type} (elements : List α) (e : α) :
    ∀ i : Nat, i < elements.length → (elements.set i e).take (i + 1) = elements.take i ++ [e] := by
  induction elements with
  | nil => intro i hi; simp at hi
  | cons a rest ih =>
    intro i hi
    cases i with
    | zero => simp
    | succ j =>
      have hj : j < rest.length := by simpa using hi
      simp [ih j hj]

theorem fillLoop_fills {α : Type} (e : α) (k : Nat) :
    ∀ (i : Nat) (elements : List α) (fuel : Nat), k < fuel → i + k = elements.length →
      fillLoop (elements.length : Int) e fuel (i : Int) elements
        = some (elements.take i ++ List.replicate k e) := by
  induction k with
  | zero =>
    intro i elements fuel hfuel hik
    obtain ⟨f, rfl⟩ : ∃ f, fuel = f + 1 := ⟨fuel - 1, by omega⟩
    have hnot : ¬ ((i : Int) < (elements.length : Int)) := by omega
    have htake : elements.take i = elements := List.take_of_length_le (by omega)
    simp [fillLoop, hnot, htake]
  | succ k ih =>
    intro i elements fuel hfuel hik
    obtain ⟨f, rfl⟩ : ∃ f, fuel = f + 1 := ⟨fuel - 1, by omega⟩
    have hlt : (i : Int) < (elements.length : Int) := by omega
    have hi : i < elements.length := by omega
    have hbound : 0 ≤ (i : Int) ∧ (i : Int).toNat < elements.length := by
      constructor
      · omega
      · simpa using hi
    have hlen : (elements.set i e).length = elements.length := List.length_set _ _ _
    have hrec := ih (i + 1) (elements.set i e) f (by omega) (by rw [hlen]; omega)
    rw [hlen] at hrec
    rw [fillLoop, if_pos hlt, if_pos hbound]
    have hcast : ((i : Int) + 1) = ((i + 1 : Nat) : Int) := by push_cast; rfl
    have htoNat : (i : Int).toNat = i := Int.toNat_natCast i
    rw [htoNat, hcast, hrec, take_succ_set elements e i hi]
    simp [List.replicate_succ]

theorem MoveMemory_shift {α : Type} (elements : List α) (b : Nat) (hb : b ≤ elements.length) :
    MoveMemory elements 0 b (8 * (elements.length - b))
      = some (elements.drop b ++ elements.drop (elements.length - b)) := by
  unfold MoveMemory
  by_cases h0 : 8 * (elements.length - b) = 0
  · have hb2 : b = elements.length := by omega
    rw [if_pos h0]
    subst hb2
    simp
  · have hdiv : 8 * (elements.length - b) / 8 = elements.length - b := by omega
    rw [if_neg h0, hdiv, if_pos ⟨by omega, by omega⟩]
    have htake : (elements.drop b).take (elements.length - b) = elements.drop b :=
      List.take_of_length_le (by simp)
    simp [htake]

theorem ShiftIndicatorBuffer_result {α : Type} (K : Consts) (D : DiagReturns) (buffer : Nat)
    (elements : List α) (b : Nat) (emptyValue : α) (diag : List DiagCall)
    (hptr : K.MIN_VALID_POINTER ≤ buffer)
    (hfit : buffer + 8 * elements.length ≤ 4294967296)
    (hb : 0 < b) (hle : b ≤ elements.length) :
    ShiftIndicatorBuffer K D buffer elements (elements.length : Int) (b : Int) emptyValue diag
      = some (TRUE, elements.drop b ++ List.replicate b emptyValue, diag) := by
  have g1 : ¬ (buffer ≠ 0 ∧ buffer < K.MIN_VALID_POINTER) := by
    rintro ⟨_, h⟩
    omega
  have g2 : ¬ ((elements.length : Int) < 0) := by omega
  have g3 : ¬ ((b : Int) < 0) := by omega
  have g4 : ¬ ((elements.length : Int) = 0 ∨ (b : Int) = 0) := by omega
  have hbytes : toUint (((elements.length : Int) - (b : Int)) * 8) = 8 * (elements.length - b) := by
    unfold toUint
    omega
  have hmoved := MoveMemory_shift elements b hle
  have hlen : (elements.drop b ++ elements.drop (elements.length - b)).length
      = elements.length := by
    simp only [List.length_append, List.length_drop]
    omega
  have hstart : ((elements.length : Int) - (b : Int)) = ((elements.length - b : Nat) : Int) := by
    omega
  have hfill := fillLoop_fills emptyValue b (elements.length - b)
    (elements.drop b ++ elements.drop (elements.length - b)) (b + 1) (by omega)
    (by rw [hlen]; omega)
  rw [hlen] at hfill
  have htake : (elements.drop b ++ elements.drop (elements.length - b)).take (elements.length - b)
      = elements.drop b := by
    rw [List.take_append_of_le_length (by simp)]
    exact List.take_of_length_le (by simp)
  rw [htake] at hfill
  unfold ShiftIndicatorBuffer
  rw [if_neg g1, if_neg g2, if_neg g3, if_neg g4, hbytes, Int.toNat_natCast, hmoved]
  simp only []
  rw [hstart, hfill]

/-- C15: for every buffer of bufferSize elements (a valid pointer to an array that lies in the
32-bit address space) and every bars with 0 < bars <= bufferSize, ShiftIndicatorBuffer returns
TRUE without a diagnostic call, and after the call element i equals the old element i+bars for
every 0 <= i < bufferSize-bars and every element i with bufferSize-bars <= i < bufferSize equals
emptyValue. -/
theorem ShiftIndicatorBuffer_shifts {α : Type} (K : Consts) (D : DiagReturns) (buffer : Nat)
    (elements : List α) (bufferSize bars : Int) (emptyValue : α) (diag : List DiagCall)
    (hptr : K.MIN_VALID_POINTER ≤ buffer)
    (hsize : (elements.length : Int) = bufferSize)
    (hfit : buffer + 8 * elements.length ≤ 4294967296)
    (hbars : 0 < bars) (hle : bars ≤ bufferSize) :
    ∃ after : List α,
      ShiftIndicatorBuffer K D buffer elements bufferSize bars emptyValue diag
        = some (TRUE, after, diag) ∧
      after.length = elements.length ∧
      (∀ i : Nat, (i : Int) < bufferSize - bars → after[i]? = elements[i + bars.toNat]?) ∧
      (∀ i : Nat, bufferSize - bars ≤ (i : Int) → (i : Int) < bufferSize →
        after[i]? = some emptyValue) := by
  obtain ⟨b, rfl⟩ : ∃ b : Nat, bars = (b : Int) := ⟨bars.toNat, by omega⟩
  subst hsize
  have hb : 0 < b := by omega
  have hble : b ≤ elements.length := by omega
  refine ⟨elements.drop b ++ List.replicate b emptyValue,
    ShiftIndicatorBuffer_result K D buffer elements b emptyValue diag hptr hfit hb hble,
    ?_, ?_, ?_⟩
  · simp only [List.length_append, List.length_drop, List.length_replicate]
    omega
  · intro i hi
    have hi' : i < (elements.drop b).length := by
      simp only [List.length_drop]
      omega
    rw [List.getElem?_append_left hi', List.getElem?_drop, Int.toNat_natCast, Nat.add_comm]
  · intro i hlo hhi
    have hi' : (elements.drop b).length ≤ i := by
      simp only [List.length_drop]
      omega
    rw [List.getElem?_append_right hi']
    simp only [List.length_drop]
    rw [List.getElem?_replicate]
    have : i - (elements.length - b) < b := by omega
    simp [this]

theorem ShiftIndicatorBuffer_shifts_witness :
    (mt4Consts.MIN_VALID_POINTER ≤ 0x20000 ∧
        (([10, 11, 12, 13, 14] : List Nat).length : Int) = 5 ∧
        0x20000 + 8 * ([10, 11, 12, 13, 14] : List Nat).length ≤ 4294967296 ∧
        (0 : Int) < 2 ∧ (2 : Int) ≤ 5) ∧
      ShiftIndicatorBuffer mt4Consts mt4Diag 0x20000 ([10, 11, 12, 13, 14] : List Nat) 5 2 0 []
        = some (TRUE, [12, 13, 14, 0, 0], []) ∧
      ∃ after : List Nat,
        ShiftIndicatorBuffer mt4Consts mt4Diag 0x20000 [10, 11, 12, 13, 14] 5 2 0 []
          = some (TRUE, after, []) ∧
        after.length = ([10, 11, 12, 13, 14] : List Nat).length ∧
        (∀ i : Nat, (i : Int) < 5 - 2 →
          after[i]? = ([10, 11, 12, 13, 14] : List Nat)[i + (2 : Int).toNat]?) ∧
        (∀ i : Nat, (5 : Int) - 2 ≤ (i : Int) → (i : Int) < 5 → after[i]? = some 0) :=
  ⟨⟨by decide, by decide, by decide, by decide, by decide⟩, by decide,
    ShiftIndicatorBuffer_shifts mt4Consts mt4Diag 0x20000 [10, 11, 12, 13, 14] 5 2 0 []
      (by decide) (by decide) (by decide) (by decide) (by decide)⟩

/-- C16 (amended): if `_debug` returns 0, then ShiftIndicatorBuffer returns FALSE, the value of
its debug call, whenever bufferSize < 0 or bars < 0; it returns TRUE without a diagnostic call
whenever neither is negative, the buffer pointer is NULL or not below MIN_VALID_POINTER, and
bufferSize = 0 or bars = 0; in all these cases no element of the buffer is modified. -/
theorem ShiftIndicatorBuffer_rejected_or_empty {α : Type} (K : Consts) (D : DiagReturns)
    (buffer : Nat) (elements : List α) (bufferSize bars : Int) (emptyValue : α)
    (diag : List DiagCall) (hdebug : D.debugReturn = 0) :
    (bufferSize < 0 ∨ bars < 0 →
        ShiftIndicatorBuffer K D buffer elements bufferSize bars emptyValue diag
          = some (FALSE, elements, diag ++ [.debug])) ∧
      (¬ (buffer ≠ 0 ∧ buffer < K.MIN_VALID_POINTER) → 0 ≤ bufferSize → 0 ≤ bars →
        bufferSize = 0 ∨ bars = 0 →
        ShiftIndicatorBuffer K D buffer elements bufferSize bars emptyValue diag
          = some (TRUE, elements, diag)) := by
  constructor
  · intro hneg
    unfold ShiftIndicatorBuffer
    rw [hdebug]
    by_cases g1 : buffer ≠ 0 ∧ buffer < K.MIN_VALID_POINTER
    · rw [if_pos g1]
      rfl
    · rw [if_neg g1]
      by_cases g2 : bufferSize < 0
      · rw [if_pos g2]
        rfl
      · rw [if_neg g2]
        have g3 : bars < 0 := by
          rcases hneg with h | h
          · exact absurd h g2
          · exact h
        rw [if_pos g3]
        rfl
  · intro g1 hsize hbars hzero
    unfold ShiftIndicatorBuffer
    rw [if_neg g1, if_neg (by omega), if_neg (by omega), if_pos hzero]

theorem ShiftIndicatorBuffer_rejected_or_empty_witness :
    mt4Diag.debugReturn = 0 ∧
      ((((-1 : Int) < 0 ∨ (0 : Int) < 0) →
          ShiftIndicatorBuffer mt4Consts mt4Diag 0x20000 ([10, 11, 12] : List Nat) (-1) 0 0 []
            = some (FALSE, [10, 11, 12], [.debug])) ∧
        (¬ ((0x20000 : Nat) ≠ 0 ∧ 0x20000 < mt4Consts.MIN_VALID_POINTER) →
          (0 : Int) ≤ -1 → (0 : Int) ≤ 0 → ((-1 : Int) = 0 ∨ (0 : Int) = 0) →
          ShiftIndicatorBuffer mt4Consts mt4Diag 0x20000 ([10, 11, 12] : List Nat) (-1) 0 0 []
            = some (TRUE, [10, 11, 12], []))) ∧
      ShiftIndicatorBuffer mt4Consts mt4Diag 0x20000 ([10, 11, 12] : List Nat) 3 0 0 []
        = some (TRUE, [10, 11, 12], []) :=
  ⟨rfl,
    ShiftIndicatorBuffer_rejected_or_empty mt4Consts mt4Diag 0x20000 [10, 11, 12] (-1) 0 0 [] rfl,
    (ShiftIndicatorBuffer_rejected_or_empty mt4Consts mt4Diag 0x20000 [10, 11, 12] 3 0 0 []
      rfl).2 (by decide) (by decide) (by decide) (by decide)⟩

/-- C16 (as stated) fails: with bufferSize = 0 and bars = -1 the claim demands FALSE, because
bars < 0, and TRUE, because bufferSize = 0. The function tests bars < 0 before the empty case and
returns the value of its debug call, FALSE, so whatever `_debug` returns the two demands are not
both met. -/
theorem ShiftIndicatorBuffer_empty_and_negative :
    ShiftIndicatorBuffer mt4Consts mt4Diag 0x20000 ([] : List Nat) 0 (-1) 0 []
        = some (FALSE, [], [.debug]) ∧
      ShiftIndicatorBuffer mt4Consts mt4Diag 0x20000 ([] : List Nat) 0 (-1) 0 []
        ≠ some (TRUE, [], []) ∧
      ¬ ∃ (D : DiagReturns) (result : Int × List Nat × List DiagCall),
        ShiftIndicatorBuffer mt4Consts D 0x20000 ([] : List Nat) 0 (-1) 0 [] = some result ∧
        (((0 : Int) < 0 ∨ (-1 : Int) < 0) → result.1 = FALSE) ∧
        (((0 : Int) = 0 ∨ (-1 : Int) = 0) → result.1 = TRUE) := by
  refine ⟨by decide, by decide, ?_⟩
  rintro ⟨D, result, _, hfalse, htrue⟩
  have h1 := hfalse (Or.inr (by decide))
  have h2 := htrue (Or.inl rfl)
  rw [h1] at h2
  exact TRUE_ne_FALSE h2.symm

end Expander
